import Mathlib

/-!
# authme: server request handling, user database and text codec

A shallow embedding of `authme`: the server side (`src/share/protocol.h`,
`src/share/utils.c`, `src/server/list.c`, `src/server/user.c`,
`src/server/ipc.c`, `src/server/database.c`), the request functions of the
client (`src/client/utils.c`, `src/client/user.c`, `src/client/instruction.c`)
and the steps of the processes on the semaphores and on the shared frame
(`src/server/auth-server.c`).

Conventions of the embedding.

* A `char` array is a `List Nat` of byte values.  A C string is read from an
  array up to its first NUL byte; the end of the list stands for the end of the
  array and reads as NUL.
* The `enum` words of a packet are kept as the integers the compiler assigns
  (`ONLINE = 0`, `SUCCESS = 0`, `ERROR = 1`, ...).
* Global state (`database`, `clients`, the state of `rand()`) is passed
  explicitly.  `malloc` is assumed to succeed.  The heap is not modelled,
  except for the buffer `line` of `read_database`, which the loop frees and
  hands to `getline` again.
-/

namespace Authme

set_option maxRecDepth 8000

/-! ## `share/protocol.h` -/

/-- The maximum size of the username field. -/
abbrev MAX_USERNAME_LEN : Nat := 32

/-- The maximum size of the password field. -/
abbrev MAX_PASSWORD_LEN : Nat := 32

/-- The maximum size of the secret field. -/
abbrev MAX_SECRET_LEN : Nat := 128

/-- The length of a session id. -/
abbrev SESSION_ID_SIZE : Nat := 32

/-- The size of the shared memory. -/
abbrev SHM_LEN : Nat :=
  10 + MAX_USERNAME_LEN + MAX_PASSWORD_LEN + MAX_SECRET_LEN + SESSION_ID_SIZE

/-- Value of `enum server_status_e` constant `ONLINE`. -/
abbrev ONLINE : Nat := 0
/-- Value of `enum server_status_e` constant `OFFLINE`. -/
abbrev OFFLINE : Nat := 1
/-- Value of `enum request_status_e` constant `SUCCESS`. -/
abbrev SUCCESS : Nat := 0
/-- Value of `enum request_status_e` constant `ERROR`. -/
abbrev ERROR : Nat := 1
/-- Value of `enum packet_e` constant `REGISTRATION`. -/
abbrev REGISTRATION : Nat := 0
/-- Value of `enum packet_e` constant `LOGIN`. -/
abbrev LOGIN : Nat := 1
/-- Value of `enum packet_e` constant `LOGOUT`. -/
abbrev LOGOUT : Nat := 2
/-- Value of `enum packet_e` constant `SECRET_WRITE`. -/
abbrev SECRET_WRITE : Nat := 3
/-- Value of `enum packet_e` constant `SECRET_READ`. -/
abbrev SECRET_READ : Nat := 4

/-- The shared frame, seen through the five packet structs.  All of them start
with the words `status`, `rstatus`, `type` (bytes 0..11) and continue with a
33-byte array (bytes 12..44), a second 33-byte array (bytes 45..77) and then
either a 33-byte array (`packet_login.session_id`) or a 129-byte array
(`secret`), both starting at byte 78.  `slot3` is the 129-byte region
78..206 and `rest` the bytes 207..233 no struct reaches.

* registration, login: `username = slot1`, `password = slot2`;
  login: `session_id =` first 33 bytes of `slot3`;
* logout, secret_write, secret_read: `session_id = slot1`,
  `username = slot2`, `secret = slot3`. -/
structure Frame where
  status : Nat
  rstatus : Nat
  type : Nat
  slot1 : List Nat
  slot2 : List Nat
  slot3 : List Nat
  rest : List Nat
  deriving DecidableEq, Repr

/-! ## C library -/

/-- The C string held in a buffer: the bytes before the first NUL. -/
def cstr (buf : List Nat) : List Nat := buf.takeWhile (fun c => c != 0)

/-- Libc `strlen`. -/
def strlen (buf : List Nat) : Nat := (cstr buf).length

/-- Libc `strncmp`: compares at most `n` bytes and stops after a NUL. -/
def strncmp : List Nat → List Nat → Nat → Int
  | _, _, 0 => 0
  | a, b, n + 1 =>
    let x := a.headD 0
    let y := b.headD 0
    if x ≠ y then (x : Int) - (y : Int)
    else if x = 0 then 0
    else strncmp a.tail b.tail n

/-- Libc `strncpy(dst, src, n)`: exactly `n` bytes of `dst` are written, the
string of `src` cut at `n` bytes and padded with NUL bytes up to `n`. -/
def strncpy (dst src : List Nat) (n : Nat) : List Nat :=
  (cstr src).take n ++ List.replicate (n - strlen src) 0 ++ dst.drop n

/-- Libc `memset(buf, c, n)`. -/
def memset (buf : List Nat) (c n : Nat) : List Nat :=
  List.replicate n c ++ buf.drop n

/-- Libc `strchr` for a non-NUL `c`: the index of the first `c` in the string,
`none` standing for `NULL`. -/
def strchr (str : List Nat) (c : Nat) : Option Nat :=
  if c ∈ cstr str then some ((cstr str).indexOf c) else none

/-- Libc `isspace` in the "C" locale: space, `\t`, `\n`, `\v`, `\f`, `\r`. -/
def isspace (c : Nat) : Bool := c == 32 || (9 ≤ c && c ≤ 13)

/-! ## `share/utils.c` -/

/-- Body of the first loop of `str_strip` at index `i`; the state is
`(str, has_content, current)` and `current` is a `uint16_t`. -/
def str_strip_step (st : List Nat × Bool × Nat) (i : Nat) : List Nat × Bool × Nat :=
  if st.2.1 || !isspace (st.1.getD i 0) then
    (st.1.set st.2.2 (st.1.getD i 0), true, (st.2.2 + 1) % 65536)
  else st

/-- Second loop of `str_strip`, `for (int i = current - 1; i >= 0; i--)`; the
argument is `i + 1`. -/
def str_strip_trim (str : List Nat) : Nat → List Nat
  | 0 => str
  | i + 1 =>
    if !isspace (str.getD i 0) then str.set (i + 1) 0
    else str_strip_trim str i

/-- `str_strip`: the buffer after the in-place strip. -/
def str_strip (str : List Nat) : List Nat :=
  let len := strlen str
  let st := (List.range len).foldl str_strip_step (str, false, 0)
  let str := st.1.set st.2.2 0
  str_strip_trim str st.2.2

/-- `is_valid_field`. -/
def is_valid_field (str : List Nat) (allow_empty : Bool) : Bool :=
  if strlen str = 0 then allow_empty
  else if (strchr str 10).isSome then false
  else if (strchr str 59).isSome then false
  else true

/-- `randd() * 62` converted to `int`, for the value `r` returned by `rand()`:
the integer part of `r / (RAND_MAX + 1) * 62`.  `RAND_MAX` is a constant of the
C library and is taken as a parameter. -/
def randd_index (RAND_MAX r : Nat) : Nat := r * 62 / (RAND_MAX + 1)

/-! ## `server/list.c` -/

/-- `list_add`: the object is appended at the tail. -/
def list_add {α : Type} (list : List α) (obj : α) : Bool × List α :=
  (true, list ++ [obj])

/-- `list_remove`: the element whose data pointer is `obj` is unlinked; the
pointer is given by the position `i` of the element. -/
def list_remove {α : Type} (list : List α) (i : Nat) : Bool × List α :=
  if i < list.length then (true, list.eraseIdx i) else (false, list)

/-! ## `server/database.h`, `server/ipc.h` -/

/-- Struct for a database entry: arrays of 33, 33 and 129 bytes. -/
structure entry_t where
  username : List Nat
  password : List Nat
  secret : List Nat
  deriving DecidableEq, Repr

/-- Representation of a client: two arrays of 33 bytes. -/
structure client_t where
  session_id : List Nat
  username : List Nat
  deriving DecidableEq, Repr

/-! ## `server/user.c` -/

/-- `user_exists`. -/
def user_exists (database : List entry_t) (username : List Nat) : Bool :=
  database.any (fun e => strncmp e.username username (MAX_USERNAME_LEN + 1) == 0)

/-- `user_register`: the result, the database, and the two argument buffers
after the call (they are stripped in place). -/
def user_register (database : List entry_t) (username password : List Nat) :
    Bool × List entry_t × List Nat × List Nat :=
  if user_exists database username then (false, database, username, password)
  else
    let username := str_strip username
    let password := str_strip password
    if !is_valid_field username false || !is_valid_field password false then
      (false, database, username, password)
    else
      let e : entry_t := ⟨List.replicate 33 0, List.replicate 33 0, List.replicate 129 0⟩
      let e := { e with username := strncpy e.username username (MAX_USERNAME_LEN + 1) }
      let e := { e with password := strncpy e.password password (MAX_PASSWORD_LEN + 1) }
      let r := list_add database e
      (r.1, r.2, username, password)

/-- `user_verify_credentials`. -/
def user_verify_credentials (database : List entry_t) (username password : List Nat) : Bool :=
  database.any (fun e =>
    strncmp e.username username MAX_USERNAME_LEN == 0 &&
    strncmp e.password password MAX_PASSWORD_LEN == 0)

/-- `user_login`. -/
def user_login (clients : List client_t) (username session_id : List Nat) :
    Bool × List client_t :=
  let c : client_t := ⟨List.replicate 33 0, List.replicate 33 0⟩
  let c := { c with session_id := strncpy c.session_id session_id (SESSION_ID_SIZE + 1) }
  let c := { c with username := strncpy c.username username (MAX_USERNAME_LEN + 1) }
  list_add clients c

/-- `user_logout`. -/
def user_logout (clients : List client_t) (username session_id : List Nat) :
    Bool × List client_t :=
  match clients.findIdx? (fun e =>
      strncmp e.username username MAX_USERNAME_LEN == 0 &&
      strncmp e.session_id session_id SESSION_ID_SIZE == 0) with
  | some i => list_remove clients i
  | none => (false, clients)

/-- `user_secret_read`: the secret array of the first matching entry, `none`
for `NULL`. -/
def user_secret_read (database : List entry_t) (username : List Nat) : Option (List Nat) :=
  (database.find? (fun e => strncmp e.username username MAX_USERNAME_LEN == 0)).map
    (fun e => e.secret)

/-- The loop of `user_secret_write` over the entries. -/
def user_secret_write_loop (username secret : List Nat) : List entry_t → Bool × List entry_t
  | [] => (false, [])
  | e :: rest =>
    if strncmp e.username username MAX_USERNAME_LEN == 0 then
      (true, { e with secret := strncpy e.secret secret (MAX_SECRET_LEN + 1) } :: rest)
    else
      let r := user_secret_write_loop username secret rest
      (r.1, e :: r.2)

/-- `user_secret_write`: the result, the database and the `secret` buffer after
the call (it is stripped in place). -/
def user_secret_write (database : List entry_t) (username secret : List Nat) :
    Bool × List entry_t × List Nat :=
  let secret := str_strip secret
  if !is_valid_field secret true then (false, database, secret)
  else
    let r := user_secret_write_loop username secret database
    (r.1, r.2, secret)

/-! ## `server/ipc.c` -/

/-- The globals of the server process that the packet handlers use: the two
lists and the state of the C library generator (`rand i` is the value returned
by the `i`-th call of `rand()`, `rand_calls` the number of calls made). -/
structure Server where
  database : List entry_t
  clients : List client_t
  RAND_MAX : Nat
  rand : Nat → Nat
  rand_calls : Nat

/-- The table `alphanum` of `generate_session_id` (without its terminator). -/
def alphanum : List Nat :=
  (List.range 26).map (fun i => 97 + i) ++ (List.range 26).map (fun i => 65 + i) ++
    (List.range 10).map (fun i => 48 + i)

/-- `generate_session_id`: `SESSION_ID_SIZE` bytes of `buffer` are written, one
call of `rand()` each; returns the buffer and the new call count. -/
def generate_session_id (RAND_MAX : Nat) (rand : Nat → Nat) (calls : Nat)
    (buffer : List Nat) : List Nat × Nat :=
  ((List.range SESSION_ID_SIZE).map
      (fun i => alphanum.getD (randd_index RAND_MAX (rand (calls + i))) 0)
    ++ buffer.drop SESSION_ID_SIZE,
   calls + SESSION_ID_SIZE)

/-- `is_valid_session`. -/
def is_valid_session (clients : List client_t) (session_id username : List Nat) : Bool :=
  clients.any (fun c =>
    strncmp c.session_id session_id SESSION_ID_SIZE == 0 &&
    strncmp c.username username MAX_USERNAME_LEN == 0)

/-- `process_registration`. -/
def process_registration (s : Server) (p : Frame) : Server × Frame :=
  let p := { p with slot1 := p.slot1.set MAX_USERNAME_LEN 0 }
  let p := { p with slot2 := p.slot2.set MAX_PASSWORD_LEN 0 }
  let r := user_register s.database p.slot1 p.slot2
  let p := { p with slot1 := r.2.2.1, slot2 := r.2.2.2 }
  if r.1 then ({ s with database := r.2.1 }, { p with rstatus := SUCCESS })
  else ({ s with database := r.2.1 }, { p with rstatus := ERROR })

/-- `process_login`. -/
def process_login (s : Server) (p : Frame) : Server × Frame :=
  let p := { p with slot1 := p.slot1.set MAX_USERNAME_LEN 0 }
  let p := { p with slot2 := p.slot2.set MAX_PASSWORD_LEN 0 }
  if user_verify_credentials s.database p.slot1 p.slot2 then
    let g := generate_session_id s.RAND_MAX s.rand s.rand_calls p.slot3
    let p := { p with slot3 := g.1.set SESSION_ID_SIZE 0 }
    let r := user_login s.clients p.slot1 p.slot3
    ({ s with clients := r.2, rand_calls := g.2 }, p)
  else
    (s, { p with slot3 := memset p.slot3 0 (SESSION_ID_SIZE + 1) })

/-- `process_logout`. -/
def process_logout (s : Server) (p : Frame) : Server × Frame :=
  let p := { p with slot1 := p.slot1.set SESSION_ID_SIZE 0 }
  let p := { p with slot2 := p.slot2.set MAX_USERNAME_LEN 0 }
  if is_valid_session s.clients p.slot1 p.slot2 then
    let r := user_logout s.clients p.slot2 p.slot1
    if r.1 then ({ s with clients := r.2 }, { p with rstatus := SUCCESS })
    else ({ s with clients := r.2 }, { p with rstatus := ERROR })
  else (s, { p with rstatus := ERROR })

/-- `process_secret_write`. -/
def process_secret_write (s : Server) (p : Frame) : Server × Frame :=
  let p := { p with slot1 := p.slot1.set SESSION_ID_SIZE 0 }
  let p := { p with slot2 := p.slot2.set MAX_USERNAME_LEN 0 }
  let p := { p with slot3 := p.slot3.set MAX_SECRET_LEN 0 }
  if is_valid_session s.clients p.slot1 p.slot2 then
    let r := user_secret_write s.database p.slot2 p.slot3
    let p := { p with slot3 := r.2.2 }
    if r.1 then ({ s with database := r.2.1 }, { p with rstatus := SUCCESS })
    else ({ s with database := r.2.1 }, { p with rstatus := ERROR })
  else (s, { p with rstatus := ERROR })

/-- `process_secret_read`. -/
def process_secret_read (s : Server) (p : Frame) : Server × Frame :=
  let p := { p with slot1 := p.slot1.set SESSION_ID_SIZE 0 }
  let p := { p with slot2 := p.slot2.set MAX_USERNAME_LEN 0 }
  if is_valid_session s.clients p.slot1 p.slot2 then
    match user_secret_read s.database p.slot2 with
    | some secret => (s, { p with slot3 := strncpy p.slot3 secret MAX_SECRET_LEN })
    | none => (s, { p with slot3 := memset p.slot3 0 MAX_SECRET_LEN })
  else (s, { p with slot3 := memset p.slot3 0 MAX_SECRET_LEN })

/-- The `switch` of `handle_packet`; `none` is the failed `assert(false)` of the
default case. -/
def dispatch (s : Server) (p : Frame) : Option (Server × Frame) :=
  if p.type = REGISTRATION then some (process_registration s p)
  else if p.type = LOGIN then some (process_login s p)
  else if p.type = LOGOUT then some (process_logout s p)
  else if p.type = SECRET_WRITE then some (process_secret_write s p)
  else if p.type = SECRET_READ then some (process_secret_read s p)
  else none

/-- The bytes of an `enum` word: four bytes, least significant first. -/
def word_bytes (w : Nat) : List Nat :=
  [w % 256, w / 256 % 256, w / 65536 % 256, w / 16777216 % 256]

/-- The value of an `enum` word stored in four bytes. -/
def word_value (b : List Nat) : Nat :=
  b.getD 0 0 + 256 * b.getD 1 0 + 65536 * b.getD 2 0 + 16777216 * b.getD 3 0

/-- The `SHM_LEN` bytes of the shared memory behind a frame. -/
def Frame.bytes (p : Frame) : List Nat :=
  word_bytes p.status ++ word_bytes p.rstatus ++ word_bytes p.type ++
    p.slot1 ++ p.slot2 ++ p.slot3 ++ p.rest

/-- The frame read from the bytes of the shared memory. -/
def Frame.ofBytes (b : List Nat) : Frame where
  status := word_value (b.take 4)
  rstatus := word_value ((b.drop 4).take 4)
  type := word_value ((b.drop 8).take 4)
  slot1 := (b.drop 12).take 33
  slot2 := (b.drop 45).take 33
  slot3 := (b.drop 78).take 129
  rest := b.drop 207

/-- Outcome of the `sem_wait` inside `sem_wait_exit`. -/
inductive WaitResult where
  | ok
  | eintr
  | failed
  deriving DecidableEq, Repr

/-- `handle_packet`.  After `sem_post(sem2)` the client owns the frame until it
posts `sem1`; `client` is what it does to the frame in between and `wait` the
outcome of the server's `sem_wait` on `sem1`.  The result is `none` when the
process does not return from the call (`assert(false)`, or `exit` inside
`sem_wait_exit(sem1, false)`). -/
def handle_packet (s : Server) (p : Frame) (client : Frame → Frame) (wait : WaitResult) :
    Option (Server × Frame) :=
  match dispatch s p with
  | none => none
  | some (s1, reply) =>
    let seen := client reply
    match wait with
    | WaitResult.ok =>
      let cleared := Frame.ofBytes (memset seen.bytes 0 SHM_LEN)
      some (s1, { cleared with status := ONLINE })
    | _ => none

/-! ## `server/database.c` -/

/-- The scan directive `%[^\n;]` on the rest of the input: the longest run of
bytes other than `\n` and `;`, which must not be empty, and the input left. -/
def scan_set (input : List Nat) : Option (List Nat × List Nat) :=
  let tok := input.takeWhile (fun c => c != 10 && c != 59)
  if tok = [] then none else some (tok, input.drop tok.length)

/-- Assignment of a scanned token to a `char` array: the bytes and a NUL.  The
directive carries no width, so a token longer than the array overruns it; the
list then simply grows, which is exact only for tokens that fit. -/
def scan_store (field tok : List Nat) : List Nat :=
  tok ++ [0] ++ field.drop (tok.length + 1)

/-- The call `sscanf(line, "%[^\n;];%[^\n;];%[^\n;]\n", e.username,
e.password, e.secret)`: the entry after the call.  Scanning stops at the first
directive that does not match. -/
def sscanf_entry (line : List Nat) (e : entry_t) : entry_t :=
  match scan_set (cstr line) with
  | none => e
  | some (u, r1) =>
    let e := { e with username := scan_store e.username u }
    match r1 with
    | 59 :: r2 =>
      match scan_set r2 with
      | none => e
      | some (p, r3) =>
        let e := { e with password := scan_store e.password p }
        match r3 with
        | 59 :: r4 =>
          match scan_set r4 with
          | none => e
          | some (x, _) => { e with secret := scan_store e.secret x }
        | _ => e
    | _ => e

/-- The lines `getline` returns for a stream, each with its `\n` (the last one
without when the stream does not end in `\n`). -/
def getlines : List Nat → List (List Nat)
  | [] => []
  | c :: rest =>
    if c = 10 then [c] :: getlines rest
    else
      match getlines rest with
      | [] => [[c]]
      | l :: ls => (c :: l) :: ls

/-- The `while` loop of `read_database` over the lines of the file: `errind`,
whether `*path` is still set, and the database.  The body calls `free(line)`
after `sscanf` and leaves `line` and `len_alloc` as they are, so every call of
`getline` after the first is handed the freed buffer; `freed` tells that
`line` points to a freed buffer.  At the end of the file `getline` returns -1
and stores nothing.  When there is a further line, `getline` stores it into
the freed buffer and the body frees the buffer a second time: the behaviour is
undefined, and the result is `none`. -/
def read_database_loop :
    List (List Nat) → Bool → List entry_t → Option (Nat × Bool × List entry_t)
  | [], _, database => some (0, true, database)
  | line :: lines, freed, database =>
    if freed then none
    else
      let e : entry_t := ⟨List.replicate 33 0, List.replicate 33 0, List.replicate 129 0⟩
      let e := sscanf_entry line e
      if !is_valid_field e.username false || !is_valid_field e.password false then
        some (2, false, database)
      else
        read_database_loop lines true (list_add database e).2

/-- `read_database`: `errind`, `*path` after the call and the database, or
`none` when the behaviour of the loop is undefined.  `file` is the content of
the file `*path` names (`fopen` is assumed to succeed); `line` is `NULL` when
the loop is entered. -/
def read_database (path : Option String) (file : List Nat) (database : List entry_t) :
    Option (Nat × Option String × List entry_t) :=
  match path with
  | none => some (1, none, database)
  | some name =>
    match read_database_loop (getlines file) false database with
    | none => none
    | some r => some (r.1, if r.2.1 then some name else none, r.2.2)

/-- The output of the loop of `save_database`: one `fprintf(fp, "%s;%s;%s\n",
...)` per entry. -/
def save_database_loop : List entry_t → List Nat
  | [] => []
  | e :: rest =>
    (cstr e.username ++ [59] ++ cstr e.password ++ [59] ++ cstr e.secret ++ [10]) ++
      save_database_loop rest

/-- `save_database`: the return code and the new content of the file (`none`
when nothing is written).  `fopen_ok` tells whether `fopen` succeeds. -/
def save_database (path : Option String) (fopen_ok : Bool) (database : List entry_t) :
    Nat × Option (List Nat) :=
  match path with
  | none => (1, none)
  | some _ =>
    if fopen_ok then (0, some (save_database_loop database)) else (2, none)

/-! ## `client/utils.c`, `client/user.c`

A client process is followed through one request function.  What it observes
of the other processes is given by an `Env`; what it does to the semaphores,
and its exit, is recorded in a trace. -/

/-- The three semaphores `sem1` (S1), `sem2` (S2) and `sem3` (S3). -/
inductive Sem where
  | sem1
  | sem2
  | sem3
  deriving DecidableEq, Repr

/-- Value of `EXIT_FAILURE`. -/
abbrev EXIT_FAILURE : Nat := 1

/-- The steps of a client that matter for the protocol: a read of
`p->status` with the value read, a call of `sem_wait` with its outcome, a call
of `sem_post`, and `print_error_plain_exit(message)`, which prints the message
and calls `exit(EXIT_FAILURE)`. -/
inductive Event where
  | read_status (value : Nat)
  | wait (sem : Sem) (result : WaitResult)
  | post (sem : Sem)
  | exit (code : Nat) (message : String)
  deriving DecidableEq, Repr

/-- What the process observes from outside: the value of `p->status` at its
`n`-th read, the outcome of its `n`-th call of `sem_wait`, and the content of
the shared frame when that call returns (as a function of the content before
the call). -/
structure Env where
  status : Nat → Nat
  wait : Nat → WaitResult
  frame : Nat → Frame → Frame

/-- The state of a client process: the shared frame as it stands, the trace of
its steps so far, the numbers of reads of `p->status` and of calls of
`sem_wait` made, and the exit code once it has called `exit`. -/
structure Client where
  frame : Frame
  trace : List Event
  reads : Nat
  waits : Nat
  exited : Option Nat

/-- A statement that writes the frame; nothing runs after `exit`. -/
def Client.write (c : Client) (g : Frame → Frame) : Client :=
  if c.exited.isSome then c else { c with frame := g c.frame }

/-- The call `sem_post(sem)`. -/
def sem_post (sem : Sem) (c : Client) : Client :=
  if c.exited.isSome then c else { c with trace := c.trace ++ [Event.post sem] }

/-- `sem_wait_checked`.  The value `sem_wait` returns is not looked at. -/
def sem_wait_checked (env : Env) (sem : Sem) (c : Client) : Client :=
  if c.exited.isSome then c
  else
    let status := env.status c.reads
    let c := { c with trace := c.trace ++ [Event.read_status status], reads := c.reads + 1 }
    if status = OFFLINE then
      { c with trace := c.trace ++ [Event.exit EXIT_FAILURE "server is not available"],
               exited := some EXIT_FAILURE }
    else if status = ONLINE then
      { c with trace := c.trace ++ [Event.wait sem (env.wait c.waits)],
               waits := c.waits + 1,
               frame := env.frame c.waits c.frame }
    else c

/-- `sem_post_checked`. -/
def sem_post_checked (env : Env) (sem : Sem) (c : Client) : Client :=
  if c.exited.isSome then c
  else
    let status := env.status c.reads
    let c := { c with trace := c.trace ++ [Event.read_status status], reads := c.reads + 1 }
    if status = OFFLINE then
      { c with trace := c.trace ++ [Event.exit EXIT_FAILURE "server is not available"],
               exited := some EXIT_FAILURE }
    else if status = ONLINE then
      { c with trace := c.trace ++ [Event.post sem] }
    else c

/-- `send_packet`. -/
def send_packet (env : Env) (c : Client) : Client :=
  sem_wait_checked env Sem.sem2 (sem_post Sem.sem1 c)

/-- `register_user`: the final state and the value returned. -/
def register_user (env : Env) (username password : List Nat) (c : Client) : Client × Nat :=
  let c := sem_wait_checked env Sem.sem3 c
  let c := sem_wait_checked env Sem.sem2 c
  let c := c.write (fun p =>
    { p with type := REGISTRATION,
             slot1 := strncpy p.slot1 username (MAX_USERNAME_LEN + 1),
             slot2 := strncpy p.slot2 password (MAX_PASSWORD_LEN + 1) })
  let c := send_packet env c
  let val := if c.frame.rstatus = ERROR then 1 else 0
  let c := sem_post Sem.sem1 c
  let c := sem_post_checked env Sem.sem3 c
  (c, val)

/-- `login_user`: the final state, the value returned and the buffer
`session_id` of the caller. -/
def login_user (env : Env) (username password : List Nat) (c : Client) :
    Client × Nat × List Nat :=
  let c := sem_wait_checked env Sem.sem3 c
  let c := sem_wait_checked env Sem.sem2 c
  let c := c.write (fun p =>
    { p with type := LOGIN,
             slot1 := strncpy p.slot1 username (MAX_USERNAME_LEN + 1),
             slot2 := strncpy p.slot2 password (MAX_PASSWORD_LEN + 1) })
  let c := send_packet env c
  let c := c.write (fun p => { p with slot3 := p.slot3.set SESSION_ID_SIZE 0 })
  let len := strlen c.frame.slot3
  let session_id := strncpy (List.replicate 33 0) c.frame.slot3 (SESSION_ID_SIZE + 1)
  let val := if len = SESSION_ID_SIZE then 0 else 1
  let c := sem_post Sem.sem1 c
  let c := sem_post_checked env Sem.sem3 c
  (c, val, session_id)

/-- `logout_user`: the final state and the value returned. -/
def logout_user (env : Env) (username session_id : List Nat) (c : Client) : Client × Nat :=
  let c := sem_wait_checked env Sem.sem3 c
  let c := sem_wait_checked env Sem.sem2 c
  let c := c.write (fun p =>
    { p with type := LOGOUT,
             slot1 := strncpy p.slot1 session_id (SESSION_ID_SIZE + 1),
             slot2 := strncpy p.slot2 username (MAX_USERNAME_LEN + 1) })
  let c := send_packet env c
  let val := if c.frame.rstatus = ERROR then 1 else 0
  let c := sem_post Sem.sem1 c
  let c := sem_post_checked env Sem.sem3 c
  (c, val)

/-- `write_secret`: the final state and the value returned. -/
def write_secret (env : Env) (username session_id secret : List Nat) (c : Client) :
    Client × Nat :=
  let c := sem_wait_checked env Sem.sem3 c
  let c := sem_wait_checked env Sem.sem2 c
  let c := c.write (fun p =>
    { p with type := SECRET_WRITE,
             slot1 := strncpy p.slot1 session_id (SESSION_ID_SIZE + 1),
             slot2 := strncpy p.slot2 username (MAX_USERNAME_LEN + 1),
             slot3 := strncpy p.slot3 secret (MAX_SECRET_LEN + 1) })
  let c := send_packet env c
  let val := if c.frame.rstatus = ERROR then 1 else 0
  let c := sem_post Sem.sem1 c
  let c := sem_post_checked env Sem.sem3 c
  (c, val)

/-- `read_secret`: the final state, the value returned and the buffer `secret`
of the caller. -/
def read_secret (env : Env) (username session_id : List Nat) (c : Client) :
    Client × Nat × List Nat :=
  let c := sem_wait_checked env Sem.sem3 c
  let c := sem_wait_checked env Sem.sem2 c
  let c := c.write (fun p =>
    { p with type := SECRET_READ,
             slot1 := strncpy p.slot1 session_id (SESSION_ID_SIZE + 1),
             slot2 := strncpy p.slot2 username (MAX_USERNAME_LEN + 1) })
  let c := send_packet env c
  let c := c.write (fun p => { p with slot3 := p.slot3.set MAX_SECRET_LEN 0 })
  let secret := strncpy (List.replicate 129 0) c.frame.slot3 (MAX_SECRET_LEN + 1)
  let val := if c.frame.rstatus = ERROR then 1 else 0
  let c := sem_post Sem.sem1 c
  let c := sem_post_checked env Sem.sem3 c
  (c, val, secret)

/-! ## `client/instruction.c` -/

/-- `handle_secret_write`.  `input` is what `getline` gave: `none` when it
returned -1, else the bytes of the line, its `\n` included, whose number is
`len_line`.  The result is the state of the client and what was printed to
`stderr`. -/
def handle_secret_write (env : Env) (username session_id : List Nat)
    (input : Option (List Nat)) (c : Client) : Client × List String :=
  match input with
  | none => (c, ["Could not read your input.\n"])
  | some line =>
    let len_line := line.length
    if len_line > MAX_SECRET_LEN then (c, ["Your secret is too long.\n"])
    else
      let line := line.set MAX_SECRET_LEN 0
      let r := write_secret env username session_id line c
      if r.1.exited.isSome then (r.1, [])
      else if r.2 ≠ 0 then (r.1, ["Could not write your new secret.\n"])
      else (r.1, [])

/-! ## The processes on the semaphores

The client processes and the server process, run one step at a time on the
three semaphores and the word `status` of the shared frame.  A statement of a
request function of `client/user.c` and a control point of `run_main_loop`,
`handle_packet` and `cleanup` of the server (`server/auth-server.c`,
`server/ipc.c`) is one step; `sem_wait_checked` and `sem_post_checked` take two,
the read of `p->status` and the call on the semaphore.  A `sem_wait` on a
semaphore of value 0 cannot take its step.  The contents of the frame other
than `status` are left out. -/

/-- A statement of a request function of `client/user.c`: a call of
`sem_wait_checked`, of `sem_post`, of `sem_post_checked`, or an access to the
shared frame. -/
inductive Stmt where
  | wait_checked (sem : Sem)
  | post (sem : Sem)
  | post_checked (sem : Sem)
  | frame
  deriving DecidableEq, Repr

/-- Where a client process stands in a request function: at statement `pc`;
`checked` tells that `sem_wait_checked` or `sem_post_checked` has read ONLINE
from `p->status` and is at its call of `sem_wait` or `sem_post`; `exited` that
the process has called `exit`. -/
structure Proc where
  pc : Nat
  checked : Bool
  exited : Bool
  deriving DecidableEq, Repr

/-- The control points of the server process, from the call of `run_main_loop`
in `main` to the end of `cleanup`, which `atexit` runs when `main` returns or
`exit` is called:

* `loop_check`: the test of `while (running)` in `run_main_loop`;
* `wait_request`: `sem_wait_exit(sem1, true)` in `run_main_loop`;
* `process`: the `switch` of `handle_packet`;
* `post_reply`: `sem_post(sem2)` in `handle_packet`;
* `wait_ack`: `sem_wait_exit(sem1, false)` in `handle_packet`;
* `scrub`: `memset(shmem, 0, SHM_LEN); pg->status = ONLINE;`;
* `running_check`: `if (!running) break;` in `run_main_loop`;
* `post_next`: `sem_post(sem2)` in `run_main_loop`;
* `set_offline`: `set_status_offline(shmem)` in `cleanup`;
* `settle`: `sem_settle(sem3)` in `cleanup`;
* `done`: the rest of `cleanup`, which touches neither a semaphore value nor
  the status, and the end of the process. -/
inductive ServerPc where
  | loop_check
  | wait_request
  | process
  | post_reply
  | wait_ack
  | scrub
  | running_check
  | post_next
  | set_offline
  | settle
  | done
  deriving DecidableEq, Repr

/-- The state of the processes: the values of the three semaphores, the word
`status` of the shared frame, the flag `running` of the server, the control
point of the server and the client processes. -/
structure Sys where
  sem1 : Nat
  sem2 : Nat
  sem3 : Nat
  status : Nat
  running : Bool
  server : ServerPc
  clients : List Proc
  deriving DecidableEq, Repr

/-- The value of a semaphore. -/
def Sys.sem (st : Sys) : Sem → Nat
  | Sem.sem1 => st.sem1
  | Sem.sem2 => st.sem2
  | Sem.sem3 => st.sem3

/-- The state with a new value of a semaphore. -/
def Sys.set_sem (st : Sys) : Sem → Nat → Sys
  | Sem.sem1, v => { st with sem1 := v }
  | Sem.sem2, v => { st with sem2 := v }
  | Sem.sem3, v => { st with sem3 := v }

/-- One step of the server process; `none` when it is blocked in `sem_wait` or
has ended.  `sem_settle` reads the value of the semaphore and posts it until
the value read has been raised to 1. -/
def server_step (st : Sys) : Option Sys :=
  match st.server with
  | ServerPc.loop_check =>
    if st.running then some { st with server := ServerPc.wait_request }
    else some { st with server := ServerPc.set_offline }
  | ServerPc.wait_request =>
    if 0 < st.sem1 then some { st with sem1 := st.sem1 - 1, server := ServerPc.process }
    else none
  | ServerPc.process => some { st with server := ServerPc.post_reply }
  | ServerPc.post_reply => some { st with sem2 := st.sem2 + 1, server := ServerPc.wait_ack }
  | ServerPc.wait_ack =>
    if 0 < st.sem1 then some { st with sem1 := st.sem1 - 1, server := ServerPc.scrub }
    else none
  | ServerPc.scrub => some { st with status := ONLINE, server := ServerPc.running_check }
  | ServerPc.running_check =>
    if st.running then some { st with server := ServerPc.post_next }
    else some { st with server := ServerPc.set_offline }
  | ServerPc.post_next => some { st with sem2 := st.sem2 + 1, server := ServerPc.loop_check }
  | ServerPc.set_offline => some { st with status := OFFLINE, server := ServerPc.settle }
  | ServerPc.settle =>
    some { st with sem3 := st.sem3 + (1 - st.sem3), server := ServerPc.done }
  | ServerPc.done => none

/-- Delivery of SIGINT or SIGTERM to the server: `handler` sets `running` to
false.  When the server is blocked in `sem_wait`, the call fails with EINTR:
`sem_wait_exit(sem1, true)` returns 1 and the loop is left with `break`,
`sem_wait_exit(sem1, false)` calls `exit`; both lead to `cleanup`. -/
def signal_step (st : Sys) : Option Sys :=
  match st.server with
  | ServerPc.done => none
  | ServerPc.wait_request =>
    if st.sem1 = 0 then some { st with running := false, server := ServerPc.set_offline }
    else some { st with running := false }
  | ServerPc.wait_ack =>
    if st.sem1 = 0 then some { st with running := false, server := ServerPc.set_offline }
    else some { st with running := false }
  | _ => some { st with running := false }

/-- One step of a client process that stands at the statement `stmt`: the new
state of the semaphores and of the process; `none` when it is blocked in
`sem_wait`.  `sem_wait_checked` and `sem_post_checked` first read `p->status`:
on OFFLINE the process exits (`print_error_plain_exit`), on ONLINE it goes on
to the call on the semaphore, on any other value it returns at once. -/
def stmt_step (st : Sys) (p : Proc) : Stmt → Option (Sys × Proc)
  | Stmt.wait_checked sem =>
    if p.checked then
      if 0 < st.sem sem then
        some (st.set_sem sem (st.sem sem - 1), { p with pc := p.pc + 1, checked := false })
      else none
    else if st.status = OFFLINE then some (st, { p with exited := true })
    else if st.status = ONLINE then some (st, { p with checked := true })
    else some (st, { p with pc := p.pc + 1 })
  | Stmt.post sem => some (st.set_sem sem (st.sem sem + 1), { p with pc := p.pc + 1 })
  | Stmt.post_checked sem =>
    if p.checked then
      some (st.set_sem sem (st.sem sem + 1), { p with pc := p.pc + 1, checked := false })
    else if st.status = OFFLINE then some (st, { p with exited := true })
    else if st.status = ONLINE then some (st, { p with checked := true })
    else some (st, { p with pc := p.pc + 1 })
  | Stmt.frame => some (st, { p with pc := p.pc + 1 })

/-- One step of the client process number `i` running the request function
`body`; `none` when it is blocked, has returned or has exited. -/
def client_step (body : List Stmt) (st : Sys) (i : Nat) : Option Sys :=
  match st.clients[i]? with
  | none => none
  | some p =>
    if p.exited then none
    else
      match body[p.pc]? with
      | none => none
      | some stmt =>
        match stmt_step st p stmt with
        | none => none
        | some (st1, p1) => some { st1 with clients := st1.clients.set i p1 }

/-- Who takes the next step. -/
inductive Label where
  | server
  | signal
  | client (i : Nat)
  deriving DecidableEq, Repr

/-- One step of the system. -/
def step (body : List Stmt) (st : Sys) : Label → Option Sys
  | Label.server => server_step st
  | Label.signal => signal_step st
  | Label.client i => client_step body st i

/-- The state after the steps of a schedule, `none` when one of them cannot be
taken. -/
def run (body : List Stmt) : List Label → Sys → Option Sys
  | [], st => some st
  | l :: ls, st =>
    match step body st l with
    | none => none
    | some st1 => run body ls st1

/-- The statements of a request function.  `register_user`, `login_user`,
`logout_user`, `write_secret` and `read_secret` all run this sequence:
`sem_wait_checked(sem3)`, `sem_wait_checked(sem2)`, the writes of the request
into the frame, `send_packet` (`sem_post(sem1)` and `sem_wait_checked(sem2)`),
the reads of the reply, `sem_post(sem1)`, `sem_post_checked(sem3)`. -/
def request_body : List Stmt :=
  [Stmt.wait_checked Sem.sem3, Stmt.wait_checked Sem.sem2, Stmt.frame, Stmt.post Sem.sem1,
   Stmt.wait_checked Sem.sem2, Stmt.frame, Stmt.post Sem.sem1, Stmt.post_checked Sem.sem3]

/-- The state once `main` of the server has opened the semaphores with the
values 0, 1, 1 and set the status ONLINE, with `n` client processes about to
call a request function. -/
def sys_init (n : Nat) : Sys :=
  ⟨0, 1, 1, ONLINE, true, ServerPc.loop_check, List.replicate n ⟨0, false, false⟩⟩

/-! ## Notions used in the statements -/

/-- A string without its leading and trailing whitespace. -/
def strip (t : List Nat) : List Nat :=
  (t.dropWhile isspace).rdropWhile isspace

/-- The `entry_t` whose three arrays hold the given strings: each array is
zero-filled after the string. -/
def mk_entry (username password secret : List Nat) : entry_t :=
  ⟨username ++ List.replicate (33 - username.length) 0,
   password ++ List.replicate (33 - password.length) 0,
   secret ++ List.replicate (129 - secret.length) 0⟩

/-- The `client_t` whose two arrays hold the given strings. -/
def mk_client (session_id username : List Nat) : client_t :=
  ⟨session_id ++ List.replicate (33 - session_id.length) 0,
   username ++ List.replicate (33 - username.length) 0⟩

/-- A session record matches a pair (session id, username) when the strings
agree on their first 32 bytes, which is the comparison `is_valid_session` and
`user_logout` make. -/
def session_matches (c : client_t) (session_id username : List Nat) : Prop :=
  (cstr c.session_id).take SESSION_ID_SIZE = (cstr session_id).take SESSION_ID_SIZE ∧
  (cstr c.username).take MAX_USERNAME_LEN = (cstr username).take MAX_USERNAME_LEN

instance (c : client_t) (session_id username : List Nat) :
    Decidable (session_matches c session_id username) := by
  unfold session_matches
  infer_instance

/-- No two records of the database have the same username. -/
def usernames_unique (database : List entry_t) : Prop :=
  (database.map (fun e => cstr e.username)).Nodup

instance (database : List entry_t) : Decidable (usernames_unique database) := by
  unfold usernames_unique
  infer_instance

/-- The string the server reads from a packet field of capacity `cap` once it
has written the terminator at index `cap`. -/
def field_str (slot : List Nat) (cap : Nat) : List Nat := cstr (slot.set cap 0)

/-- A string that may be stored in a field of capacity `cap`: at most `cap`
bytes, none of them NUL, `\n` or `;`, and not empty unless `allow_empty`. -/
def str_ok (cap : Nat) (allow_empty : Bool) (t : List Nat) : Prop :=
  t.length ≤ cap ∧ 0 ∉ t ∧ 10 ∉ t ∧ 59 ∉ t ∧ (allow_empty = false → t ≠ [])

instance (cap : Nat) (allow_empty : Bool) (t : List Nat) : Decidable (str_ok cap allow_empty t) := by
  unfold str_ok
  infer_instance

/-- A well-formed database entry: zero-filled arrays holding a username and a
password that are not empty and a secret, all within their caps and free of
the delimiters of the database file. -/
def entry_ok (e : entry_t) : Prop :=
  ∃ u p x, e = mk_entry u p x ∧ str_ok MAX_USERNAME_LEN false u ∧
    str_ok MAX_PASSWORD_LEN false p ∧ str_ok MAX_SECRET_LEN true x

/-- The frame a client hands to the server (`client/user.c`): the scrubbed
frame, all bytes zero and `status = ONLINE`, in which the client has set `type`
and copied its strings with `strncpy` into the arrays of the packet. -/
def client_frame (type : Nat) (field1 field2 field3 : List Nat) : Frame :=
  ⟨ONLINE, SUCCESS, type, strncpy (List.replicate 33 0) field1 33,
    strncpy (List.replicate 33 0) field2 33, strncpy (List.replicate 129 0) field3 129,
    List.replicate 27 0⟩

/-- The string `"alice"`. -/
def alice : List Nat := [97, 108, 105, 99, 101]

/-- The string `"pw1"`. -/
def pw1 : List Nat := [112, 119, 49]

/-- The string `"pw2"`. -/
def pw2 : List Nat := [112, 119, 50]

/-- A session id, 32 times the character `a`; it is the id `generate_session_id`
produces when every call of `rand()` returns 0. -/
def sid_a : List Nat := List.replicate 32 97

/-- A session id, 32 times the character `b`. -/
def sid_b : List Nat := List.replicate 32 98

/-- A server state with the given lists, `RAND_MAX = 32767` and a generator
whose every value is 0. -/
def server_with (database : List entry_t) (clients : List client_t) : Server :=
  ⟨database, clients, 32767, fun _ => 0, 0⟩

/-- Server states reached from an empty database by requests the dispatcher
serves. -/
inductive Reachable : Server → Prop
  | init (s : Server) : s.database = [] → Reachable s
  | step (s s1 : Server) (p p1 : Frame) :
      Reachable s → dispatch s p = some (s1, p1) → Reachable s1

/-- Server states reached from the start of the server, where the database is
whatever `read_database` loaded and the session table is empty, by requests
the dispatcher serves. -/
inductive Running : Server → Prop
  | start (s : Server) : s.clients = [] → Running s
  | step (s s1 : Server) (p p1 : Frame) :
      Running s → dispatch s p = some (s1, p1) → Running s1

/-- Every session record names a user of the database: some entry's username
agrees with the record's username on the first 32 bytes, which is the
comparison `user_secret_read` and `user_secret_write` make. -/
def sessions_known (s : Server) : Prop :=
  ∀ c ∈ s.clients, ∃ e ∈ s.database,
    (cstr e.username).take MAX_USERNAME_LEN = (cstr c.username).take MAX_USERNAME_LEN

/-- The entry `read_database` obtains from a line: the zeroed `entry_t` after
the call of `sscanf`. -/
def parse_line (line : List Nat) : entry_t :=
  sscanf_entry line ⟨List.replicate 33 0, List.replicate 33 0, List.replicate 129 0⟩

/-- The field validation `read_database` applies to a parsed entry. -/
def entry_valid (e : entry_t) : Bool :=
  is_valid_field e.username false && is_valid_field e.password false

/-- The parsed username or the parsed password of a line is empty. -/
def line_empty (line : List Nat) : Prop :=
  cstr (parse_line line).username = [] ∨ cstr (parse_line line).password = []

instance (line : List Nat) : Decidable (line_empty line) := by
  unfold line_empty
  infer_instance

/-- The strings of an entry respect the field caps: username and password of
at most 32 bytes, secret of at most 128 bytes (each array then holds its
terminator). -/
def entry_caps (e : entry_t) : Prop :=
  strlen e.username ≤ MAX_USERNAME_LEN ∧ strlen e.password ≤ MAX_PASSWORD_LEN ∧
    strlen e.secret ≤ MAX_SECRET_LEN

instance (e : entry_t) : Decidable (entry_caps e) := by
  unfold entry_caps
  infer_instance

/-- The strings of a session record respect the caps: session id and username
of at most 32 bytes. -/
def client_caps (c : client_t) : Prop :=
  strlen c.session_id ≤ SESSION_ID_SIZE ∧ strlen c.username ≤ MAX_USERNAME_LEN

instance (c : client_t) : Decidable (client_caps c) := by
  unfold client_caps
  infer_instance

/-- The line `save_database` writes for an entry: `username;password;secret\n`. -/
def entry_line (e : entry_t) : List Nat :=
  cstr e.username ++ [59] ++ cstr e.password ++ [59] ++ cstr e.secret ++ [10]

/-- The value of `randd()` for the value `r` returned by `rand()`, as a rational
number: `rand() / ((double) RAND_MAX + 1)`.  The `double` computation is exact,
and so is the product with 62, whenever `RAND_MAX + 1` is a power of two of
at most 31 bits (`RAND_MAX = 2147483647` or `32767` in the usual C
libraries). -/
def randd (RAND_MAX r : Nat) : ℚ := (r : ℚ) / ((RAND_MAX : ℚ) + 1)

/-- A character of `[A-Za-z0-9]`. -/
def is_alnum (c : Nat) : Prop :=
  (48 ≤ c ∧ c ≤ 57) ∨ (65 ≤ c ∧ c ≤ 90) ∨ (97 ≤ c ∧ c ≤ 122)

instance (c : Nat) : Decidable (is_alnum c) := by
  unfold is_alnum
  infer_instance

/-- The relation that holds between consecutive events `x`, `y` of a checked
trace: a wait directly follows a read of `p->status` that returned ONLINE; a
read that returned OFFLINE is directly followed by the exit with
`EXIT_FAILURE` and the message "server is not available"; nothing follows an
exit. -/
def follows_checked (x y : Event) : Prop :=
  (∀ sem result, y = Event.wait sem result → x = Event.read_status ONLINE) ∧
  (x = Event.read_status OFFLINE → y = Event.exit EXIT_FAILURE "server is not available") ∧
  (∀ code message, x ≠ Event.exit code message)

/-- A trace of a request function in which every wait is a checked wait: the
trace does not start with a wait, does not end with a read that returned
OFFLINE, and consecutive events satisfy `follows_checked`. -/
def trace_checked (t : List Event) : Prop :=
  List.Chain' follows_checked t ∧
  (∀ sem result, t.head? ≠ some (Event.wait sem result)) ∧
  t.getLast? ≠ some (Event.read_status OFFLINE)

/-- The invariant of a client process between two statements of a request
function: its trace so far is a checked one, and the process has exited
exactly when the trace ends with the exit with `EXIT_FAILURE` and the message
"server is not available". -/
def client_checked (c : Client) : Prop :=
  List.Chain' follows_checked c.trace ∧
  (∀ sem result, c.trace.head? ≠ some (Event.wait sem result)) ∧
  (c.exited = none → ∀ x ∈ c.trace.getLast?,
    x ≠ Event.read_status OFFLINE ∧ ∀ code message, x ≠ Event.exit code message) ∧
  (∀ code, c.exited = some code →
    code = EXIT_FAILURE ∧
    c.trace.getLast? = some (Event.exit EXIT_FAILURE "server is not available"))

/-- A client process that enters a request function: it has not exited and its
trace is empty. -/
def client_start (frame : Frame) : Client := ⟨frame, [], 0, 0, none⟩

/-- An environment in which the server stays ONLINE, the first call of
`sem_wait` is interrupted by a signal (`EINTR`) and the later calls succeed;
the frame is left as it is. -/
def env_eintr : Env :=
  ⟨fun _ => ONLINE, fun n => if n = 0 then WaitResult.eintr else WaitResult.ok, fun _ f => f⟩

/-- A database record is that of `username`: the usernames agree on their
first 32 bytes, which is the comparison `user_secret_read` and
`user_secret_write` make. -/
def user_matches (e : entry_t) (username : List Nat) : Prop :=
  (cstr e.username).take MAX_USERNAME_LEN = (cstr username).take MAX_USERNAME_LEN

instance (e : entry_t) (username : List Nat) : Decidable (user_matches e username) := by
  unfold user_matches
  infer_instance

/-- The first record of the database that is the record of `username`. -/
def first_record (database : List entry_t) (username : List Nat) : Option entry_t :=
  database.find? (fun e => decide (user_matches e username))

/-- The environment of a client that is served at once by the server in state
`s`: the server is ONLINE, no wait fails, and the third wait of a request
function, the one of `send_packet`, returns with the reply the server wrote
for the frame the client had posted. -/
def env_server (s : Server) : Env where
  status := fun _ => ONLINE
  wait := fun _ => WaitResult.ok
  frame := fun n f =>
    if n = 2 then
      match dispatch s f with
      | some (_, reply) => reply
      | none => f
    else f

/-- An environment in which the server stays ONLINE, no wait fails and the
frame is left as it is. -/
def env_online : Env := ⟨fun _ => ONLINE, fun _ => WaitResult.ok, fun _ f => f⟩

/-- The states one step of a process (no signal) leads to. -/
def succs (body : List Stmt) (st : Sys) : List Sys :=
  (Label.server :: (List.range st.clients.length).map Label.client).filterMap (step body st)

/-- The states `n` steps of the processes (no signal) lead to from the states
of `X`. -/
def level (body : List Stmt) : Nat → List Sys → List Sys
  | 0, X => X
  | n + 1, X => level body n ((X.flatMap (succs body)).dedup)


/-- The statement as the client runs it against an environment; the accesses
to the frame are left out. -/
def Stmt.run (env : Env) : Stmt → Client → Client
  | Stmt.wait_checked sem, c => sem_wait_checked env sem c
  | Stmt.post sem, c => sem_post sem c
  | Stmt.post_checked sem, c => sem_post_checked env sem c
  | Stmt.frame, c => c

/-- What a client has done to the semaphores and read of the status: its
trace, its numbers of reads and of waits, and its exit code. -/
def Client.control (c : Client) : List Event × Nat × Nat × Option Nat :=
  (c.trace, c.reads, c.waits, c.exited)

/-- The client has returned from its request function and the server is back
in `sem_wait_exit(sem1, true)` at the top of its loop. -/
def round_trip_done (body : List Stmt) (st : Sys) : Prop :=
  (∀ p ∈ st.clients, p.pc = body.length ∧ p.exited = false) ∧ st.server = ServerPc.wait_request

instance (body : List Stmt) (st : Sys) : Decidable (round_trip_done body st) := by
  unfold round_trip_done
  infer_instance

/-- Semaphore accounting in a state. -/
def accounted (body : List Stmt) (st : Sys) : Prop :=
  (st.sem1 = 0 ∨ st.sem1 = 1) ∧ (st.sem2 = 0 ∨ st.sem2 = 1) ∧ (st.sem3 = 0 ∨ st.sem3 = 1) ∧
  (round_trip_done body st →
    st.sem1 = 0 ∧ st.sem2 = 1 ∧ st.sem3 = 1 ∧ server_step st = none ∧ succs body st = []) ∧
  (¬ round_trip_done body st → succs body st ≠ [])

instance (body : List Stmt) (st : Sys) : Decidable (accounted body st) := by
  unfold accounted
  infer_instance

/-- A schedule of one round trip: the client posts its request, the server
answers, the client reads the reply and leaves, the server scrubs the frame
and goes back to its wait. -/
def round_trip_schedule : List Label :=
  [Label.server,
   Label.client 0, Label.client 0, Label.client 0, Label.client 0, Label.client 0,
   Label.client 0, Label.client 0,
   Label.server, Label.server, Label.server,
   Label.client 0, Label.client 0, Label.client 0, Label.client 0, Label.client 0,
   Label.server, Label.server, Label.server, Label.server, Label.server]

/-- A schedule of two clients and a shutdown.  Client 0 is served; client 1
waits for `sem3`, gets it when client 0 leaves, reads ONLINE from `p->status`
and calls `sem_wait(sem2)` while the server has not yet scrubbed the frame;
then the signal arrives, and the server finishes `handle_packet`, leaves its
loop and runs `cleanup`. -/
def shutdown_schedule : List Label :=
  [Label.server,
   Label.client 0, Label.client 0, Label.client 0, Label.client 0, Label.client 0,
   Label.client 0, Label.client 0,
   Label.client 1,
   Label.server, Label.server, Label.server,
   Label.client 0, Label.client 0, Label.client 0, Label.client 0, Label.client 0,
   Label.client 1, Label.client 1,
   Label.server,
   Label.signal,
   Label.server, Label.server, Label.server, Label.server]

/-! ## The processes and the shared frame

The step relation above with the frame added: who wrote each field of the
packet last, what the server found when it read the frame, and in which order
the clients submitted their requests.  A finite abstraction (`Abs`), which
follows the one client that holds `sem3`, serves to prove the exclusion for any
number of clients. -/

/-- The request functions of the client (`client/user.c`).  Each client process
of the step relation calls one of them once; a process that calls several of
them one after the other is a sequence of such clients. -/
inductive Request where
  | register_user
  | login_user
  | logout_user
  | write_secret
  | read_secret
  deriving DecidableEq, Repr

/-- The packet type a request function stores in the word `type` of the
frame. -/
def Request.type : Request → Nat
  | Request.register_user => REGISTRATION
  | Request.login_user => LOGIN
  | Request.logout_user => LOGOUT
  | Request.write_secret => SECRET_WRITE
  | Request.read_secret => SECRET_READ

/-- Who wrote into a cell of the frame last: nobody since the bytes were zeroed
(by `ftruncate` on the new shared memory object or by `memset` in
`handle_packet`), the server, or the client process number `i`.  A cell whose
last writer is client `i` holds what client `i` stored there; a store of a
single byte (a terminator) counts as a write of the cell. -/
inductive Writer where
  | zero
  | server
  | client (i : Nat)
  deriving DecidableEq, Repr

/-- The cells of the frame a request function writes before `send_packet`, in
the order of the statements: 0 is the word `type`, 1, 2 and 3 are the three
arrays of the packet (33, 33 and 129 bytes).  `write_secret` writes all four,
the other functions the first three. -/
def request_writes : Request → List Nat
  | Request.write_secret => [0, 1, 2, 3]
  | _ => [0, 1, 2]

/-- The accesses of a request function to the frame between the return of
`send_packet` and its second `sem_post(sem1)`: `some k` is a write of cell `k`,
`none` a read.  `login_user` writes `p->session_id[SESSION_ID_SIZE]` and
`read_secret` writes `p->secret[MAX_SECRET_LEN]`, both in the third array, and
each reads the frame twice; the other functions read `rstatus`. -/
def reply_accesses : Request → List (Option Nat)
  | Request.login_user => [some 3, none, none]
  | Request.read_secret => [some 3, none, none]
  | _ => [none]

/-- The statements of a request function, every access to the frame being a
statement of its own (`request_body` has one statement for the writes and one
for the reads). -/
def request_stmts (r : Request) : List Stmt :=
  [Stmt.wait_checked Sem.sem3, Stmt.wait_checked Sem.sem2] ++
    (request_writes r).map (fun _ => Stmt.frame) ++
    [Stmt.post Sem.sem1, Stmt.wait_checked Sem.sem2] ++
    (reply_accesses r).map (fun _ => Stmt.frame) ++
    [Stmt.post Sem.sem1, Stmt.post_checked Sem.sem3]

/-- The cell each statement of `request_stmts` writes, if any. -/
def request_cells (r : Request) : List (Option Nat) :=
  [none, none] ++ (request_writes r).map some ++ [none, none] ++ reply_accesses r ++
    [none, none]

/-- The index of the statement `sem_post(sem1)` of `send_packet`, with which
the request is submitted to the server. -/
def submit_pc (r : Request) : Nat := 2 + (request_writes r).length

/-- The cells of the frame the handler of a packet type writes
(`server/ipc.c`): every handler writes a terminator into the first and the
second array; `process_login`, `process_secret_write` and
`process_secret_read` also write into the third array.  No handler runs for
another value of the type (`assert(false)`).  (The word `rstatus` is not among
the cells: no client writes it.) -/
def handler_writes (type : Nat) : List Nat :=
  if type = REGISTRATION ∨ type = LOGOUT then [1, 2]
  else if type = LOGIN ∨ type = SECRET_WRITE ∨ type = SECRET_READ then [1, 2, 3]
  else []

/-- The word `type` as the server reads it from the frame: the type stored by
the client that wrote the word last, 0 when the word is zeroed. -/
def frame_type (reqs : List Request) (cells : List Writer) : Nat :=
  match cells[0]? with
  | some (Writer.client i) =>
    match reqs[i]? with
    | some r => r.type
    | none => 0
  | _ => 0

/-- The processes together with the frame: for each cell of the frame who
wrote it last, the snapshots of the cells the server has found at the `switch`
of `handle_packet`, one for each packet it has handled, and the clients in the
order in which they have submitted their request (`sem_post(sem1)` in
`send_packet`). -/
structure World where
  sys : Sys
  cells : List Writer
  observed : List (List Writer)
  submitted : List Nat
  deriving DecidableEq, Repr

/-- One step of the processes with the frame.  Client `i` runs the request
function `reqs[i]`.  The server reads the frame at the `switch` of
`handle_packet`, the handler writes its cells, and `memset` zeroes the frame
after the second wait on `sem1`. -/
def world_step (reqs : List Request) (w : World) : Label → Option World
  | Label.server =>
    match server_step w.sys with
    | none => none
    | some sys1 =>
      match w.sys.server with
      | ServerPc.process =>
        some { sys := sys1,
               cells := (handler_writes (frame_type reqs w.cells)).foldl
                 (fun c k => c.set k Writer.server) w.cells,
               observed := w.observed ++ [w.cells],
               submitted := w.submitted }
      | ServerPc.scrub =>
        some { sys := sys1, cells := List.replicate 4 Writer.zero,
               observed := w.observed, submitted := w.submitted }
      | _ => some { sys := sys1, cells := w.cells, observed := w.observed,
                    submitted := w.submitted }
  | Label.signal =>
    match signal_step w.sys with
    | none => none
    | some sys1 => some { sys := sys1, cells := w.cells, observed := w.observed,
                          submitted := w.submitted }
  | Label.client i =>
    match reqs[i]?, w.sys.clients[i]? with
    | some r, some p =>
      match client_step (request_stmts r) w.sys i with
      | none => none
      | some sys1 =>
        some { sys := sys1,
               cells :=
                 match (request_cells r)[p.pc]? with
                 | some (some k) => w.cells.set k (Writer.client i)
                 | _ => w.cells,
               observed := w.observed,
               submitted := if p.pc = submit_pc r then w.submitted ++ [i] else w.submitted }
    | _, _ => none

/-- The state after the steps of a schedule, `none` when one of them cannot be
taken. -/
def world_run (reqs : List Request) : List Label → World → Option World
  | [], w => some w
  | l :: ls, w =>
    match world_step reqs w l with
    | none => none
    | some w1 => world_run reqs ls w1

/-- The state when the server has opened the semaphores and created the shared
memory, whose bytes are zero, with `n` client processes about to call their
request function. -/
def world_init (n : Nat) : World := ⟨sys_init n, List.replicate 4 Writer.zero, [], []⟩

/-- The cells of the frame as client `i` leaves them when it alone has written
its request into the zeroed frame. -/
def submission (reqs : List Request) (i : Nat) : List Writer :=
  match reqs[i]? with
  | some r => (request_writes r).foldl (fun c k => c.set k (Writer.client i))
      (List.replicate 4 Writer.zero)
  | none => List.replicate 4 Writer.zero

/-- The client process is between its wait on `sem3` and its post on `sem3`
in the request function `r`. -/
def in_region (r : Request) (p : Proc) : Prop :=
  1 ≤ p.pc ∧ p.pc < (request_stmts r).length

instance (r : Request) (p : Proc) : Decidable (in_region r p) := by
  unfold in_region
  infer_instance

/-- The processes seen from the one client that is between its wait and its
post on `sem3`: `sys` holds that client alone (no client when none is there),
`req` is its request function; a cell is 0 when it is zeroed, 1 when that
client wrote it last, 2 when another client did and 3 when the server did;
`pending` tells that the last request submitted has not been read by the
server yet; `bad` marks the state entered by a step that breaks the
exclusion. -/
structure Abs where
  sys : Sys
  req : Request
  cells : List Nat
  pending : Bool
  bad : Bool
  deriving DecidableEq, Repr

/-- The state entered when the exclusion is broken. -/
def abs_bad : Abs :=
  ⟨⟨0, 0, 0, 0, false, ServerPc.done, []⟩, Request.register_user, [], false, true⟩

/-- The cells of a submitted request, seen from its client. -/
def abs_submission (r : Request) : List Nat :=
  (request_writes r).foldl (fun c k => c.set k 1) [0, 0, 0, 0]

/-- A step of the server, seen from the client in the region. -/
def abs_server (a : Abs) : Option Abs :=
  match server_step a.sys with
  | none => none
  | some sys1 =>
    match a.sys.server with
    | ServerPc.process =>
      if a.pending = true ∧ a.sys.clients ≠ [] ∧ a.cells = abs_submission a.req then
        some { sys := sys1, req := a.req,
               cells := (handler_writes a.req.type).foldl (fun c k => c.set k 3) a.cells,
               pending := false, bad := false }
      else some abs_bad
    | ServerPc.scrub =>
      some { sys := sys1, req := a.req, cells := [0, 0, 0, 0], pending := a.pending,
             bad := a.bad }
    | _ => some { sys := sys1, req := a.req, cells := a.cells, pending := a.pending,
                  bad := a.bad }

/-- A step of the client in the region. -/
def abs_client (a : Abs) : Option Abs :=
  match a.sys.clients with
  | [p] =>
    match client_step (request_stmts a.req) a.sys 0 with
    | none => none
    | some sys1 =>
      if p.pc = submit_pc a.req ∧ a.pending = true then some abs_bad
      else
        match sys1.clients with
        | [p1] =>
          if p1.exited = true then some abs_bad
          else if p1.pc < (request_stmts a.req).length then
            some { sys := sys1, req := a.req,
                   cells :=
                     match (request_cells a.req)[p.pc]? with
                     | some (some k) => a.cells.set k 1
                     | _ => a.cells,
                   pending := if p.pc = submit_pc a.req then true else a.pending,
                   bad := false }
          else if a.pending = true then some abs_bad
          else
            some { sys := { sys1 with clients := [] }, req := Request.register_user,
                   cells := a.cells.map (fun c => if c = 1 then 2 else c),
                   pending := false, bad := false }
        | _ => some abs_bad
  | _ => none

/-- A client passes its wait on `sem3` and starts the request function `r`. -/
def abs_enter (a : Abs) (r : Request) : Option Abs :=
  if 0 < a.sys.sem3 then
    match a.sys.clients with
    | [] =>
      some { sys := { a.sys with sem3 := a.sys.sem3 - 1, clients := [⟨1, false, false⟩] },
             req := r, cells := a.cells, pending := a.pending, bad := a.bad }
    | _ => some abs_bad
  else none

/-- The states one step leads to. -/
def abs_succs (a : Abs) : List Abs :=
  (abs_server a).toList ++ (abs_client a).toList ++
    (abs_enter a Request.register_user).toList ++ (abs_enter a Request.login_user).toList ++
    (abs_enter a Request.logout_user).toList ++ (abs_enter a Request.write_secret).toList ++
    (abs_enter a Request.read_secret).toList

/-- The state at the start. -/
def abs_init : Abs :=
  ⟨⟨0, 1, 1, ONLINE, true, ServerPc.loop_check, []⟩, Request.register_user, [0, 0, 0, 0],
    false, false⟩

/-- The control point of the server with a given number. -/
def server_pc_of : Nat → ServerPc
  | 0 => ServerPc.loop_check
  | 1 => ServerPc.wait_request
  | 2 => ServerPc.process
  | 3 => ServerPc.post_reply
  | 4 => ServerPc.wait_ack
  | 5 => ServerPc.scrub
  | 6 => ServerPc.running_check
  | 7 => ServerPc.post_next
  | 8 => ServerPc.set_offline
  | 9 => ServerPc.settle
  | _ => ServerPc.done

/-- The number of a control point of the server. -/
def ServerPc.idx : ServerPc → Nat
  | ServerPc.loop_check => 0
  | ServerPc.wait_request => 1
  | ServerPc.process => 2
  | ServerPc.post_reply => 3
  | ServerPc.wait_ack => 4
  | ServerPc.scrub => 5
  | ServerPc.running_check => 6
  | ServerPc.post_next => 7
  | ServerPc.set_offline => 8
  | ServerPc.settle => 9
  | ServerPc.done => 10

/-- The request function with a given number. -/
def request_of : Nat → Request
  | 1 => Request.login_user
  | 2 => Request.logout_user
  | 3 => Request.write_secret
  | 4 => Request.read_secret
  | _ => Request.register_user

/-- The state a number stands for.  Its digits in base 16, from the lowest, are
the three semaphore values, the control point of the server, the statement and
the flag `checked` of the client in the region (statement 0 when no client is
there), its request function, the four cells and the flag `pending`.  The
status is ONLINE, `running` is true and the client has not exited. -/
def abs_decode (c : Nat) : Abs :=
  ⟨⟨c % 16, c / 16 % 16, c / 16 ^ 2 % 16, ONLINE, true, server_pc_of (c / 16 ^ 3 % 16),
    if c / 16 ^ 4 % 16 = 0 then [] else [⟨c / 16 ^ 4 % 16, Nat.beq (c / 16 ^ 5 % 16) 1, false⟩]⟩,
   request_of (c / 16 ^ 6 % 16),
   [c / 16 ^ 7 % 16, c / 16 ^ 8 % 16, c / 16 ^ 9 % 16, c / 16 ^ 10 % 16],
   Nat.beq (c / 16 ^ 11 % 16) 1, false⟩

/-- The states of the abstraction reached from `abs_init` (the number 272), as
numbers read by `abs_decode`; `abs_closed` checks that no step leaves them. -/
def abs_codes : List Nat := [
  272, 4368, 65552, 16842768, 33619984, 50397200, 67174416, 69648,
  16846864, 33624080, 50401296, 67178512, 1114128, 17891344, 34668560, 51445776,
  68222992, 1118224, 17895440, 34672656, 51449872, 68227088, 131072, 16908288,
  33685504, 50462720, 67239936, 135168, 16912384, 33689600, 50466816, 67244032,
  268632064, 285409280, 302186496, 318963712, 335740928, 268636160, 285413376, 302190592,
  318967808, 335745024, 4563664896, 4580442112, 4597219328, 4613996544, 4630773760, 4563668992,
  4580446208, 4597223424, 4614000640, 4630777856, 73283207168, 73299984384, 73316761600, 73333538816,
  73350316032, 73283211264, 73299988480, 73316765696, 73333542912, 73350320128, 17665469317121, 17665486094337,
  17665502871553, 1172845232128, 17665536425985, 17665469321217, 17665486098433, 17665502875649, 1172845236224, 17665536430081,
  17665470365697, 17665487142913, 17665503920129, 18765031342081, 17665537474561, 17665469325312, 17665470369793, 17665486102528,
  17665487147009, 17665502879744, 17665503924225, 18765031346177, 17665536434176, 17665537478657, 18765032390657, 219312173056,
  17665470373888, 3517863833600, 17665487151104, 219345727488, 17665503928320, 18765031350272, 18765032394753, 3517914165248,
  17665537482752, 219312177168, 219313221632, 3517863837712, 3517864882176, 219345731600, 219346776064, 3517897453568,
  18765032398848, 3517914169360, 3517915213824, 219313225744, 3517864886288, 219346780176, 3517897457680, 3517898502144,
  3517915217936, 219312242688, 3517863903232, 219345797120, 3517898506256, 3517914234880, 219312308224, 1318840713216,
  219345862656, 3517897523200, 1318891044864, 219312373761, 1318840778752, 219345928193, 3517897588736, 1318891110400,
  219312377856, 219313422337, 1318840844288, 219345932288, 219346976769, 3517897654273, 1318891175936, 614400,
  219313426432, 219580219649, 1318840909825, 34168832, 219346980864, 3517897658368, 3517898702849, 1318891241473,
  618496, 1662976, 219580223744, 219580284929, 219597062145, 219613839361, 219630616577, 219647393793,
  1318840913920, 1318841958401, 34172928, 35217408, 51011584, 3517898706944, 3518115102977, 1318891245568,
  1318892290049, 589840, 1667072, 24832, 219580289024, 219597066240, 219613843456, 219630620672,
  219647397888, 219581333505, 219598110721, 219614887937, 219631665153, 219648442369, 17522688, 1318841962496,
  2418603475201, 34144272, 35221504, 51015680, 52060160, 3518115107072, 3518115168257, 3518131945473,
  3518148722689, 3518165499905, 3518182277121, 67854336, 1318892294144, 593936, 1638416, 28928,
  90112, 16867328, 33644544, 50421760, 67198976, 219581337600, 219598114816, 219614892032,
  219631669248, 219648446464, 17526784, 18571264, 2418603479296, 2418603540481, 2418620317697, 2418637094913,
  2418653872129, 2418670649345, 34148368, 35192848, 50987024, 52064256, 3518115172352, 3518131949568,
  3518148726784, 3518165504000, 3518182281216, 3518116216833, 3518132994049, 3518149771265, 3518166548481, 3518183325697,
  67858432, 68902912, 1642512, 94208, 16871424, 33648640, 50425856, 67203072,
  1138688, 17915904, 34693120, 51470336, 68247552, 17498128, 18575360, 2418603544576,
  2418620321792, 2418637099008, 2418653876224, 2418670653440, 2418604589057, 2418621366273, 2418638143489, 2418654920705,
  2418671697921, 35196944, 50991120, 52035600, 3518116220928, 3518132998144, 3518149775360, 3518166552576,
  3518183329792, 67829776, 68907008, 1142784, 17920000, 34697216, 51474432, 68251648,
  17502224, 18546704, 2418604593152, 2418621370368, 2418638147584, 2418654924800, 2418671702016, 52039696,
  67833872, 68878352, 18550800, 68882448
]

/-- Equality of two client processes, computed. -/
def Proc.same (p q : Proc) : Bool :=
  Nat.beq p.pc q.pc && (p.checked == q.checked) && (p.exited == q.exited)

/-- Equality of two lists of client processes, computed. -/
def procs_same : List Proc → List Proc → Bool
  | [], [] => true
  | p :: ps, q :: qs => p.same q && procs_same ps qs
  | _, _ => false

/-- Equality of two lists of numbers, computed. -/
def nats_same : List Nat → List Nat → Bool
  | [], [] => true
  | p :: ps, q :: qs => Nat.beq p q && nats_same ps qs
  | _, _ => false

/-- Equality of two states of the processes, computed. -/
def Sys.same (s t : Sys) : Bool :=
  Nat.beq s.sem1 t.sem1 && Nat.beq s.sem2 t.sem2 && Nat.beq s.sem3 t.sem3 &&
  Nat.beq s.status t.status && (s.running == t.running) &&
  Nat.beq s.server.idx t.server.idx && procs_same s.clients t.clients

/-- Equality of two abstract states, computed. -/
def Abs.same (a b : Abs) : Bool :=
  a.sys.same b.sys && Nat.beq a.req.type b.req.type && nats_same a.cells b.cells &&
  (a.pending == b.pending) && (a.bad == b.bad)

/-- The check that every step from a state of `abs_codes` leads to a state of
`abs_codes`; the state `abs_bad` is none of them. -/
def abs_closed : Bool :=
  abs_codes.all fun c => (abs_succs (abs_decode c)).all fun b =>
    abs_codes.any fun d => b.same (abs_decode d)

/-- The cell of the abstraction for a cell of the frame, seen from the client
`act` that is in the region. -/
def tag (act : Option Nat) : Writer → Nat
  | Writer.zero => 0
  | Writer.server => 3
  | Writer.client j => if act = some j then 1 else 2

/-- The abstraction holds the client `act` that is in the region, and no
client when none is there. -/
def active_ok (reqs : List Request) (clients : List Proc) (a : Abs) : Option Nat → Prop
  | none => a.sys.clients = []
  | some i => ∃ p r, clients[i]? = some p ∧ reqs[i]? = some r ∧ in_region r p ∧
      a.sys.clients = [p] ∧ a.req = r

/-- The state `w` of the processes and the frame is seen as the state `a` from
the client `act` in the region. -/
structure Good (reqs : List Request) (w : World) (a : Abs) (act : Option Nat) : Prop where
  /-- The semaphores, the status, the flag and the server are those of `w`. -/
  sys : a.sys = { w.sys with clients := a.sys.clients }
  /-- Every other client is outside the region. -/
  others : ∀ j q r, w.sys.clients[j]? = some q → reqs[j]? = some r → act ≠ some j →
    ¬ in_region r q
  /-- The client `act` is in the region and is the client of `a`. -/
  active : active_ok reqs w.sys.clients a act
  /-- The cells of `a` are those of the frame, seen from `act`. -/
  cells : w.cells.map (tag act) = a.cells
  /-- The snapshots are the submissions, in the order of submission. -/
  obs : w.observed = (w.submitted.take w.observed.length).map (submission reqs)
  /-- The server has read every submission, but the last one when `pending`,
  which then is the submission of `act`. -/
  pend : if a.pending = true then
      w.submitted.length = w.observed.length + 1 ∧ w.submitted[w.observed.length]? = act
    else w.submitted.length = w.observed.length
  /-- No client has submitted twice. -/
  nodup : w.submitted.Nodup
  /-- The clients that have submitted are those past the `sem_post(sem1)` of
  `send_packet`. -/
  subm : ∀ j, j ∈ w.submitted ↔
    ∃ q r, w.sys.clients[j]? = some q ∧ reqs[j]? = some r ∧ submit_pc r < q.pc
  /-- A client that has written a cell has passed its wait on `sem3`. -/
  wrote : ∀ j, Writer.client j ∈ w.cells → ∃ q, w.sys.clients[j]? = some q ∧ q.pc ≠ 0

/-- At most one client process is between its wait on `sem3` and its post on
`sem3`. -/
def exclusive (reqs : List Request) (w : World) : Prop :=
  ∀ (i j : Nat) (p q : Proc) (r s : Request), w.sys.clients[i]? = some p → w.sys.clients[j]? = some q →
    reqs[i]? = some r → reqs[j]? = some s → in_region r p → in_region s q → i = j

/-- The snapshots the server has found are the submissions of the clients in
the order in which they were submitted: `submitted` lists, each once, exactly
the clients that have gone past the `sem_post(sem1)` of `send_packet`, the
server has read the request of each of them but at most the last, and the
snapshot it found is the frame as that client alone wrote it. -/
def linearised (reqs : List Request) (w : World) : Prop :=
  w.observed = (w.submitted.take w.observed.length).map (submission reqs) ∧
  w.submitted.Nodup ∧
  (∀ j, j ∈ w.submitted ↔
    ∃ q r, w.sys.clients[j]? = some q ∧ reqs[j]? = some r ∧ submit_pc r < q.pc) ∧
  w.observed.length ≤ w.submitted.length ∧ w.submitted.length ≤ w.observed.length + 1

/-- No snapshot found by the server holds cells written by two different
clients, or a cell written by the server. -/
def unmixed (w : World) : Prop :=
  ∀ s ∈ w.observed, ∃ i, ∀ c ∈ s, c = Writer.zero ∨ c = Writer.client i

/-- The client stands at a statement that reads or writes the frame. -/
def at_frame (r : Request) (p : Proc) : Prop :=
  (request_stmts r)[p.pc]? = some Stmt.frame

instance (r : Request) (p : Proc) : Decidable (at_frame r p) := by
  unfold at_frame
  infer_instance

/-- While the server is at the `switch` of `handle_packet`, about to run the
handler of the packet, or at the `memset`, no client stands at a statement that
reads or writes the frame. -/
def undisturbed (reqs : List Request) (w : World) : Prop :=
  w.sys.server = ServerPc.process ∨ w.sys.server = ServerPc.scrub →
    ∀ (i : Nat) (p : Proc) (r : Request), w.sys.clients[i]? = some p → reqs[i]? = some r →
      ¬ at_frame r p

/-- In the abstraction, the client in the region does not stand at an access to
the frame while the server is at the `switch` or at the `memset`. -/
def abs_quiet (a : Abs) : Prop :=
  a.sys.server = ServerPc.process ∨ a.sys.server = ServerPc.scrub →
    ∀ p ∈ a.sys.clients, ¬ at_frame a.req p

instance (a : Abs) : Decidable (abs_quiet a) := by
  unfold abs_quiet
  infer_instance

/-- A schedule of the server and two clients without a signal: client 1 is
served, then client 0 enters, writes its request and submits it, and the
server passes its wait on `sem1`. -/
def exclusion_schedule : List Label :=
  [Label.client 1, Label.client 0, Label.server, Label.client 1, Label.client 1, Label.client 1,
   Label.client 1, Label.client 1, Label.client 1, Label.client 1, Label.server, Label.server,
   Label.client 1, Label.server, Label.client 1, Label.client 1, Label.client 1, Label.client 1,
   Label.client 1, Label.server, Label.server, Label.client 1, Label.server, Label.server,
   Label.client 1, Label.client 0, Label.server, Label.client 0, Label.client 0, Label.client 0,
   Label.client 0, Label.client 0, Label.client 0, Label.client 0, Label.server]

/-- The state after `exclusion_schedule`. -/
def exclusion_state : World :=
  ⟨⟨0, 0, 0, ONLINE, true, ServerPc.process, [⟨6, true, false⟩, ⟨12, false, false⟩]⟩,
   [Writer.client 0, Writer.client 0, Writer.client 0, Writer.zero],
   [[Writer.client 1, Writer.client 1, Writer.client 1, Writer.zero]],
   [1, 0]⟩

/-- A schedule in which the server receives a signal while client 0 is between
its wait and its post on `sem3` and client 1, which has read ONLINE, is at its
`sem_wait(sem3)`. -/
def signal_schedule : List Label :=
  [Label.server, Label.client 0, Label.client 0, Label.client 1, Label.signal, Label.server,
   Label.server, Label.client 1]

/-- The state after `signal_schedule`. -/
def signal_state : World :=
  ⟨⟨0, 1, 0, OFFLINE, false, ServerPc.done, [⟨1, false, false⟩, ⟨1, false, false⟩]⟩,
   [Writer.zero, Writer.zero, Writer.zero, Writer.zero], [], []⟩

/-! ## C strings -/

theorem cstr_nil : cstr [] = [] := rfl

theorem cstr_cons (c : Nat) (r : List Nat) :
    cstr (c :: r) = if c = 0 then [] else c :: cstr r := by
  by_cases h : c = 0 <;> simp [cstr, List.takeWhile_cons, h]

theorem zero_not_mem_cstr (b : List Nat) : 0 ∉ cstr b := by
  intro h
  have := List.mem_takeWhile_imp h
  simp at this

theorem cstr_of_no_zero {t : List Nat} (h : 0 ∉ t) : cstr t = t := by
  induction t with
  | nil => rfl
  | cons c r ih =>
    simp only [List.mem_cons, not_or] at h
    rw [cstr_cons, if_neg (Ne.symm h.1), ih h.2]

theorem cstr_append_zero {t : List Nat} (h : 0 ∉ t) (r : List Nat) :
    cstr (t ++ 0 :: r) = t := by
  induction t with
  | nil => simp [cstr_cons]
  | cons c r ih =>
    simp only [List.mem_cons, not_or] at h
    rw [List.cons_append, cstr_cons, if_neg (Ne.symm h.1), ih h.2]

theorem cstr_append_replicate {t : List Nat} (h : 0 ∉ t) (k : Nat) :
    cstr (t ++ List.replicate k 0) = t := by
  cases k with
  | zero => simpa using cstr_of_no_zero h
  | succ k => rw [List.replicate_succ, cstr_append_zero h]

theorem cstr_idem (b : List Nat) : cstr (cstr b) = cstr b :=
  cstr_of_no_zero (zero_not_mem_cstr b)

/-- A buffer is its string followed by nothing or by a NUL and more bytes. -/
theorem cstr_split (b : List Nat) :
    b = cstr b ∨ ∃ r, b = cstr b ++ 0 :: r := by
  induction b with
  | nil => left; rfl
  | cons c r ih =>
    rw [cstr_cons]
    by_cases h : c = 0
    · right; exact ⟨r, by simp [h]⟩
    · simp only [if_neg h]
      rcases ih with ih | ⟨r2, ih⟩
      · left; rw [← ih]
      · right; exact ⟨r2, by rw [List.cons_append, ← ih]⟩

theorem strncmp_eq_zero_iff (a b : List Nat) (n : Nat) :
    strncmp a b n = 0 ↔ (cstr a).take n = (cstr b).take n := by
  induction n generalizing a b with
  | zero => simp [strncmp]
  | succ n ih =>
    cases a with
    | nil =>
      cases b with
      | nil => simp [strncmp, cstr]
      | cons y b =>
        by_cases hy : y = 0
        · simp [strncmp, cstr_cons, hy, cstr_nil]
        · simp [strncmp, cstr_cons, hy, cstr_nil, Ne.symm hy]
    | cons x a =>
      cases b with
      | nil =>
        by_cases hx : x = 0
        · simp [strncmp, cstr_cons, hx, cstr_nil]
        · simp [strncmp, cstr_cons, hx, cstr_nil]
      | cons y b =>
        by_cases hxy : x = y
        · subst hxy
          by_cases hx : x = 0
          · simp [strncmp, cstr_cons, hx]
          · simp [strncmp, cstr_cons, hx, ih]
        · by_cases hx : x = 0
          · by_cases hy : y = 0
            · omega
            · simp [strncmp, cstr_cons, hx, hy, hxy]
              omega
          · by_cases hy : y = 0
            · simp [strncmp, cstr_cons, hx, hy, hxy]
            · simp [strncmp, cstr_cons, hx, hy, hxy]
              omega


theorem dropWhile_concat (p : Nat → Bool) (l : List Nat) (c : Nat) :
    (l ++ [c]).dropWhile p =
      if l.dropWhile p = [] then (if p c then [] else [c]) else l.dropWhile p ++ [c] := by
  induction l with
  | nil => by_cases h : p c <;> simp [List.dropWhile, h]
  | cons x l ih =>
    by_cases hx : p x
    · simp [List.dropWhile_cons, hx, ih]
    · simp [List.dropWhile_cons, hx]

theorem set_append_length (k r : List Nat) (x : Nat) :
    (k ++ r).set k.length x = k ++ r.set 0 x := by
  induction k with
  | nil => rfl
  | cons c k ih => simp [ih]

theorem getD_append_drop (k s : List Nat) (n : Nat) (h : k.length ≤ n) :
    (k ++ s.drop k.length).getD n 0 = s.getD n 0 := by
  rw [List.getD_append_right _ _ _ _ h]
  simp only [List.getD_eq_getElem?_getD, List.getElem?_drop]
  congr 2
  omega

theorem take_succ_getD (s : List Nat) (n : Nat) (h : n < s.length) :
    s.take (n + 1) = s.take n ++ [s.getD n 0] := by
  rw [List.take_succ]
  simp [List.getD_eq_getElem?_getD, List.getElem?_eq_getElem h]

theorem set_zero_drop (s : List Nat) (n : Nat) (c : Nat) (h : n < s.length) :
    (s.drop n).set 0 c = c :: s.drop (n + 1) := by
  rw [List.drop_eq_getElem_cons h, List.set_cons_zero]

theorem str_strip_loop (s : List Nat) (n : Nat) (hn : n ≤ s.length) (hlt : n < 65536) :
    (List.range n).foldl str_strip_step (s, false, 0) =
      ((s.take n).dropWhile isspace ++ s.drop ((s.take n).dropWhile isspace).length,
        decide ((s.take n).dropWhile isspace ≠ []),
        ((s.take n).dropWhile isspace).length) := by
  induction n with
  | zero => simp
  | succ n ih =>
    have hlen : ((s.take n).dropWhile isspace).length ≤ n := by
      have h1 := (List.dropWhile_sublist isspace (l := s.take n)).length_le
      have h2 := List.length_take_le n s
      omega
    rw [List.range_succ, List.foldl_append, ih (by omega) (by omega)]
    simp only [List.foldl_cons, List.foldl_nil, str_strip_step]
    rw [getD_append_drop _ _ _ hlen, take_succ_getD s n (by omega), dropWhile_concat]
    generalize hk : (s.take n).dropWhile isspace = k at hlen ⊢
    generalize s.getD n 0 = c
    by_cases hk0 : k = []
    · subst hk0
      by_cases hc : isspace c = true
      · simp [hc]
      · simp only [Bool.not_eq_true] at hc
        have h0 := set_zero_drop s 0 c (by omega)
        simp only [List.drop_zero] at h0
        simp [hc, h0]
    · have h1 := set_zero_drop s k.length c (by omega)
      have h2 : (k.length + 1) % 65536 = k.length + 1 := Nat.mod_eq_of_lt (by omega)
      simp [hk0, set_append_length, h1, h2]


theorem cstr_set_zero (k z : List Nat) (j : Nat) (hk : 0 ∉ k) (hj : j ≤ k.length) :
    cstr ((k ++ z).set j 0) = k.take j := by
  induction k generalizing j with
  | nil =>
    have : j = 0 := by simpa using hj
    subst this
    cases z <;> simp [cstr_cons, cstr_nil]
  | cons c k ih =>
    simp only [List.mem_cons, not_or] at hk
    cases j with
    | zero => simp [cstr_cons]
    | succ j =>
      simp only [List.length_cons, Nat.add_le_add_iff_right] at hj
      simp only [List.cons_append, List.set_cons_succ, List.take_succ_cons]
      rw [cstr_cons, if_neg (Ne.symm hk.1), ih j hk.2 hj]

theorem take_strlen (s : List Nat) : s.take (strlen s) = cstr s := by
  unfold strlen
  induction s with
  | nil => rfl
  | cons c r ih =>
    rw [cstr_cons]
    by_cases h : c = 0
    · simp [h]
    · simp [h, ih]

theorem strlen_le_length (s : List Nat) : strlen s ≤ s.length := by
  unfold strlen cstr
  exact (List.takeWhile_sublist _).length_le

theorem str_strip_trim_spec (k z : List Nat) (m : Nat) (hk : 0 ∉ k) (hm : m ≤ k.length)
    (hx : ∃ x ∈ k.take m, isspace x = false) :
    cstr (str_strip_trim (k ++ z) m) = (k.take m).rdropWhile isspace := by
  induction m with
  | zero => simp at hx
  | succ i ih =>
    have hi : i < k.length := by omega
    have hget : (k ++ z).getD i 0 = k.getD i 0 := List.getD_append _ _ _ _ hi
    rw [take_succ_getD k i hi] at hx ⊢
    simp only [str_strip_trim, hget]
    by_cases hc : isspace (k.getD i 0) = true
    · simp only [hc, Bool.not_true, Bool.false_eq_true, if_false]
      rw [List.rdropWhile_concat_pos _ _ _ hc]
      apply ih (by omega)
      obtain ⟨x, hxm, hxs⟩ := hx
      rcases List.mem_append.1 hxm with h | h
      · exact ⟨x, h, hxs⟩
      · simp only [List.mem_singleton] at h
        subst h
        rw [hc] at hxs
        cases hxs
    · simp only [hc, Bool.not_false, if_true]
      rw [List.rdropWhile_concat_neg _ _ _ hc, cstr_set_zero k z (i + 1) hk (by omega),
        take_succ_getD k i hi]

theorem dropWhile_head_not (p : Nat → Bool) (l : List Nat) (h : l.dropWhile p ≠ []) :
    ∃ x ∈ l.dropWhile p, p x = false := by
  induction l with
  | nil => simp at h
  | cons c l ih =>
    by_cases hc : p c = true
    · simp only [List.dropWhile_cons, hc, if_true] at h ⊢
      exact ih h
    · simp only [List.dropWhile_cons, hc]
      exact ⟨c, by simp, by simpa using hc⟩

/-- The string left by `str_strip` is the string without its outer whitespace. -/
theorem cstr_str_strip (s : List Nat) (h : strlen s < 65536) :
    cstr (str_strip s) = strip (cstr s) := by
  unfold str_strip
  simp only
  rw [str_strip_loop s (strlen s) (strlen_le_length s) h, take_strlen]
  simp only [set_append_length]
  unfold strip
  generalize hk : (cstr s).dropWhile isspace = k
  have hk0 : 0 ∉ k := by
    intro h0
    rw [← hk] at h0
    exact zero_not_mem_cstr s ((List.dropWhile_sublist _).subset h0)
  by_cases hne : k = []
  · subst hne
    simp only [List.length_nil, str_strip_trim, List.nil_append]
    cases hd : List.drop 0 s <;> simp [cstr_cons, cstr_nil, List.rdropWhile]
  · have hx : ∃ x ∈ k.take k.length, isspace x = false := by
      rw [List.take_length, ← hk]
      exact dropWhile_head_not _ _ (by rw [hk]; exact hne)
    rw [str_strip_trim_spec k _ k.length hk0 (le_refl _) hx, List.take_length]

theorem strip_length_le (t : List Nat) : (strip t).length ≤ t.length := by
  unfold strip
  have h1 : ((t.dropWhile isspace).rdropWhile isspace).length ≤ (t.dropWhile isspace).length := by
    rw [List.rdropWhile]
    have := (List.dropWhile_sublist isspace (l := (t.dropWhile isspace).reverse)).length_le
    simpa using this
  have h2 := (List.dropWhile_sublist isspace (l := t)).length_le
  omega

theorem strip_subset (t : List Nat) : strip t ⊆ t := by
  unfold strip
  intro x hx
  rw [List.rdropWhile] at hx
  have h1 := (List.dropWhile_sublist isspace (l := (t.dropWhile isspace).reverse)).subset
    (List.mem_reverse.1 hx)
  exact (List.dropWhile_sublist isspace).subset (List.mem_reverse.1 h1)

theorem zero_not_mem_strip_cstr (s : List Nat) : 0 ∉ strip (cstr s) :=
  fun h => zero_not_mem_cstr s (strip_subset _ h)

theorem is_valid_field_iff (s : List Nat) (allow_empty : Bool) :
    is_valid_field s allow_empty = true ↔
      if cstr s = [] then allow_empty = true else (10 ∉ cstr s ∧ 59 ∉ cstr s) := by
  unfold is_valid_field strchr strlen
  by_cases h : cstr s = []
  · simp [h]
  · have : (cstr s).length ≠ 0 := by simpa using h
    by_cases h10 : 10 ∈ cstr s <;> by_cases h59 : 59 ∈ cstr s <;> simp [h, h10, h59]

theorem take_eq_take_iff_of_short (a b : List Nat) (n : Nat) (h : b.length < n) :
    a.take n = b.take n ↔ a = b := by
  constructor
  · intro hab
    rw [List.take_of_length_le (le_of_lt h)] at hab
    have hl : (a.take n).length = b.length := by rw [hab]
    rw [List.length_take] at hl
    have : a.length ≤ n := by omega
    rw [List.take_of_length_le this] at hab
    exact hab
  · intro hab; rw [hab]

theorem strncpy_zeroed (k n : Nat) (src : List Nat) (h : strlen src ≤ n) (hk : k ≤ n) :
    strncpy (List.replicate k 0) src n = cstr src ++ List.replicate (n - (cstr src).length) 0 := by
  unfold strncpy
  unfold strlen at *
  rw [List.take_of_length_le h, List.drop_eq_nil_of_le (by simpa using hk)]
  simp

theorem user_exists_iff (db : List entry_t) (u : List Nat) (hu : strlen u ≤ MAX_USERNAME_LEN) :
    user_exists db u = true ↔ ∃ e ∈ db, cstr e.username = cstr u := by
  unfold user_exists
  simp only [List.any_eq_true, beq_iff_eq, strncmp_eq_zero_iff]
  have h : (cstr u).length < MAX_USERNAME_LEN + 1 := by unfold strlen at hu; omega
  constructor
  · rintro ⟨e, he, h1⟩
    exact ⟨e, he, (take_eq_take_iff_of_short _ _ _ h).1 h1⟩
  · rintro ⟨e, he, h1⟩
    exact ⟨e, he, (take_eq_take_iff_of_short _ _ _ h).2 h1⟩

/-! ## Registration -/

/-- C1: for buffers `u` and `p` holding strings of at most 32 bytes (the packet
fields, which `process_registration` terminates at index 32), `user_register`
returns `true` exactly when no record has a username equal to `u` as given and
the stripped `u` and `p` are both non-empty and free of `;` and `\n`; on `true`
the database is the old one followed by the record (strip u, strip p, empty
secret), on `false` it is unchanged. -/
theorem user_register_spec (db : List entry_t) (u p : List Nat)
    (hu : strlen u ≤ MAX_USERNAME_LEN) (hp : strlen p ≤ MAX_PASSWORD_LEN) :
    ((user_register db u p).1 = true ↔
      (¬ ∃ e ∈ db, cstr e.username = cstr u) ∧
      (strip (cstr u) ≠ [] ∧ 59 ∉ strip (cstr u) ∧ 10 ∉ strip (cstr u)) ∧
      (strip (cstr p) ≠ [] ∧ 59 ∉ strip (cstr p) ∧ 10 ∉ strip (cstr p))) ∧
    ((user_register db u p).1 = true →
      (user_register db u p).2.1 = db ++ [mk_entry (strip (cstr u)) (strip (cstr p)) []]) ∧
    ((user_register db u p).1 = false → (user_register db u p).2.1 = db) := by
  have hu32 : strlen u ≤ 32 := hu
  have hp32 : strlen p ≤ 32 := hp
  have hsu : cstr (str_strip u) = strip (cstr u) := cstr_str_strip u (by omega)
  have hsp : cstr (str_strip p) = strip (cstr p) := cstr_str_strip p (by omega)
  have hlu : (strip (cstr u)).length ≤ 32 := le_trans (strip_length_le _) hu
  have hlp : (strip (cstr p)).length ≤ 32 := le_trans (strip_length_le _) hp
  have hvu := is_valid_field_iff (str_strip u) false
  have hvp := is_valid_field_iff (str_strip p) false
  rw [hsu] at hvu
  rw [hsp] at hvp
  have hex := user_exists_iff db u hu
  unfold user_register
  by_cases h1 : user_exists db u = true
  · have h1' := hex.1 h1
    simp [h1, h1']
  · have h1' : ¬ ∃ e ∈ db, cstr e.username = cstr u := fun h => h1 (hex.2 h)
    simp only [h1, Bool.false_eq_true, if_false]
    by_cases h2 : is_valid_field (str_strip u) false = true
    · by_cases h3 : is_valid_field (str_strip p) false = true
      · have h2' := hvu.1 h2
        have h3' := hvp.1 h3
        by_cases e1 : strip (cstr u) = []
        · simp [e1] at h2'
        · by_cases e2 : strip (cstr p) = []
          · simp [e2] at h3'
          · simp only [e1, e2, if_false] at h2' h3'
            have c1 := strncpy_zeroed 33 33 (str_strip u) (by unfold strlen; rw [hsu]; omega) (le_refl _)
            have c2 := strncpy_zeroed 33 33 (str_strip p) (by unfold strlen; rw [hsp]; omega) (le_refl _)
            rw [hsu] at c1
            rw [hsp] at c2
            simp [h2, h3, list_add, mk_entry, c1, c2, h1', e1, e2, h2', h3', -List.reduceReplicate]
      · have h3' : ¬ (strip (cstr p) ≠ [] ∧ 59 ∉ strip (cstr p) ∧ 10 ∉ strip (cstr p)) := by
          intro hh
          apply h3
          apply hvp.2
          simp [hh.1, hh.2.1, hh.2.2]
        simp [h2, h3, h3']
    · have h2' : ¬ (strip (cstr u) ≠ [] ∧ 59 ∉ strip (cstr u) ∧ 10 ∉ strip (cstr u)) := by
        intro hh
        apply h2
        apply hvu.2
        simp [hh.1, hh.2.1, hh.2.2]
      simp [h2, h2']

/-- Witness of `user_register_spec`: registering `" alice "` with the password
`"pw1"` in a database that holds `bob`. -/
theorem user_register_spec_witness :
    strlen (32 :: alice ++ [32]) ≤ MAX_USERNAME_LEN ∧ strlen pw1 ≤ MAX_PASSWORD_LEN ∧
    (user_register [mk_entry [98, 111, 98] [120] []] (32 :: alice ++ [32]) pw1).2.1 =
      [mk_entry [98, 111, 98] [120] []] ++
        [mk_entry (strip (cstr (32 :: alice ++ [32]))) (strip (cstr pw1)) []] :=
  ⟨by decide, by decide,
    (user_register_spec [mk_entry [98, 111, 98] [120] []] (32 :: alice ++ [32]) pw1
      (by decide) (by decide)).2.1 (by decide)⟩

theorem is_valid_session_iff (clients : List client_t) (sid u : List Nat) :
    is_valid_session clients sid u = true ↔ ∃ c ∈ clients, session_matches c sid u := by
  unfold is_valid_session session_matches
  simp only [List.any_eq_true, Bool.and_eq_true, beq_iff_eq, strncmp_eq_zero_iff]

theorem strlen_set_zero_le (b : List Nat) (n : Nat) : strlen (b.set n 0) ≤ n := by
  unfold strlen
  induction b generalizing n with
  | nil => simp [cstr_nil]
  | cons c b ih =>
    cases n with
    | zero => simp [cstr_cons]
    | succ n =>
      rw [List.set_cons_succ, cstr_cons]
      by_cases h : c = 0
      · simp [h]
      · simp only [h, if_false, List.length_cons]
        have := ih n
        omega

theorem field_str_length_le (slot : List Nat) (cap : Nat) : (field_str slot cap).length ≤ cap :=
  strlen_set_zero_le slot cap

theorem cstr_str_strip_field (slot : List Nat) (cap : Nat) (h : cap < 65536) :
    cstr (str_strip (slot.set cap 0)) = strip (field_str slot cap) :=
  cstr_str_strip _ (lt_of_le_of_lt (strlen_set_zero_le slot cap) h)

theorem is_valid_field_eq_false_of_mem (b : List Nat) (allow_empty : Bool)
    (h : 59 ∈ cstr b ∨ 10 ∈ cstr b) : is_valid_field b allow_empty = false := by
  rw [← Bool.not_eq_true, is_valid_field_iff]
  rcases h with h | h
  · have hne : cstr b ≠ [] := List.ne_nil_of_mem h
    simp [hne, h]
  · have hne : cstr b ≠ [] := List.ne_nil_of_mem h
    simp [hne, h]

/-- C2, evaluated at the username `" alice"` (client calls `-r " alice" pw1` and
`-r " alice" pw2` on an empty database): the first REGISTRATION packet is
answered SUCCESS, the second packet with the same username is answered SUCCESS
as well, and the database then holds two records named `alice`. -/
theorem registration_twice_whitespace :
    (process_registration (server_with [] [])
        (client_frame REGISTRATION (32 :: alice) pw1 [])).2.rstatus = SUCCESS ∧
    (process_registration
        (process_registration (server_with [] [])
          (client_frame REGISTRATION (32 :: alice) pw1 [])).1
        (client_frame REGISTRATION (32 :: alice) pw2 [])).2.rstatus = SUCCESS ∧
    (process_registration
        (process_registration (server_with [] [])
          (client_frame REGISTRATION (32 :: alice) pw1 [])).1
        (client_frame REGISTRATION (32 :: alice) pw2 [])).1.database =
      [mk_entry alice pw1 [], mk_entry alice pw2 []] := by
  decide

/-- C3, evaluated at a database holding `alice` and a REGISTRATION packet with
the username `" alice"`: the usernames are unique before the request and not
unique after it. -/
theorem registration_breaks_uniqueness :
    usernames_unique [mk_entry alice pw1 []] ∧
    ¬ usernames_unique
      (process_registration (server_with [mk_entry alice pw1 []] [])
        (client_frame REGISTRATION (32 :: alice) pw2 [])).1.database := by
  decide

/-! ## Field validation and the session gate -/

/-- C4 as stated fails: a REGISTRATION packet whose username `"alice\n"`
contains a newline is answered SUCCESS and adds the record `alice`, and a
SECRET_WRITE packet with a live session whose secret `"hi\n"` contains a
newline is answered SUCCESS and changes the stored secret to `"hi"`. -/
theorem validation_trailing_newline :
    (10 ∈ cstr (client_frame REGISTRATION (alice ++ [10]) pw1 []).slot1 ∧
      (dispatch (server_with [] []) (client_frame REGISTRATION (alice ++ [10]) pw1 [])).map
          (fun r => (r.2.rstatus, r.1.database))
        = some (SUCCESS, [mk_entry alice pw1 []])) ∧
    (10 ∈ cstr (client_frame SECRET_WRITE sid_a alice [104, 105, 10]).slot3 ∧
      (dispatch (server_with [mk_entry alice pw1 []] [mk_client sid_a alice])
          (client_frame SECRET_WRITE sid_a alice [104, 105, 10])).map
          (fun r => (r.2.rstatus, r.1.database))
        = some (SUCCESS, [mk_entry alice pw1 [104, 105]])) := by
  decide

/-- C4, amended: a REGISTRATION packet whose username or password, cut at 32
bytes and stripped of outer whitespace, contains `;` or `\n` is answered ERROR
and leaves the database unchanged; a SECRET_WRITE packet (with or without a
live session) whose secret, cut at 128 bytes and stripped, contains `;` or
`\n` is answered ERROR and leaves the database, hence the stored secret,
unchanged. -/
theorem validation_after_strip (s : Server) (p : Frame) :
    (p.type = REGISTRATION →
      (59 ∈ strip (field_str p.slot1 MAX_USERNAME_LEN) ∨ 10 ∈ strip (field_str p.slot1 MAX_USERNAME_LEN) ∨
        59 ∈ strip (field_str p.slot2 MAX_PASSWORD_LEN) ∨ 10 ∈ strip (field_str p.slot2 MAX_PASSWORD_LEN)) →
      ∃ s1 r, dispatch s p = some (s1, r) ∧ r.rstatus = ERROR ∧ s1.database = s.database) ∧
    (p.type = SECRET_WRITE →
      (59 ∈ strip (field_str p.slot3 MAX_SECRET_LEN) ∨ 10 ∈ strip (field_str p.slot3 MAX_SECRET_LEN)) →
      ∃ s1 r, dispatch s p = some (s1, r) ∧ r.rstatus = ERROR ∧ s1.database = s.database) := by
  constructor
  · intro ht h
    have hu := cstr_str_strip_field p.slot1 MAX_USERNAME_LEN (by decide)
    have hp := cstr_str_strip_field p.slot2 MAX_PASSWORD_LEN (by decide)
    have hv : (!is_valid_field (str_strip (p.slot1.set MAX_USERNAME_LEN 0)) false ||
        !is_valid_field (str_strip (p.slot2.set MAX_PASSWORD_LEN 0)) false) = true := by
      rcases h with h | h | h | h
      · rw [is_valid_field_eq_false_of_mem _ _ (Or.inl (hu ▸ h))]; rfl
      · rw [is_valid_field_eq_false_of_mem _ _ (Or.inr (hu ▸ h))]; rfl
      · rw [is_valid_field_eq_false_of_mem (str_strip (p.slot2.set MAX_PASSWORD_LEN 0)) _ (Or.inl (hp ▸ h))]
        simp
      · rw [is_valid_field_eq_false_of_mem (str_strip (p.slot2.set MAX_PASSWORD_LEN 0)) _ (Or.inr (hp ▸ h))]
        simp
    have hr : (user_register s.database (p.slot1.set MAX_USERNAME_LEN 0)
        (p.slot2.set MAX_PASSWORD_LEN 0)).1 = false ∧
        (user_register s.database (p.slot1.set MAX_USERNAME_LEN 0)
        (p.slot2.set MAX_PASSWORD_LEN 0)).2.1 = s.database := by
      unfold user_register
      by_cases hex : user_exists s.database (p.slot1.set MAX_USERNAME_LEN 0) = true
      · simp [hex]
      · simp only [hex, hv, if_true, Bool.false_eq_true, if_false, and_self]
    simp only [dispatch, ht, if_true, process_registration, hr.1, Bool.false_eq_true, if_false]
    exact ⟨_, _, rfl, rfl, hr.2⟩
  · intro ht h
    have hx := cstr_str_strip_field p.slot3 MAX_SECRET_LEN (by decide)
    have hv : is_valid_field (str_strip (p.slot3.set MAX_SECRET_LEN 0)) true = false :=
      is_valid_field_eq_false_of_mem _ _ (h.elim (fun h => Or.inl (hx ▸ h)) (fun h => Or.inr (hx ▸ h)))
    have hne : ¬ (SECRET_WRITE = REGISTRATION) := by decide
    have hne1 : ¬ (SECRET_WRITE = LOGIN) := by decide
    have hne2 : ¬ (SECRET_WRITE = LOGOUT) := by decide
    simp only [dispatch, ht, hne, hne1, hne2, if_false, if_true, process_secret_write]
    by_cases hs : is_valid_session s.clients (p.slot1.set SESSION_ID_SIZE 0)
        (p.slot2.set MAX_USERNAME_LEN 0) = true
    · simp only [hs, if_true, user_secret_write, hv, Bool.not_false, Bool.false_eq_true, if_false]
      exact ⟨_, _, rfl, rfl, rfl⟩
    · simp only [hs, if_false]
      exact ⟨_, _, rfl, rfl, rfl⟩

/-- Witness of `validation_after_strip`: registering `"bob;x"`. -/
theorem validation_after_strip_witness :
    59 ∈ strip (field_str (client_frame REGISTRATION [98, 111, 98, 59, 120] pw1 []).slot1
      MAX_USERNAME_LEN) ∧
    ∃ s1 r, dispatch (server_with [] []) (client_frame REGISTRATION [98, 111, 98, 59, 120] pw1 [])
        = some (s1, r) ∧
      r.rstatus = ERROR ∧ s1.database = (server_with [] []).database :=
  ⟨by decide,
    (validation_after_strip (server_with [] [])
      (client_frame REGISTRATION [98, 111, 98, 59, 120] pw1 [])).1 rfl (Or.inl (by decide))⟩

/-- C5: a SECRET_WRITE or LOGOUT packet whose (session id, username) pair
matches no record of the session table is answered with `rstatus = ERROR`, and
the database and the session table are unchanged. -/
theorem session_gate (s : Server) (p : Frame)
    (ht : p.type = SECRET_WRITE ∨ p.type = LOGOUT)
    (h : ∀ c ∈ s.clients,
      ¬ session_matches c (p.slot1.set SESSION_ID_SIZE 0) (p.slot2.set MAX_USERNAME_LEN 0)) :
    ∃ s1 r, dispatch s p = some (s1, r) ∧ r.rstatus = ERROR ∧
      s1.database = s.database ∧ s1.clients = s.clients := by
  have hs : is_valid_session s.clients (p.slot1.set SESSION_ID_SIZE 0)
      (p.slot2.set MAX_USERNAME_LEN 0) = false := by
    rw [← Bool.not_eq_true, is_valid_session_iff]
    rintro ⟨c, hc, hm⟩
    exact h c hc hm
  rcases ht with ht | ht
  · have hne : ¬ (SECRET_WRITE = REGISTRATION) := by decide
    have hne1 : ¬ (SECRET_WRITE = LOGIN) := by decide
    have hne2 : ¬ (SECRET_WRITE = LOGOUT) := by decide
    simp only [dispatch, ht, hne, hne1, hne2, if_false, if_true, process_secret_write, hs,
      Bool.false_eq_true]
    exact ⟨_, _, rfl, rfl, rfl, rfl⟩
  · have hne : ¬ (LOGOUT = REGISTRATION) := by decide
    have hne1 : ¬ (LOGOUT = LOGIN) := by decide
    simp only [dispatch, ht, hne, hne1, if_false, if_true, process_logout, hs,
      Bool.false_eq_true]
    exact ⟨_, _, rfl, rfl, rfl, rfl⟩

/-- Witness of `session_gate`: a LOGOUT of `alice` with the session id `sid_b`
while her only live session is `sid_a`. -/
theorem session_gate_witness :
    ∃ s1 r, dispatch (server_with [mk_entry alice pw1 []] [mk_client sid_a alice])
        (client_frame LOGOUT sid_b alice []) = some (s1, r) ∧
      r.rstatus = ERROR ∧
      s1.database = (server_with [mk_entry alice pw1 []] [mk_client sid_a alice]).database ∧
      s1.clients = (server_with [mk_entry alice pw1 []] [mk_client sid_a alice]).clients :=
  session_gate (server_with [mk_entry alice pw1 []] [mk_client sid_a alice])
    (client_frame LOGOUT sid_b alice []) (Or.inr rfl)
    (by
      intro c hc
      have hc1 : c = mk_client sid_a alice := by
        simpa [server_with] using hc
      subst hc1
      decide)

/-- C6, evaluated after a restart: the session table is empty, the database
holds `alice` with the secret `"hi"`, and a SECRET_READ packet arrives with an
old session id and with `rstatus = SUCCESS`, the value the scrubbed frame
holds (no client writes `rstatus`).  No session record matches and the
database is unchanged, but the reply carries `rstatus = SUCCESS`, not ERROR. -/
theorem secret_read_stale_session_status :
    is_valid_session (server_with [mk_entry alice pw1 [104, 105]] []).clients
      ((client_frame SECRET_READ sid_a alice []).slot1.set SESSION_ID_SIZE 0)
      ((client_frame SECRET_READ sid_a alice []).slot2.set MAX_USERNAME_LEN 0) = false ∧
    (client_frame SECRET_READ sid_a alice []).rstatus = SUCCESS ∧
    (dispatch (server_with [mk_entry alice pw1 [104, 105]] [])
        (client_frame SECRET_READ sid_a alice [])).map
          (fun r => (r.2.rstatus, r.1.database))
      = some (SUCCESS, [mk_entry alice pw1 [104, 105]]) := by
  decide

/-! ## Frame scrub -/

theorem drop_take_replicate_append (n k m c : Nat) (t : List Nat) (h : k + m ≤ n) :
    ((List.replicate n c ++ t).drop k).take m = List.replicate m c := by
  rw [List.drop_append_of_le_length (by simp; omega), List.drop_replicate,
    List.take_append_of_le_length (by simp; omega), List.take_replicate]
  congr 1
  omega

theorem scrubbed_frame (b : List Nat) :
    ({ Frame.ofBytes (memset b 0 SHM_LEN) with status := ONLINE } : Frame) =
      ⟨0, 0, 0, List.replicate 33 0, List.replicate 33 0, List.replicate 129 0,
        List.replicate 27 0 ++ b.drop SHM_LEN⟩ := by
  unfold Frame.ofBytes memset
  have e0 := drop_take_replicate_append SHM_LEN 4 4 0 (b.drop SHM_LEN) (by decide)
  have e1 := drop_take_replicate_append SHM_LEN 8 4 0 (b.drop SHM_LEN) (by decide)
  have e2 := drop_take_replicate_append SHM_LEN 12 33 0 (b.drop SHM_LEN) (by decide)
  have e3 := drop_take_replicate_append SHM_LEN 45 33 0 (b.drop SHM_LEN) (by decide)
  have e4 := drop_take_replicate_append SHM_LEN 78 129 0 (b.drop SHM_LEN) (by decide)
  have e5 : (List.replicate SHM_LEN 0 ++ b.drop SHM_LEN).drop 207 =
      List.replicate 27 0 ++ b.drop SHM_LEN := by
    have h207 : 207 ≤ (List.replicate SHM_LEN 0).length := by
      rw [List.length_replicate]; decide
    rw [List.drop_append_of_le_length h207, List.drop_replicate]
    rfl
  rw [e0, e1, e2, e3, e4, e5]
  rfl

theorem scrubbed_bytes (b : List Nat) :
    ({ Frame.ofBytes (memset b 0 SHM_LEN) with status := ONLINE } : Frame).bytes.take SHM_LEN =
      List.replicate SHM_LEN 0 := by
  rw [scrubbed_frame]
  have h : (⟨0, 0, 0, List.replicate 33 0, List.replicate 33 0, List.replicate 129 0,
        List.replicate 27 0 ++ b.drop SHM_LEN⟩ : Frame).bytes =
      List.replicate SHM_LEN 0 ++ b.drop SHM_LEN := by
    unfold Frame.bytes
    simp only [List.append_assoc]
    rw [← List.append_assoc _ _ (b.drop SHM_LEN)]
    simp only [← List.append_assoc]
    rfl
  rw [h, List.take_append_of_le_length (by simp)]
  simp

theorem dispatch_isSome (s : Server) (p : Frame)
    (ht : p.type = REGISTRATION ∨ p.type = LOGIN ∨ p.type = LOGOUT ∨
      p.type = SECRET_WRITE ∨ p.type = SECRET_READ) :
    ∃ s1 r, dispatch s p = some (s1, r) := by
  unfold dispatch
  rcases ht with h | h | h | h | h <;> simp only [h] <;> exact ⟨_, _, rfl⟩

/-- C8: for a request of one of the five packet types, whatever the frame holds
and whatever the client does to it while it owns it, `handle_packet` returns
when its wait on `sem1` succeeds, and whenever it returns every one of the
`SHM_LEN = 234` bytes of the frame is zero and `status` is ONLINE; hence the
frames left by any two requests agree on all 234 bytes. -/
theorem handle_packet_scrub (s : Server) (p : Frame) (client : Frame → Frame) (wait : WaitResult)
    (ht : p.type = REGISTRATION ∨ p.type = LOGIN ∨ p.type = LOGOUT ∨
      p.type = SECRET_WRITE ∨ p.type = SECRET_READ) :
    (wait = WaitResult.ok → ∃ s1 f, handle_packet s p client wait = some (s1, f)) ∧
    (∀ s1 f, handle_packet s p client wait = some (s1, f) →
      f.bytes.take SHM_LEN = List.replicate SHM_LEN 0 ∧ f.status = ONLINE) ∧
    (∀ s1 f (s2 : Server) (p2 : Frame) (client2 : Frame → Frame) (wait2 : WaitResult) s3 f2,
      handle_packet s p client wait = some (s1, f) →
      handle_packet s2 p2 client2 wait2 = some (s3, f2) →
      f.bytes.take SHM_LEN = f2.bytes.take SHM_LEN) := by
  have key : ∀ (s : Server) (p : Frame) (client : Frame → Frame) (wait : WaitResult) s1 f,
      handle_packet s p client wait = some (s1, f) →
      f.bytes.take SHM_LEN = List.replicate SHM_LEN 0 ∧ f.status = ONLINE := by
    intro s p client wait s1 f h
    unfold handle_packet at h
    cases hd : dispatch s p with
    | none => simp [hd] at h
    | some r =>
      obtain ⟨s0, reply⟩ := r
      cases wait with
      | ok =>
        simp only [hd, Option.some.injEq, Prod.mk.injEq] at h
        rw [← h.2]
        exact ⟨scrubbed_bytes _, rfl⟩
      | eintr => simp [hd] at h
      | failed => simp [hd] at h
  refine ⟨?_, key s p client wait, ?_⟩
  · intro hw
    obtain ⟨s1, r, hd⟩ := dispatch_isSome s p ht
    subst hw
    unfold handle_packet
    simp only [hd]
    exact ⟨_, _, rfl⟩
  · intro s1 f s2 p2 client2 wait2 s3 f2 h1 h2
    rw [(key _ _ _ _ _ _ h1).1, (key _ _ _ _ _ _ h2).1]

/-- Witness of `handle_packet_scrub`: a SECRET_READ request of `alice`. -/
theorem handle_packet_scrub_witness :
    ∃ s1 f, handle_packet (server_with [mk_entry alice pw1 [104, 105]] [mk_client sid_a alice])
      (client_frame SECRET_READ sid_a alice []) (fun f => f) WaitResult.ok = some (s1, f) :=
  (handle_packet_scrub (server_with [mk_entry alice pw1 [104, 105]] [mk_client sid_a alice])
    (client_frame SECRET_READ sid_a alice []) (fun f => f) WaitResult.ok
    (Or.inr (Or.inr (Or.inr (Or.inr rfl))))).1 rfl

/-! ## Login -/

theorem randd_index_lt (RAND_MAX r : Nat) (h : r ≤ RAND_MAX) : randd_index RAND_MAX r < 62 := by
  unfold randd_index
  rw [Nat.div_lt_iff_lt_mul (by omega)]
  nlinarith

theorem alphanum_getD_mem (i : Nat) (h : i < 62) : alphanum.getD i 0 ∈ alphanum := by
  have hl : i < alphanum.length := by
    have : alphanum.length = 62 := by decide
    omega
  rw [List.getD_eq_getElem _ _ hl]
  exact List.getElem_mem hl

theorem zero_not_mem_alphanum : 0 ∉ alphanum := by decide

/-- The 32 characters `generate_session_id` writes. -/
theorem generate_session_id_eq (RAND_MAX : Nat) (rand : Nat → Nat) (calls : Nat)
    (buffer : List Nat) (hr : ∀ i, rand i ≤ RAND_MAX) :
    ∃ id : List Nat, id.length = SESSION_ID_SIZE ∧ (∀ c ∈ id, c ∈ alphanum) ∧
      (generate_session_id RAND_MAX rand calls buffer).1 = id ++ buffer.drop SESSION_ID_SIZE := by
  refine ⟨(List.range SESSION_ID_SIZE).map
      (fun i => alphanum.getD (randd_index RAND_MAX (rand (calls + i))) 0), by simp, ?_, rfl⟩
  intro c hc
  obtain ⟨i, _, rfl⟩ := List.mem_map.1 hc
  exact alphanum_getD_mem _ (randd_index_lt _ _ (hr _))

theorem cstr_field_str (slot : List Nat) (cap : Nat) : cstr (field_str slot cap) = field_str slot cap :=
  cstr_idem _

theorem user_login_eq (clients : List client_t) (u sid : List Nat)
    (hu : strlen u ≤ MAX_USERNAME_LEN) (hs : strlen sid ≤ SESSION_ID_SIZE) :
    (user_login clients u sid).2 = clients ++ [mk_client (cstr sid) (cstr u)] := by
  unfold user_login list_add mk_client
  simp only
  rw [strncpy_zeroed 33 33 sid (by unfold SESSION_ID_SIZE at hs; omega) (le_refl _),
    strncpy_zeroed 33 33 u (by unfold MAX_USERNAME_LEN at hu; omega) (le_refl _)]

theorem session_matches_mk_client (id u : List Nat) (hid : 0 ∉ id) (hu : 0 ∉ u) :
    session_matches (mk_client id u) id u := by
  unfold session_matches mk_client
  simp only [cstr_append_replicate hid, cstr_append_replicate hu, cstr_of_no_zero hid,
    cstr_of_no_zero hu, and_self]

/-- C9: for a LOGIN packet, when the credentials verify the session id field of
the reply holds a string of 32 characters of `alphanum`, the session table is
the old one followed by the record (that id, the username of the packet), and
that pair is accepted by `is_valid_session` in the new state, whatever the old
table held; when they do not verify the 33 bytes of the session id field are
zero and the session table is unchanged.  The database is unchanged in both
cases.  The values `rand()` returns are assumed to lie in `[0, RAND_MAX]`. -/
theorem process_login_spec (s : Server) (p : Frame) (hr : ∀ i, s.rand i ≤ s.RAND_MAX) :
    (user_verify_credentials s.database (p.slot1.set MAX_USERNAME_LEN 0)
        (p.slot2.set MAX_PASSWORD_LEN 0) = true →
      ∃ id : List Nat, id.length = SESSION_ID_SIZE ∧ (∀ c ∈ id, c ∈ alphanum) ∧
        cstr ((process_login s p).2.slot3.take (SESSION_ID_SIZE + 1)) = id ∧
        (process_login s p).1.clients =
          s.clients ++ [mk_client id (field_str p.slot1 MAX_USERNAME_LEN)] ∧
        is_valid_session (process_login s p).1.clients id
          (field_str p.slot1 MAX_USERNAME_LEN) = true) ∧
    (user_verify_credentials s.database (p.slot1.set MAX_USERNAME_LEN 0)
        (p.slot2.set MAX_PASSWORD_LEN 0) = false →
      (process_login s p).2.slot3.take (SESSION_ID_SIZE + 1) =
        List.replicate (SESSION_ID_SIZE + 1) 0 ∧
      (process_login s p).1.clients = s.clients) ∧
    (process_login s p).1.database = s.database := by
  refine ⟨?_, ?_, ?_⟩
  · intro hv
    obtain ⟨id, hlen, hmem, hg⟩ :=
      generate_session_id_eq s.RAND_MAX s.rand s.rand_calls p.slot3 hr
    have hid0 : 0 ∉ id := fun h => zero_not_mem_alphanum (hmem 0 h)
    have hset : (id ++ p.slot3.drop SESSION_ID_SIZE).set SESSION_ID_SIZE 0 =
        id ++ (p.slot3.drop SESSION_ID_SIZE).set 0 0 := by
      rw [← hlen, set_append_length]
    have hc : cstr ((id ++ p.slot3.drop SESSION_ID_SIZE).set SESSION_ID_SIZE 0) = id := by
      rw [cstr_set_zero id _ SESSION_ID_SIZE hid0 (le_of_eq hlen.symm), ← hlen, List.take_length]
    have hfs0 : 0 ∉ field_str p.slot1 MAX_USERNAME_LEN := zero_not_mem_cstr _
    have hcl : (process_login s p).1.clients =
        s.clients ++ [mk_client id (field_str p.slot1 MAX_USERNAME_LEN)] := by
      simp only [process_login, hv, if_true, hg]
      rw [user_login_eq _ _ _ (strlen_set_zero_le _ _) (by unfold strlen; rw [hc, hlen]), hc]
      rfl
    refine ⟨id, hlen, hmem, ?_, hcl, ?_⟩
    · simp only [process_login, hv, if_true, hg, hset]
      rw [List.take_append_eq_append_take, hlen]
      have h1 : id.take (SESSION_ID_SIZE + 1) = id := List.take_of_length_le (by omega)
      have h2 : SESSION_ID_SIZE + 1 - SESSION_ID_SIZE = 1 := by decide
      rw [h1, h2]
      cases hd : p.slot3.drop SESSION_ID_SIZE with
      | nil => simpa using cstr_of_no_zero hid0
      | cons x r =>
        simp only [List.set_cons_zero, List.take_succ_cons, List.take_zero]
        exact cstr_append_zero hid0 []
    · rw [hcl, is_valid_session_iff]
      exact ⟨_, by simp, session_matches_mk_client _ _ hid0 hfs0⟩
  · intro hv
    simp only [process_login, hv, Bool.false_eq_true, if_false, memset, and_true]
    rw [List.take_append_of_le_length (by simp)]
    simp
  · unfold process_login
    by_cases hv : user_verify_credentials s.database (p.slot1.set MAX_USERNAME_LEN 0)
        (p.slot2.set MAX_PASSWORD_LEN 0) = true
    · simp only [hv, if_true]
    · simp only [hv, Bool.false_eq_true, if_false]

/-- Witness of `process_login_spec`: `alice` logs in with her password. -/
theorem process_login_spec_witness :
    ∃ id : List Nat, id.length = SESSION_ID_SIZE ∧ (∀ c ∈ id, c ∈ alphanum) ∧
      cstr ((process_login (server_with [mk_entry alice pw1 []] [])
        (client_frame LOGIN alice pw1 [])).2.slot3.take (SESSION_ID_SIZE + 1)) = id ∧
      (process_login (server_with [mk_entry alice pw1 []] [])
        (client_frame LOGIN alice pw1 [])).1.clients =
        (server_with [mk_entry alice pw1 []] []).clients ++
          [mk_client id (field_str (client_frame LOGIN alice pw1 []).slot1 MAX_USERNAME_LEN)] ∧
      is_valid_session (process_login (server_with [mk_entry alice pw1 []] [])
        (client_frame LOGIN alice pw1 [])).1.clients id
        (field_str (client_frame LOGIN alice pw1 []).slot1 MAX_USERNAME_LEN) = true :=
  (process_login_spec (server_with [mk_entry alice pw1 []] []) (client_frame LOGIN alice pw1 [])
    (fun _ => Nat.zero_le _)).1 (by decide)

theorem strncmp_eq_zero_iff_of_le (a b : List Nat) (n : Nat) (ha : strlen a ≤ n) (hb : strlen b ≤ n) :
    strncmp a b n = 0 ↔ cstr a = cstr b := by
  rw [strncmp_eq_zero_iff, List.take_of_length_le ha, List.take_of_length_le hb]

/-- C10: when the usernames and passwords of the database and the strings `u`
and `p` are at most 32 bytes long, `user_verify_credentials` is true exactly
when some record has username equal to `u` and password equal to `p`; under
the bound the 32-byte comparisons of the login and the 33-byte comparison of
the registration are equivalent to equality of the strings. -/
theorem user_verify_credentials_iff (db : List entry_t) (u p : List Nat)
    (hdb : ∀ e ∈ db, strlen e.username ≤ MAX_USERNAME_LEN ∧ strlen e.password ≤ MAX_PASSWORD_LEN)
    (hu : strlen u ≤ MAX_USERNAME_LEN) (hp : strlen p ≤ MAX_PASSWORD_LEN) :
    (user_verify_credentials db u p = true ↔
      ∃ e ∈ db, cstr e.username = cstr u ∧ cstr e.password = cstr p) ∧
    (∀ e ∈ db,
      (strncmp e.username u MAX_USERNAME_LEN = 0 ↔ cstr e.username = cstr u) ∧
      (strncmp e.password p MAX_PASSWORD_LEN = 0 ↔ cstr e.password = cstr p) ∧
      (strncmp e.username u (MAX_USERNAME_LEN + 1) = 0 ↔ cstr e.username = cstr u)) := by
  have h32 : ∀ e ∈ db,
      (strncmp e.username u MAX_USERNAME_LEN = 0 ↔ cstr e.username = cstr u) ∧
      (strncmp e.password p MAX_PASSWORD_LEN = 0 ↔ cstr e.password = cstr p) ∧
      (strncmp e.username u (MAX_USERNAME_LEN + 1) = 0 ↔ cstr e.username = cstr u) := by
    intro e he
    exact ⟨strncmp_eq_zero_iff_of_le _ _ _ (hdb e he).1 hu,
      strncmp_eq_zero_iff_of_le _ _ _ (hdb e he).2 hp,
      strncmp_eq_zero_iff_of_le _ _ _ (Nat.le_succ_of_le (hdb e he).1) (Nat.le_succ_of_le hu)⟩
  refine ⟨?_, h32⟩
  unfold user_verify_credentials
  simp only [List.any_eq_true, Bool.and_eq_true, beq_iff_eq]
  constructor
  · rintro ⟨e, he, h1, h2⟩
    exact ⟨e, he, (h32 e he).1.1 h1, (h32 e he).2.1.1 h2⟩
  · rintro ⟨e, he, h1, h2⟩
    exact ⟨e, he, (h32 e he).1.2 h1, (h32 e he).2.1.2 h2⟩

/-- Witness of `user_verify_credentials_iff`: `alice` with the password
`pw1`. -/
theorem user_verify_credentials_iff_witness :
    user_verify_credentials [mk_entry alice pw1 []] alice pw1 = true ↔
    ∃ e ∈ [mk_entry alice pw1 []], cstr e.username = cstr alice ∧ cstr e.password = cstr pw1 :=
  (user_verify_credentials_iff [mk_entry alice pw1 []] alice pw1
    (by
      intro e he
      simp only [List.mem_singleton] at he
      subst he
      decide)
    (by decide) (by decide)).1

/-! ## Database file -/

theorem getlines_line (body rest : List Nat) (h : 10 ∉ body) :
    getlines (body ++ 10 :: rest) = (body ++ [10]) :: getlines rest := by
  induction body with
  | nil => simp [getlines]
  | cons c body ih =>
    simp only [List.mem_cons, not_or] at h
    have hc : c ≠ 10 := fun e => h.1 e.symm
    rw [List.cons_append, getlines]
    simp only [hc, if_false]
    rw [ih h.2]
    rfl

theorem scan_set_token (t rest : List Nat) (c : Nat) (hc : c = 10 ∨ c = 59)
    (h10 : 10 ∉ t) (h59 : 59 ∉ t) (hne : t ≠ []) :
    scan_set (t ++ c :: rest) = some (t, c :: rest) := by
  have htw : (t ++ c :: rest).takeWhile (fun c => c != 10 && c != 59) = t := by
    rw [List.takeWhile_append_of_pos]
    · rw [List.takeWhile_cons_of_neg]
      · simp
      · rcases hc with hc | hc <;> simp [hc]
    · intro x hx
      have h1 : x ≠ 10 := fun e => h10 (e ▸ hx)
      have h2 : x ≠ 59 := fun e => h59 (e ▸ hx)
      simp [h1, h2]
  unfold scan_set
  simp only [htw, hne, if_false]
  simp

theorem scan_set_newline (rest : List Nat) : scan_set (10 :: rest) = none := by
  simp [scan_set]

theorem scan_store_zeroed (n : Nat) (t : List Nat) (h : t.length < n) :
    scan_store (List.replicate n 0) t = t ++ List.replicate (n - t.length) 0 := by
  unfold scan_store
  rw [List.drop_replicate, List.append_assoc]
  congr 1
  have : n - t.length = (n - (t.length + 1)) + 1 := by omega
  rw [this, List.replicate_succ]
  rfl

theorem sscanf_entry_line (u p x : List Nat) (hu : str_ok MAX_USERNAME_LEN false u)
    (hp : str_ok MAX_PASSWORD_LEN false p) (hx : str_ok MAX_SECRET_LEN true x) :
    sscanf_entry (u ++ [59] ++ p ++ [59] ++ x ++ [10])
      ⟨List.replicate 33 0, List.replicate 33 0, List.replicate 129 0⟩ = mk_entry u p x := by
  obtain ⟨hul, hu0, hu10, hu59, hune⟩ := hu
  obtain ⟨hpl, hp0, hp10, hp59, hpne⟩ := hp
  obtain ⟨hxl, hx0, hx10, hx59, -⟩ := hx
  have hline : cstr (u ++ [59] ++ p ++ [59] ++ x ++ [10]) =
      u ++ 59 :: (p ++ 59 :: (x ++ [10])) := by
    rw [cstr_of_no_zero]
    · simp
    · simp [hu0, hp0, hx0]
  unfold sscanf_entry
  rw [hline, scan_set_token u _ 59 (Or.inr rfl) hu10 hu59 (hune rfl)]
  simp only
  rw [scan_set_token p _ 59 (Or.inr rfl) hp10 hp59 (hpne rfl)]
  simp only
  rw [scan_store_zeroed 33 u (by unfold MAX_USERNAME_LEN at hul; omega),
    scan_store_zeroed 33 p (by unfold MAX_PASSWORD_LEN at hpl; omega)]
  by_cases hxe : x = []
  · subst hxe
    simp only [List.nil_append, scan_set_newline]
    rfl
  · rw [scan_set_token x [] 10 (Or.inl rfl) hx10 hx59 hxe]
    simp only
    rw [scan_store_zeroed 129 x (by unfold MAX_SECRET_LEN at hxl; omega)]
    rfl

theorem mk_entry_cstr (u p x : List Nat) (hu : 0 ∉ u) (hp : 0 ∉ p) (hx : 0 ∉ x) :
    cstr (mk_entry u p x).username = u ∧ cstr (mk_entry u p x).password = p ∧
      cstr (mk_entry u p x).secret = x :=
  ⟨cstr_append_replicate hu _, cstr_append_replicate hp _, cstr_append_replicate hx _⟩

theorem is_valid_field_of_str_ok (cap : Nat) (t b : List Nat) (ht : str_ok cap false t)
    (hb : cstr b = t) : is_valid_field b false = true := by
  rw [is_valid_field_iff, hb]
  obtain ⟨-, -, h10, h59, hne⟩ := ht
  simp [hne rfl, h10, h59]

theorem read_database_loop_freed (line : List Nat) (lines : List (List Nat))
    (db : List entry_t) : read_database_loop (line :: lines) true db = none := by
  rw [read_database_loop]
  rfl

theorem save_database_loop_line (e : entry_t) (db : List entry_t) (u p x : List Nat)
    (he : e = mk_entry u p x) (hu : str_ok MAX_USERNAME_LEN false u)
    (hp : str_ok MAX_PASSWORD_LEN false p) (hx : str_ok MAX_SECRET_LEN true x) :
    getlines (save_database_loop (e :: db)) =
      (u ++ [59] ++ p ++ [59] ++ x ++ [10]) :: getlines (save_database_loop db) := by
  obtain ⟨c1, c2, c3⟩ := mk_entry_cstr u p x hu.2.1 hp.2.1 hx.2.1
  have hbody : 10 ∉ u ++ [59] ++ p ++ [59] ++ x := by
    simp [hu.2.2.1, hp.2.2.1, hx.2.2.1]
  have hsave : save_database_loop (e :: db) =
      (u ++ [59] ++ p ++ [59] ++ x) ++ 10 :: save_database_loop db := by
    rw [save_database_loop, he, c1, c2, c3]
    simp
  rw [hsave, getlines_line _ _ hbody]

/-- Reading back the text `save_database` wrote: a database of at most one
record is read back as it is; with two records or more the second call of
`getline` is handed the freed buffer and a line to store. -/
theorem read_save_loop (db acc : List entry_t) (h : ∀ e ∈ db, entry_ok e) :
    read_database_loop (getlines (save_database_loop db)) false acc =
      if db.length ≤ 1 then some (0, true, acc ++ db) else none := by
  cases db with
  | nil => simp [save_database_loop, getlines, read_database_loop]
  | cons e db =>
    obtain ⟨u, p, x, he, hu, hp, hx⟩ := h e (List.mem_cons_self _ _)
    obtain ⟨c1, c2, c3⟩ := mk_entry_cstr u p x hu.2.1 hp.2.1 hx.2.1
    rw [save_database_loop_line e db u p x he hu hp hx, read_database_loop,
      if_neg Bool.false_ne_true]
    dsimp only
    rw [sscanf_entry_line u p x hu hp hx,
      is_valid_field_of_str_ok _ u _ hu c1, is_valid_field_of_str_ok _ p _ hp c2]
    simp only [Bool.not_true, Bool.or_self, Bool.false_eq_true, if_false, list_add]
    cases db with
    | nil =>
      simp [save_database_loop, getlines, read_database_loop, he]
    | cons e2 db =>
      obtain ⟨u2, p2, x2, he2, hu2, hp2, hx2⟩ :=
        h e2 (List.mem_cons_of_mem _ (List.mem_cons_self _ _))
      rw [save_database_loop_line e2 db u2 p2 x2 he2 hu2 hp2 hx2, read_database_loop_freed]
      simp

/-! ## Well-formed entries are an invariant of the requests -/

theorem strncpy_full (dst src : List Nat) (n : Nat) (hd : dst.length ≤ n) (hs : strlen src ≤ n) :
    strncpy dst src n = cstr src ++ List.replicate (n - (cstr src).length) 0 := by
  unfold strncpy
  unfold strlen at *
  rw [List.take_of_length_le hs, List.drop_eq_nil_of_le hd]
  simp

theorem str_ok_strip_of_valid (b : List Nat) (cap : Nat) (allow_empty : Bool) (hcap : cap < 65536)
    (hb : strlen b ≤ cap) (hv : is_valid_field (str_strip b) allow_empty = true) :
    cstr (str_strip b) = strip (cstr b) ∧ str_ok cap allow_empty (strip (cstr b)) := by
  have hs : cstr (str_strip b) = strip (cstr b) := cstr_str_strip b (by omega)
  refine ⟨hs, ?_⟩
  rw [is_valid_field_iff, hs] at hv
  refine ⟨le_trans (strip_length_le _) hb, zero_not_mem_strip_cstr b, ?_, ?_, ?_⟩
  · intro h
    have hne : strip (cstr b) ≠ [] := List.ne_nil_of_mem h
    simp only [hne, if_false] at hv
    exact hv.1 h
  · intro h
    have hne : strip (cstr b) ≠ [] := List.ne_nil_of_mem h
    simp only [hne, if_false] at hv
    exact hv.2 h
  · intro ha hnil
    rw [hnil] at hv
    simp only [if_true] at hv
    rw [ha] at hv
    cases hv

theorem user_register_entries_ok (db : List entry_t) (u p : List Nat)
    (hu : strlen u ≤ MAX_USERNAME_LEN) (hp : strlen p ≤ MAX_PASSWORD_LEN)
    (hdb : ∀ e ∈ db, entry_ok e) : ∀ e ∈ (user_register db u p).2.1, entry_ok e := by
  unfold user_register
  by_cases h1 : user_exists db u = true
  · simpa only [h1, if_true] using hdb
  · simp only [h1, Bool.false_eq_true, if_false]
    by_cases h2 : is_valid_field (str_strip u) false = true
    · by_cases h3 : is_valid_field (str_strip p) false = true
      · obtain ⟨e1, o1⟩ := str_ok_strip_of_valid u MAX_USERNAME_LEN false (by decide) hu h2
        obtain ⟨e2, o2⟩ := str_ok_strip_of_valid p MAX_PASSWORD_LEN false (by decide) hp h3
        have c1 := strncpy_full (List.replicate 33 0) (str_strip u) 33 (by simp)
          (by unfold strlen; rw [e1]; exact o1.1.trans (by decide))
        have c2 := strncpy_full (List.replicate 33 0) (str_strip p) 33 (by simp)
          (by unfold strlen; rw [e2]; exact o2.1.trans (by decide))
        rw [e1] at c1
        rw [e2] at c2
        simp only [h2, h3, Bool.not_true, Bool.or_self, Bool.false_eq_true, if_false, list_add, c1, c2]
        intro e he
        rcases List.mem_append.1 he with he | he
        · exact hdb e he
        · simp only [List.mem_singleton] at he
          exact ⟨_, _, [], he, o1, o2, by simp [str_ok]⟩
      · simpa [h2, h3] using hdb
    · simpa [h2] using hdb

theorem mk_entry_secret_length (u p x : List Nat) (hx : x.length ≤ MAX_SECRET_LEN) :
    (mk_entry u p x).secret.length = MAX_SECRET_LEN + 1 := by
  unfold MAX_SECRET_LEN at *
  simp [mk_entry]
  omega

theorem user_secret_write_loop_ok (username b x : List Nat) (db : List entry_t)
    (hb : cstr b = x) (hx : str_ok MAX_SECRET_LEN true x) (hdb : ∀ e ∈ db, entry_ok e) :
    ∀ e ∈ (user_secret_write_loop username b db).2, entry_ok e := by
  induction db with
  | nil => simp [user_secret_write_loop]
  | cons e db ih =>
    have hrest : ∀ e ∈ db, entry_ok e := fun e he => hdb e (List.mem_cons_of_mem _ he)
    unfold user_secret_write_loop
    by_cases hm : (strncmp e.username username MAX_USERNAME_LEN == 0) = true
    · simp only [hm, if_true]
      intro e1 he1
      rcases List.mem_cons.1 he1 with he1 | he1
      · obtain ⟨u, p, x0, he, hu, hp, hx0⟩ := hdb e (List.mem_cons_self _ _)
        refine ⟨u, p, x, ?_, hu, hp, hx⟩
        have hlen := mk_entry_secret_length u p x0 hx0.1
        rw [he1, he, strncpy_full _ b _ (le_of_eq hlen) (by unfold strlen; rw [hb]; exact hx.1.trans (by decide)), hb]
        rfl
      · exact hrest e1 he1
    · simp only [hm, Bool.false_eq_true, if_false]
      intro e1 he1
      rcases List.mem_cons.1 he1 with he1 | he1
      · rw [he1]; exact hdb e (List.mem_cons_self _ _)
      · exact ih hrest e1 he1

theorem user_secret_write_entries_ok (db : List entry_t) (u b : List Nat)
    (hb : strlen b ≤ MAX_SECRET_LEN) (hdb : ∀ e ∈ db, entry_ok e) :
    ∀ e ∈ (user_secret_write db u b).2.1, entry_ok e := by
  unfold user_secret_write
  by_cases hv : is_valid_field (str_strip b) true = true
  · obtain ⟨e1, o1⟩ := str_ok_strip_of_valid b MAX_SECRET_LEN true (by decide) hb hv
    simp only [hv, Bool.not_true, Bool.false_eq_true, if_false]
    exact user_secret_write_loop_ok u _ _ db e1 o1 hdb
  · simpa [hv] using hdb

theorem process_registration_database (s : Server) (p : Frame) :
    (process_registration s p).1.database =
      (user_register s.database (p.slot1.set MAX_USERNAME_LEN 0)
        (p.slot2.set MAX_PASSWORD_LEN 0)).2.1 := by
  unfold process_registration
  simp only
  split_ifs <;> rfl

theorem process_login_database (s : Server) (p : Frame) :
    (process_login s p).1.database = s.database := by
  unfold process_login
  simp only
  split_ifs <;> rfl

theorem process_logout_database (s : Server) (p : Frame) :
    (process_logout s p).1.database = s.database := by
  unfold process_logout
  simp only
  split_ifs <;> rfl

theorem process_secret_write_database (s : Server) (p : Frame) :
    (process_secret_write s p).1.database = s.database ∨
    (process_secret_write s p).1.database =
      (user_secret_write s.database (p.slot2.set MAX_USERNAME_LEN 0)
        (p.slot3.set MAX_SECRET_LEN 0)).2.1 := by
  unfold process_secret_write
  simp only
  split_ifs
  · right; rfl
  · right; rfl
  · left; rfl

theorem process_secret_read_database (s : Server) (p : Frame) :
    (process_secret_read s p).1.database = s.database := by
  unfold process_secret_read
  simp only
  split_ifs
  · split <;> rfl
  · rfl

theorem dispatch_entries_ok (s s1 : Server) (p p1 : Frame) (h : dispatch s p = some (s1, p1))
    (hdb : ∀ e ∈ s.database, entry_ok e) : ∀ e ∈ s1.database, entry_ok e := by
  have hreg := user_register_entries_ok s.database (p.slot1.set MAX_USERNAME_LEN 0)
    (p.slot2.set MAX_PASSWORD_LEN 0) (strlen_set_zero_le _ _) (strlen_set_zero_le _ _) hdb
  have hsw := user_secret_write_entries_ok s.database (p.slot2.set MAX_USERNAME_LEN 0)
    (p.slot3.set MAX_SECRET_LEN 0) (strlen_set_zero_le _ _) hdb
  unfold dispatch at h
  split_ifs at h with t0 t1 t2 t3 t4
  · have hs : s1 = (process_registration s p).1 := by rw [Option.some.inj h]
    rw [hs, process_registration_database]; exact hreg
  · have hs : s1 = (process_login s p).1 := by rw [Option.some.inj h]
    rw [hs, process_login_database]; exact hdb
  · have hs : s1 = (process_logout s p).1 := by rw [Option.some.inj h]
    rw [hs, process_logout_database]; exact hdb
  · have hs : s1 = (process_secret_write s p).1 := by rw [Option.some.inj h]
    rcases process_secret_write_database s p with h1 | h1
    · rw [hs, h1]; exact hdb
    · rw [hs, h1]; exact hsw
  · have hs : s1 = (process_secret_read s p).1 := by rw [Option.some.inj h]
    rw [hs, process_secret_read_database]; exact hdb

theorem reachable_entries_ok (s : Server) (h : Reachable s) : ∀ e ∈ s.database, entry_ok e := by
  induction h with
  | init s h0 => rw [h0]; simp
  | step s s1 p p1 _ hd ih => exact dispatch_entries_ok s s1 p p1 hd ih

/-- The round trip through the file, for every server state reached from an
empty database by requests: `save_database` writes the file and returns 0;
`read_database` on that file returns 0 with the same records when there is
at most one record, and has no defined behaviour when there are more. -/
theorem persistence_round_trip_cases (s : Server) (h : Reachable s) (path : String) :
    ∃ file, save_database (some path) true s.database = (0, some file) ∧
      read_database (some path) file [] =
        if s.database.length ≤ 1 then some (0, some path, s.database) else none := by
  refine ⟨save_database_loop s.database, rfl, ?_⟩
  unfold read_database
  simp only [read_save_loop s.database [] (reachable_entries_ok s h), List.nil_append]
  split_ifs <;> rfl

/-- C7 (the code at the failing input): `alice` and `bob` register on an empty
database and the server saves the two records as `"alice;pw1;\nbob;x;\n"`.
Reading that file back, `read_database` frees `line` after the first line and
hands the freed buffer to `getline` for the second: the behaviour is
undefined, where the round trip should return 0 with both records.  With the
record of `alice` alone the file is read back as it was saved. -/
theorem persistence_two_records_undefined :
    (process_registration
        (process_registration (server_with [] [])
          (client_frame REGISTRATION alice pw1 [])).1
        (client_frame REGISTRATION [98, 111, 98] [120] [])).1.database =
      [mk_entry alice pw1 [], mk_entry [98, 111, 98] [120] []] ∧
    save_database (some "db") true [mk_entry alice pw1 [], mk_entry [98, 111, 98] [120] []] =
      (0, some [97, 108, 105, 99, 101, 59, 112, 119, 49, 59, 10, 98, 111, 98, 59, 120, 59, 10]) ∧
    read_database (some "db")
      [97, 108, 105, 99, 101, 59, 112, 119, 49, 59, 10, 98, 111, 98, 59, 120, 59, 10] [] = none ∧
    save_database (some "db") true [mk_entry alice pw1 []] =
      (0, some [97, 108, 105, 99, 101, 59, 112, 119, 49, 59, 10]) ∧
    read_database (some "db") [97, 108, 105, 99, 101, 59, 112, 119, 49, 59, 10] [] =
      some (0, some "db", [mk_entry alice pw1 []]) := by
  refine ⟨by decide, by decide, by decide, by decide, by decide⟩

/-! ## Effect of the requests on the two stores -/

theorem process_registration_clients (s : Server) (p : Frame) :
    (process_registration s p).1.clients = s.clients := by
  unfold process_registration
  simp only
  split_ifs <;> rfl

theorem process_secret_write_clients (s : Server) (p : Frame) :
    (process_secret_write s p).1.clients = s.clients := by
  unfold process_secret_write
  simp only
  split_ifs <;> rfl

theorem process_secret_read_clients (s : Server) (p : Frame) :
    (process_secret_read s p).1.clients = s.clients := by
  unfold process_secret_read
  simp only
  split_ifs
  · split <;> rfl
  · rfl

theorem process_login_clients (s : Server) (p : Frame) :
    (process_login s p).1.clients =
      if user_verify_credentials s.database (p.slot1.set MAX_USERNAME_LEN 0)
          (p.slot2.set MAX_PASSWORD_LEN 0) then
        (user_login s.clients (p.slot1.set MAX_USERNAME_LEN 0)
          ((generate_session_id s.RAND_MAX s.rand s.rand_calls p.slot3).1.set SESSION_ID_SIZE 0)).2
      else s.clients := by
  unfold process_login
  simp only
  split_ifs <;> rfl

theorem process_logout_clients (s : Server) (p : Frame) :
    (process_logout s p).1.clients =
      if is_valid_session s.clients (p.slot1.set SESSION_ID_SIZE 0)
          (p.slot2.set MAX_USERNAME_LEN 0) then
        (user_logout s.clients (p.slot2.set MAX_USERNAME_LEN 0)
          (p.slot1.set SESSION_ID_SIZE 0)).2
      else s.clients := by
  unfold process_logout
  simp only
  split_ifs <;> rfl

theorem user_register_database_cases (db : List entry_t) (u p : List Nat) :
    (user_register db u p).2.1 = db ∨ ∃ e, (user_register db u p).2.1 = db ++ [e] := by
  unfold user_register
  simp only [list_add]
  split_ifs
  · left; rfl
  · left; rfl
  · right; exact ⟨_, rfl⟩

theorem user_secret_write_loop_fields (username b : List Nat) (db : List entry_t) :
    (user_secret_write_loop username b db).2.map (fun e => (e.username, e.password)) =
      db.map (fun e => (e.username, e.password)) := by
  induction db with
  | nil => rfl
  | cons e db ih =>
    unfold user_secret_write_loop
    split_ifs
    · rfl
    · simp only [List.map_cons, ih]

theorem user_secret_write_fields (db : List entry_t) (username b : List Nat) :
    (user_secret_write db username b).2.1.map (fun e => (e.username, e.password)) =
      db.map (fun e => (e.username, e.password)) := by
  unfold user_secret_write
  simp only
  split_ifs
  · rfl
  · exact user_secret_write_loop_fields _ _ _

theorem user_logout_sublist (clients : List client_t) (u sid : List Nat) :
    (user_logout clients u sid).2.Sublist clients := by
  unfold user_logout list_remove
  split
  · split_ifs
    · exact List.eraseIdx_sublist _ _
    · exact List.Sublist.refl _
  · exact List.Sublist.refl _


theorem user_verify_credentials_exists (db : List entry_t) (u p : List Nat)
    (h : user_verify_credentials db u p = true) :
    ∃ e ∈ db, (cstr e.username).take MAX_USERNAME_LEN = (cstr u).take MAX_USERNAME_LEN := by
  unfold user_verify_credentials at h
  simp only [List.any_eq_true, Bool.and_eq_true, beq_iff_eq, strncmp_eq_zero_iff] at h
  obtain ⟨e, he, h1, _⟩ := h
  exact ⟨e, he, h1⟩

theorem mem_of_fields_eq (db db1 : List entry_t)
    (h : db1.map (fun e => (e.username, e.password)) = db.map (fun e => (e.username, e.password)))
    (e : entry_t) (he : e ∈ db) : ∃ e1 ∈ db1, e1.username = e.username ∧ e1.password = e.password := by
  have hm : (e.username, e.password) ∈ db1.map (fun e => (e.username, e.password)) := by
    rw [h]; exact List.mem_map.2 ⟨e, he, rfl⟩
  obtain ⟨e1, he1, heq⟩ := List.mem_map.1 hm
  simp only [Prod.mk.injEq] at heq
  exact ⟨e1, he1, heq.1, heq.2⟩

theorem dispatch_sessions_known (s s1 : Server) (p p1 : Frame) (h : dispatch s p = some (s1, p1))
    (hk : sessions_known s) : sessions_known s1 := by
  unfold dispatch at h
  split_ifs at h with t0 t1 t2 t3 t4
  · have hs : s1 = (process_registration s p).1 := by rw [Option.some.inj h]
    intro c hc
    rw [hs, process_registration_clients] at hc
    obtain ⟨e, he, hm⟩ := hk c hc
    refine ⟨e, ?_, hm⟩
    rw [hs, process_registration_database]
    rcases user_register_database_cases s.database (p.slot1.set MAX_USERNAME_LEN 0)
      (p.slot2.set MAX_PASSWORD_LEN 0) with h1 | ⟨e1, h1⟩
    · rw [h1]; exact he
    · rw [h1]; exact List.mem_append_left _ he
  · have hs : s1 = (process_login s p).1 := by rw [Option.some.inj h]
    intro c hc
    rw [hs, process_login_clients] at hc
    rw [hs, process_login_database]
    split_ifs at hc with hv
    · rw [user_login_eq _ _ _ (strlen_set_zero_le _ _) (strlen_set_zero_le _ _)] at hc
      rcases List.mem_append.1 hc with hc | hc
      · exact hk c hc
      · simp only [List.mem_singleton] at hc
        obtain ⟨e, he, hm⟩ := user_verify_credentials_exists _ _ _ hv
        refine ⟨e, he, ?_⟩
        rw [hm, hc]
        unfold mk_client
        simp only
        rw [cstr_append_replicate (zero_not_mem_cstr _)]
    · exact hk c hc
  · have hs : s1 = (process_logout s p).1 := by rw [Option.some.inj h]
    intro c hc
    rw [hs, process_logout_clients] at hc
    rw [hs, process_logout_database]
    split_ifs at hc with hv
    · exact hk c ((user_logout_sublist _ _ _).subset hc)
    · exact hk c hc
  · have hs : s1 = (process_secret_write s p).1 := by rw [Option.some.inj h]
    intro c hc
    rw [hs, process_secret_write_clients] at hc
    obtain ⟨e, he, hm⟩ := hk c hc
    rcases process_secret_write_database s p with h1 | h1
    · rw [hs, h1]; exact ⟨e, he, hm⟩
    · rw [hs, h1]
      obtain ⟨e1, he1, hu, _⟩ := mem_of_fields_eq _ _ (user_secret_write_fields s.database
        (p.slot2.set MAX_USERNAME_LEN 0) (p.slot3.set MAX_SECRET_LEN 0)) e he
      exact ⟨e1, he1, by rw [hu]; exact hm⟩
  · have hs : s1 = (process_secret_read s p).1 := by rw [Option.some.inj h]
    intro c hc
    rw [hs, process_secret_read_clients] at hc
    rw [hs, process_secret_read_database]
    exact hk c hc

theorem running_sessions_known (s : Server) (h : Running s) : sessions_known s := by
  induction h with
  | start s h0 =>
    intro c hc
    rw [h0] at hc
    cases hc
  | step s s1 p p1 _ hd ih => exact dispatch_sessions_known s s1 p p1 hd ih


theorem cstr_set_zero_eq_take (l : List Nat) (n : Nat) : cstr (l.set n 0) = (cstr l).take n := by
  induction l generalizing n with
  | nil => simp [cstr_nil]
  | cons c l ih =>
    cases n with
    | zero => simp [cstr_cons]
    | succ n =>
      rw [List.set_cons_succ, cstr_cons, cstr_cons]
      by_cases h : c = 0
      · simp [h]
      · simp [h, ih]

theorem field_str_eq_take (slot : List Nat) (cap : Nat) : field_str slot cap = (cstr slot).take cap :=
  cstr_set_zero_eq_take slot cap

theorem strncmp_congr (a u u2 : List Nat) (n : Nat) (h : cstr u2 = cstr u) :
    strncmp a u2 n = 0 ↔ strncmp a u n = 0 := by
  rw [strncmp_eq_zero_iff, strncmp_eq_zero_iff, h]

theorem user_secret_write_loop_found (u b : List Nat) (db : List entry_t)
    (h : ∃ e ∈ db, strncmp e.username u MAX_USERNAME_LEN = 0) :
    (user_secret_write_loop u b db).1 = true := by
  induction db with
  | nil => obtain ⟨e, he, _⟩ := h; cases he
  | cons e db ih =>
    unfold user_secret_write_loop
    by_cases hm : strncmp e.username u MAX_USERNAME_LEN = 0
    · simp [hm]
    · simp only [beq_iff_eq, hm, if_false]
      apply ih
      obtain ⟨e1, he1, h1⟩ := h
      rcases List.mem_cons.1 he1 with he1 | he1
      · rw [he1] at h1; exact absurd h1 hm
      · exact ⟨e1, he1, h1⟩

theorem cstr_strncpy (dst src : List Nat) (n : Nat) (h : strlen src < n) :
    cstr (strncpy dst src n) = cstr src := by
  unfold strncpy
  unfold strlen at *
  rw [List.take_of_length_le (le_of_lt h)]
  have hk : n - (cstr src).length = (n - (cstr src).length - 1) + 1 := by omega
  rw [hk, List.replicate_succ, List.append_assoc, List.cons_append]
  exact cstr_append_zero (zero_not_mem_cstr src) _

theorem user_secret_read_after_write (u u2 b : List Nat) (db : List entry_t)
    (hb : strlen b ≤ MAX_SECRET_LEN) (hu : cstr u2 = cstr u)
    (h : (user_secret_write_loop u b db).1 = true) :
    ∃ sec, user_secret_read (user_secret_write_loop u b db).2 u2 = some sec ∧ cstr sec = cstr b := by
  induction db with
  | nil => simp [user_secret_write_loop] at h
  | cons e db ih =>
    unfold user_secret_write_loop at h ⊢
    by_cases hm : strncmp e.username u MAX_USERNAME_LEN = 0
    · have hm2 : strncmp e.username u2 MAX_USERNAME_LEN = 0 := (strncmp_congr _ _ _ _ hu).2 hm
      simp only [beq_iff_eq, hm, if_true]
      refine ⟨strncpy e.secret b (MAX_SECRET_LEN + 1), ?_, ?_⟩
      · simp [user_secret_read, List.find?_cons, hm2]
      · exact cstr_strncpy _ _ _ (Nat.lt_succ_of_le hb)
    · have hm2 : ¬ strncmp e.username u2 MAX_USERNAME_LEN = 0 :=
        fun h2 => hm ((strncmp_congr _ _ _ _ hu).1 h2)
      simp only [beq_iff_eq, hm, if_false] at h ⊢
      obtain ⟨sec, h1, h2⟩ := ih h
      refine ⟨sec, ?_, h2⟩
      have hb2 : (strncmp e.username u2 MAX_USERNAME_LEN == 0) = false := by simpa using hm2
      unfold user_secret_read at h1 ⊢
      rw [List.find?_cons, hb2]
      exact h1

theorem is_valid_session_congr (clients : List client_t) (a a2 b b2 : List Nat)
    (ha : cstr a2 = cstr a) (hb : cstr b2 = cstr b) :
    is_valid_session clients a2 b2 = is_valid_session clients a b := by
  rw [Bool.eq_iff_iff, is_valid_session_iff, is_valid_session_iff]
  unfold session_matches
  rw [ha, hb]

theorem take_cstr_padded (t rest : List Nat) (n : Nat) (h0 : 0 ∉ t) (hl : t.length ≤ n) :
    (cstr (t ++ List.replicate (n - t.length) 0 ++ rest)).take n = t := by
  rcases Nat.eq_or_lt_of_le hl with h | h
  · have : n - t.length = 0 := by omega
    rw [this, List.replicate_zero, List.append_nil]
    have hc : cstr (t ++ rest) = t ++ cstr rest := by
      clear hl h this
      induction t with
      | nil => rfl
      | cons c t ih =>
        simp only [List.mem_cons, not_or] at h0
        rw [List.cons_append, cstr_cons, if_neg (Ne.symm h0.1), ih h0.2]
        rfl
    rw [hc, List.take_append_of_le_length (le_of_eq h.symm), ← h, List.take_length]
  · have hk : n - t.length = (n - t.length - 1) + 1 := by omega
    rw [hk, List.replicate_succ, List.append_assoc, List.cons_append, cstr_append_zero h0,
      List.take_of_length_le hl]

/-! ## Secret write and read -/

/-- C11: in every state of a running server, for a SECRET_WRITE packet `p`
that carries a live session (u, s) and a secret whose stripped form (the
secret is cut at 128 bytes first) contains neither `;` nor `\n`, the reply is
SUCCESS, and a following SECRET_READ packet `q` with the same (u, s) returns
a secret field whose first 128 bytes are the stripped secret followed by
zero bytes, so that the string the client reads from it is exactly the
stripped secret. -/
theorem secret_write_then_read (s : Server) (hs : Running s) (p q : Frame)
    (hp : p.type = SECRET_WRITE) (hq : q.type = SECRET_READ)
    (hlive : ∃ c ∈ s.clients,
      session_matches c (p.slot1.set SESSION_ID_SIZE 0) (p.slot2.set MAX_USERNAME_LEN 0))
    (hq1 : field_str q.slot1 SESSION_ID_SIZE = field_str p.slot1 SESSION_ID_SIZE)
    (hq2 : field_str q.slot2 MAX_USERNAME_LEN = field_str p.slot2 MAX_USERNAME_LEN)
    (hx : 59 ∉ strip (field_str p.slot3 MAX_SECRET_LEN) ∧
      10 ∉ strip (field_str p.slot3 MAX_SECRET_LEN)) :
    ∃ s1 r1 s2 r2, dispatch s p = some (s1, r1) ∧ r1.rstatus = SUCCESS ∧
      dispatch s1 q = some (s2, r2) ∧
      r2.slot3.take MAX_SECRET_LEN =
        strip (field_str p.slot3 MAX_SECRET_LEN) ++
          List.replicate (MAX_SECRET_LEN - (strip (field_str p.slot3 MAX_SECRET_LEN)).length) 0 ∧
      field_str r2.slot3 MAX_SECRET_LEN = strip (field_str p.slot3 MAX_SECRET_LEN) := by
  -- the write
  have hv : is_valid_session s.clients (p.slot1.set SESSION_ID_SIZE 0)
      (p.slot2.set MAX_USERNAME_LEN 0) = true := (is_valid_session_iff _ _ _).2 hlive
  have hst := cstr_str_strip_field p.slot3 MAX_SECRET_LEN (by decide)
  have hf : is_valid_field (str_strip (p.slot3.set MAX_SECRET_LEN 0)) true = true := by
    rw [is_valid_field_iff, hst]
    split_ifs
    · rfl
    · exact ⟨hx.2, hx.1⟩
  obtain ⟨c, hc, hcm⟩ := hlive
  obtain ⟨e, he, hem⟩ := running_sessions_known s hs c hc
  have hrec : ∃ e ∈ s.database, strncmp e.username (p.slot2.set MAX_USERNAME_LEN 0)
      MAX_USERNAME_LEN = 0 := ⟨e, he, by rw [strncmp_eq_zero_iff, hem, hcm.2]⟩
  have hloop := user_secret_write_loop_found (p.slot2.set MAX_USERNAME_LEN 0)
    (str_strip (p.slot3.set MAX_SECRET_LEN 0)) s.database hrec
  have hw : (user_secret_write s.database (p.slot2.set MAX_USERNAME_LEN 0)
      (p.slot3.set MAX_SECRET_LEN 0)) =
      (true, (user_secret_write_loop (p.slot2.set MAX_USERNAME_LEN 0)
        (str_strip (p.slot3.set MAX_SECRET_LEN 0)) s.database).2,
        str_strip (p.slot3.set MAX_SECRET_LEN 0)) := by
    unfold user_secret_write
    simp only [hf, Bool.not_true, Bool.false_eq_true, if_false, hloop]
  have hne : ¬ (SECRET_WRITE = REGISTRATION) := by decide
  have hne1 : ¬ (SECRET_WRITE = LOGIN) := by decide
  have hne2 : ¬ (SECRET_WRITE = LOGOUT) := by decide
  have hd1 : dispatch s p = some (process_secret_write s p) := by
    simp only [dispatch, hp, hne, hne1, hne2, if_false, if_true]
  have hr1 : (process_secret_write s p).2.rstatus = SUCCESS := by
    simp only [process_secret_write, hv, if_true, hw]
  have hdb1 : (process_secret_write s p).1.database =
      (user_secret_write_loop (p.slot2.set MAX_USERNAME_LEN 0)
        (str_strip (p.slot3.set MAX_SECRET_LEN 0)) s.database).2 := by
    simp only [process_secret_write, hv, if_true, hw]
  -- the read
  have hqn : ¬ (SECRET_READ = REGISTRATION) := by decide
  have hqn1 : ¬ (SECRET_READ = LOGIN) := by decide
  have hqn2 : ¬ (SECRET_READ = LOGOUT) := by decide
  have hqn3 : ¬ (SECRET_READ = SECRET_WRITE) := by decide
  have hd2 : dispatch (process_secret_write s p).1 q =
      some (process_secret_read (process_secret_write s p).1 q) := by
    simp only [dispatch, hq, hqn, hqn1, hqn2, hqn3, if_false, if_true]
  have hv2 : is_valid_session (process_secret_write s p).1.clients
      (q.slot1.set SESSION_ID_SIZE 0) (q.slot2.set MAX_USERNAME_LEN 0) = true := by
    rw [process_secret_write_clients, is_valid_session_congr _ _ _ _ _ hq1 hq2]
    exact hv
  have hlen : strlen (str_strip (p.slot3.set MAX_SECRET_LEN 0)) ≤ MAX_SECRET_LEN := by
    unfold strlen
    rw [hst]
    exact le_trans (strip_length_le _) (field_str_length_le _ _)
  obtain ⟨sec, hsec, hcs⟩ := user_secret_read_after_write (p.slot2.set MAX_USERNAME_LEN 0)
    (q.slot2.set MAX_USERNAME_LEN 0) (str_strip (p.slot3.set MAX_SECRET_LEN 0)) s.database
    hlen hq2 hloop
  rw [hst] at hcs
  have hslot : (process_secret_read (process_secret_write s p).1 q).2.slot3 =
      strip (field_str p.slot3 MAX_SECRET_LEN) ++
        List.replicate (MAX_SECRET_LEN - (strip (field_str p.slot3 MAX_SECRET_LEN)).length) 0 ++
        q.slot3.drop MAX_SECRET_LEN := by
    have hl : (strip (field_str p.slot3 MAX_SECRET_LEN)).length ≤ MAX_SECRET_LEN :=
      le_trans (strip_length_le _) (field_str_length_le _ _)
    simp only [process_secret_read, hv2, if_true, hdb1, hsec]
    unfold strncpy strlen
    rw [hcs, List.take_of_length_le hl]
  have hl : (strip (field_str p.slot3 MAX_SECRET_LEN)).length ≤ MAX_SECRET_LEN :=
    le_trans (strip_length_le _) (field_str_length_le _ _)
  refine ⟨(process_secret_write s p).1, (process_secret_write s p).2,
    (process_secret_read (process_secret_write s p).1 q).1,
    (process_secret_read (process_secret_write s p).1 q).2, hd1, hr1, hd2, ?_, ?_⟩
  · rw [hslot, List.take_append_of_le_length (by simp; omega)]
    exact List.take_of_length_le (by simp; omega)
  · rw [field_str_eq_take, hslot]
    exact take_cstr_padded _ _ _ (zero_not_mem_strip_cstr _) hl

/-- Witness of `secret_write_then_read`: `alice` logs in, writes the secret
`"hi\n"` and reads it back. -/
theorem secret_write_then_read_witness :
    ∃ s1 r1 s2 r2,
      dispatch (process_login (server_with [mk_entry alice pw1 []] [])
          (client_frame LOGIN alice pw1 [])).1
        (client_frame SECRET_WRITE sid_a alice [104, 105, 10]) = some (s1, r1) ∧
      r1.rstatus = SUCCESS ∧
      dispatch s1 (client_frame SECRET_READ sid_a alice []) = some (s2, r2) ∧
      r2.slot3.take MAX_SECRET_LEN =
        strip (field_str (client_frame SECRET_WRITE sid_a alice [104, 105, 10]).slot3
            MAX_SECRET_LEN) ++
          List.replicate (MAX_SECRET_LEN -
            (strip (field_str (client_frame SECRET_WRITE sid_a alice [104, 105, 10]).slot3
              MAX_SECRET_LEN)).length) 0 ∧
      field_str r2.slot3 MAX_SECRET_LEN =
        strip (field_str (client_frame SECRET_WRITE sid_a alice [104, 105, 10]).slot3
          MAX_SECRET_LEN) :=
  secret_write_then_read
    (process_login (server_with [mk_entry alice pw1 []] []) (client_frame LOGIN alice pw1 [])).1
    (Running.step (server_with [mk_entry alice pw1 []] []) _ (client_frame LOGIN alice pw1 [])
      (process_login (server_with [mk_entry alice pw1 []] [])
        (client_frame LOGIN alice pw1 [])).2
      (Running.start _ rfl) rfl)
    (client_frame SECRET_WRITE sid_a alice [104, 105, 10])
    (client_frame SECRET_READ sid_a alice []) rfl rfl
    ⟨mk_client sid_a alice, by decide, by decide⟩ (by decide) (by decide) (by decide)

/-! ## Logout -/

theorem user_logout_spec (clients : List client_t) (u sid : List Nat)
    (h : ∃ c ∈ clients, session_matches c sid u) :
    ∃ l1 c l2, clients = l1 ++ c :: l2 ∧ session_matches c sid u ∧
      (∀ x ∈ l1, ¬ session_matches x sid u) ∧
      user_logout clients u sid = (true, l1 ++ l2) := by
  induction clients with
  | nil => obtain ⟨c, hc, _⟩ := h; cases hc
  | cons c clients ih =>
    by_cases hm : session_matches c sid u
    · refine ⟨[], c, clients, rfl, hm, by simp, ?_⟩
      have hb : (strncmp c.username u MAX_USERNAME_LEN == 0 &&
          strncmp c.session_id sid SESSION_ID_SIZE == 0) = true := by
        simp only [Bool.and_eq_true, beq_iff_eq, strncmp_eq_zero_iff]
        exact ⟨hm.2, hm.1⟩
      unfold user_logout
      rw [List.findIdx?_cons, hb]
      simp [list_remove]
    · have hb : (strncmp c.username u MAX_USERNAME_LEN == 0 &&
          strncmp c.session_id sid SESSION_ID_SIZE == 0) = false := by
        rw [← Bool.not_eq_true]
        simp only [Bool.and_eq_true, beq_iff_eq, strncmp_eq_zero_iff]
        exact fun hh => hm ⟨hh.2, hh.1⟩
      have h1 : ∃ c ∈ clients, session_matches c sid u := by
        obtain ⟨c1, hc1, hm1⟩ := h
        rcases List.mem_cons.1 hc1 with e | e
        · rw [e] at hm1; exact absurd hm1 hm
        · exact ⟨c1, e, hm1⟩
      obtain ⟨l1, c1, l2, hl, hc1, hl1, hout⟩ := ih h1
      refine ⟨c :: l1, c1, l2, by rw [hl]; rfl, hc1, ?_, ?_⟩
      · intro x hx
        rcases List.mem_cons.1 hx with e | e
        · rw [e]; exact hm
        · exact hl1 x e
      · unfold user_logout at hout ⊢
        rw [List.findIdx?_cons, hb]
        simp only [Bool.false_eq_true, if_false, List.findIdx?_succ]
        cases hf : List.findIdx? (fun e => strncmp e.username u MAX_USERNAME_LEN == 0 &&
            strncmp e.session_id sid SESSION_ID_SIZE == 0) clients with
        | none => rw [hf] at hout; simp at hout
        | some i =>
          rw [hf] at hout
          simp only [Option.map_some', list_remove] at hout ⊢
          by_cases hi : i < clients.length
          · simp only [hi, if_true, Prod.mk.injEq, true_and] at hout
            simp [hi, hout]
          · simp [hi] at hout

/-- C12: for a LOGOUT packet whose (session id, username) pair matches a
record of the session table, the reply is SUCCESS and the new table is the
old one without the first matching record: the records before it (none of
which matches) and the records after it are kept in their order, so the length
decreases by exactly one; when no later record matches either, the pair is no
longer accepted by `is_valid_session`. -/
theorem logout_removes_first (s : Server) (p : Frame) (hp : p.type = LOGOUT)
    (h : ∃ c ∈ s.clients,
      session_matches c (p.slot1.set SESSION_ID_SIZE 0) (p.slot2.set MAX_USERNAME_LEN 0)) :
    ∃ l1 c l2 s1 r, s.clients = l1 ++ c :: l2 ∧
      session_matches c (p.slot1.set SESSION_ID_SIZE 0) (p.slot2.set MAX_USERNAME_LEN 0) ∧
      (∀ x ∈ l1,
        ¬ session_matches x (p.slot1.set SESSION_ID_SIZE 0) (p.slot2.set MAX_USERNAME_LEN 0)) ∧
      dispatch s p = some (s1, r) ∧ r.rstatus = SUCCESS ∧
      s1.clients = l1 ++ l2 ∧ s1.clients.length + 1 = s.clients.length ∧
      ((∀ x ∈ l2,
          ¬ session_matches x (p.slot1.set SESSION_ID_SIZE 0) (p.slot2.set MAX_USERNAME_LEN 0)) →
        is_valid_session s1.clients (p.slot1.set SESSION_ID_SIZE 0)
          (p.slot2.set MAX_USERNAME_LEN 0) = false) := by
  have hv : is_valid_session s.clients (p.slot1.set SESSION_ID_SIZE 0)
      (p.slot2.set MAX_USERNAME_LEN 0) = true := (is_valid_session_iff _ _ _).2 h
  obtain ⟨l1, c, l2, hl, hc, hl1, hout⟩ := user_logout_spec s.clients
    (p.slot2.set MAX_USERNAME_LEN 0) (p.slot1.set SESSION_ID_SIZE 0) h
  have hne : ¬ (LOGOUT = REGISTRATION) := by decide
  have hne1 : ¬ (LOGOUT = LOGIN) := by decide
  have hd : dispatch s p = some (process_logout s p) := by
    simp only [dispatch, hp, hne, hne1, if_false, if_true]
  have hr : (process_logout s p).2.rstatus = SUCCESS := by
    simp only [process_logout, hv, if_true, hout]
  have hcl : (process_logout s p).1.clients = l1 ++ l2 := by
    rw [process_logout_clients, hv, if_pos rfl, hout]
  refine ⟨l1, c, l2, (process_logout s p).1, (process_logout s p).2, hl, hc, hl1, hd, hr, hcl,
    ?_, ?_⟩
  · rw [hcl, hl]
    simp only [List.length_append, List.length_cons]
    omega
  · intro hl2
    rw [hcl, ← Bool.not_eq_true, is_valid_session_iff]
    rintro ⟨x, hx, hm⟩
    rcases List.mem_append.1 hx with e | e
    · exact hl1 x e hm
    · exact hl2 x e hm

/-- Witness of `logout_removes_first`: `alice` holds the sessions `sid_b` and
`sid_a` and logs out of `sid_a`. -/
theorem logout_removes_first_witness :
    ∃ l1 c l2 s1 r,
      (server_with [mk_entry alice pw1 []]
        [mk_client sid_b alice, mk_client sid_a alice]).clients = l1 ++ c :: l2 ∧
      session_matches c ((client_frame LOGOUT sid_a alice []).slot1.set SESSION_ID_SIZE 0)
        ((client_frame LOGOUT sid_a alice []).slot2.set MAX_USERNAME_LEN 0) ∧
      (∀ x ∈ l1,
        ¬ session_matches x ((client_frame LOGOUT sid_a alice []).slot1.set SESSION_ID_SIZE 0)
          ((client_frame LOGOUT sid_a alice []).slot2.set MAX_USERNAME_LEN 0)) ∧
      dispatch (server_with [mk_entry alice pw1 []]
          [mk_client sid_b alice, mk_client sid_a alice])
        (client_frame LOGOUT sid_a alice []) = some (s1, r) ∧ r.rstatus = SUCCESS ∧
      s1.clients = l1 ++ l2 ∧
      s1.clients.length + 1 = (server_with [mk_entry alice pw1 []]
        [mk_client sid_b alice, mk_client sid_a alice]).clients.length ∧
      ((∀ x ∈ l2,
          ¬ session_matches x ((client_frame LOGOUT sid_a alice []).slot1.set SESSION_ID_SIZE 0)
            ((client_frame LOGOUT sid_a alice []).slot2.set MAX_USERNAME_LEN 0)) →
        is_valid_session s1.clients
          ((client_frame LOGOUT sid_a alice []).slot1.set SESSION_ID_SIZE 0)
          ((client_frame LOGOUT sid_a alice []).slot2.set MAX_USERNAME_LEN 0) = false) :=
  logout_removes_first
    (server_with [mk_entry alice pw1 []] [mk_client sid_b alice, mk_client sid_a alice])
    (client_frame LOGOUT sid_a alice []) rfl
    ⟨mk_client sid_a alice, by decide, by decide⟩

/-! ## Loading the database file -/

theorem scan_set_some (inp tok rest : List Nat) (h : scan_set inp = some (tok, rest)) :
    tok ≠ [] ∧ 10 ∉ tok ∧ 59 ∉ tok ∧ tok ⊆ inp ∧ rest ⊆ inp := by
  unfold scan_set at h
  simp only at h
  split_ifs at h with he
  simp only [Option.some.injEq, Prod.mk.injEq] at h
  obtain ⟨h1, h2⟩ := h
  refine ⟨h1 ▸ he, ?_, ?_, ?_, ?_⟩
  · intro hm
    rw [← h1] at hm
    have := List.mem_takeWhile_imp hm
    simp at this
  · intro hm
    rw [← h1] at hm
    have := List.mem_takeWhile_imp hm
    simp at this
  · rw [← h1]; exact (List.takeWhile_sublist _).subset
  · rw [← h2]; exact (List.drop_sublist _ _).subset

theorem cstr_scan_store (field tok : List Nat) (h : 0 ∉ tok) : cstr (scan_store field tok) = tok := by
  unfold scan_store
  rw [List.append_assoc, List.singleton_append]
  exact cstr_append_zero h _

theorem cstr_zeros (n : Nat) : cstr (List.replicate n 0) = [] := by
  cases n with
  | zero => rfl
  | succ n => rw [List.replicate_succ, cstr_cons, if_pos rfl]

/-- What `sscanf` leaves in the username and password arrays of a zeroed entry:
strings free of `\n` and `;`. -/
theorem parse_line_fields (line : List Nat) :
    (10 ∉ cstr (parse_line line).username ∧ 59 ∉ cstr (parse_line line).username) ∧
    (10 ∉ cstr (parse_line line).password ∧ 59 ∉ cstr (parse_line line).password) := by
  have hz : ∀ c, c ∉ cstr (List.replicate 33 0) := by
    intro c; rw [cstr_zeros]; exact List.not_mem_nil c
  unfold parse_line sscanf_entry
  split
  · exact ⟨⟨hz _, hz _⟩, ⟨hz _, hz _⟩⟩
  · rename_i u r1 h1
    obtain ⟨-, hu10, hu59, husub, hr1sub⟩ := scan_set_some _ _ _ h1
    have hu0 : 0 ∉ u := fun h => zero_not_mem_cstr line (husub h)
    have hcu := cstr_scan_store (List.replicate 33 0) u hu0
    simp only
    split
    · rename_i r2
      split
      · simp only [hcu]
        exact ⟨⟨hu10, hu59⟩, ⟨hz _, hz _⟩⟩
      · rename_i p r3 h2
        obtain ⟨-, hp10, hp59, hpsub, -⟩ := scan_set_some _ _ _ h2
        have hp0 : 0 ∉ p := fun h =>
          zero_not_mem_cstr line (hr1sub (List.mem_cons_of_mem _ (hpsub h)))
        have hcp := cstr_scan_store (List.replicate 33 0) p hp0
        split
        · split
          · simp only [hcu, hcp]
            exact ⟨⟨hu10, hu59⟩, ⟨hp10, hp59⟩⟩
          · simp only [hcu, hcp]
            exact ⟨⟨hu10, hu59⟩, ⟨hp10, hp59⟩⟩
        · simp only [hcu, hcp]
          exact ⟨⟨hu10, hu59⟩, ⟨hp10, hp59⟩⟩
    · simp only [hcu]
      exact ⟨⟨hu10, hu59⟩, ⟨hz _, hz _⟩⟩

theorem line_empty_iff (line : List Nat) :
    line_empty line ↔ entry_valid (parse_line line) = false := by
  obtain ⟨⟨hu10, hu59⟩, ⟨hp10, hp59⟩⟩ := parse_line_fields line
  unfold line_empty entry_valid
  rw [← Bool.not_eq_true, Bool.and_eq_true, is_valid_field_iff, is_valid_field_iff]
  by_cases h1 : cstr (parse_line line).username = [] <;>
    by_cases h2 : cstr (parse_line line).password = [] <;>
    simp [h1, h2, hu10, hu59, hp10, hp59]

theorem read_database_loop_step (line : List Nat) (lines : List (List Nat))
    (db : List entry_t) :
    read_database_loop (line :: lines) false db =
      if entry_valid (parse_line line) then
        read_database_loop lines true (db ++ [parse_line line])
      else some (2, false, db) := by
  rw [read_database_loop]
  unfold entry_valid parse_line list_add
  simp only
  by_cases h1 : is_valid_field (sscanf_entry line
      ⟨List.replicate 33 0, List.replicate 33 0, List.replicate 129 0⟩).username false = true <;>
    by_cases h2 : is_valid_field (sscanf_entry line
      ⟨List.replicate 33 0, List.replicate 33 0, List.replicate 129 0⟩).password false = true <;>
    simp [h1, h2, -List.reduceReplicate]

/-- What the loop of `read_database` does with the lines of a file: a first
line that fails the validation ends it with code 2; a first line that passes
is loaded, and the loop returns 0 when it was the only line and has no defined
behaviour when another line follows. -/
theorem read_database_loop_lines (line : List Nat) (lines : List (List Nat))
    (db : List entry_t) :
    (line_empty line → read_database_loop (line :: lines) false db = some (2, false, db)) ∧
    (¬ line_empty line → lines = [] →
      read_database_loop (line :: lines) false db = some (0, true, db ++ [parse_line line])) ∧
    (¬ line_empty line → lines ≠ [] → read_database_loop (line :: lines) false db = none) := by
  refine ⟨?_, ?_, ?_⟩
  · intro h
    rw [line_empty_iff] at h
    rw [read_database_loop_step, h]
    simp
  · intro h hl
    rw [line_empty_iff, Bool.not_eq_false] at h
    rw [read_database_loop_step, h, if_pos rfl, hl, read_database_loop]
  · intro h hl
    rw [line_empty_iff, Bool.not_eq_false] at h
    rw [read_database_loop_step, h, if_pos rfl]
    cases lines with
    | nil => exact absurd rfl hl
    | cons l ls => exact read_database_loop_freed l ls _

theorem scan_store_length (n : Nat) (tok : List Nat) (h : tok.length < n) :
    (scan_store (List.replicate n 0) tok).length = n := by
  rw [scan_store_zeroed n tok h]
  simp only [List.length_append, List.length_replicate]
  omega

/-- When the strings `sscanf` stored respect the caps, the three arrays of the
parsed entry have kept their sizes: no array was overrun. -/
theorem parse_line_sizes (line : List Nat) (h : entry_caps (parse_line line)) :
    (parse_line line).username.length = 33 ∧ (parse_line line).password.length = 33 ∧
      (parse_line line).secret.length = 129 := by
  have key : ∀ (n : Nat) (f : List Nat), f = List.replicate (n + 1) 0 ∨
      (∃ tok, 0 ∉ tok ∧ f = scan_store (List.replicate (n + 1) 0) tok) →
      strlen f ≤ n → f.length = n + 1 := by
    intro n f hf hl
    rcases hf with hf | ⟨tok, h0, hf⟩
    · rw [hf, List.length_replicate]
    · rw [hf] at hl ⊢
      unfold strlen at hl
      rw [cstr_scan_store _ _ h0] at hl
      exact scan_store_length _ _ (Nat.lt_succ_of_le hl)
  obtain ⟨h1, h2, h3⟩ := h
  suffices hs :
      ((parse_line line).username = List.replicate 33 0 ∨
        ∃ tok, 0 ∉ tok ∧ (parse_line line).username = scan_store (List.replicate 33 0) tok) ∧
      ((parse_line line).password = List.replicate 33 0 ∨
        ∃ tok, 0 ∉ tok ∧ (parse_line line).password = scan_store (List.replicate 33 0) tok) ∧
      ((parse_line line).secret = List.replicate 129 0 ∨
        ∃ tok, 0 ∉ tok ∧ (parse_line line).secret = scan_store (List.replicate 129 0) tok) from
    ⟨key 32 _ hs.1 h1, key 32 _ hs.2.1 h2, key 128 _ hs.2.2 h3⟩
  clear h1 h2 h3 key
  unfold parse_line sscanf_entry
  split
  · exact ⟨Or.inl rfl, Or.inl rfl, Or.inl rfl⟩
  · rename_i u r1 h1
    obtain ⟨-, -, -, husub, hr1sub⟩ := scan_set_some _ _ _ h1
    have hu0 : 0 ∉ u := fun h => zero_not_mem_cstr line (husub h)
    simp only
    split
    · rename_i r2
      split
      · exact ⟨Or.inr ⟨u, hu0, rfl⟩, Or.inl rfl, Or.inl rfl⟩
      · rename_i p r3 h2
        obtain ⟨-, -, -, hpsub, hr3sub⟩ := scan_set_some _ _ _ h2
        have hp0 : 0 ∉ p := fun h =>
          zero_not_mem_cstr line (hr1sub (List.mem_cons_of_mem _ (hpsub h)))
        split
        · rename_i r4
          split
          · exact ⟨Or.inr ⟨u, hu0, rfl⟩, Or.inr ⟨p, hp0, rfl⟩, Or.inl rfl⟩
          · rename_i x r5 h3
            obtain ⟨-, -, -, hxsub, -⟩ := scan_set_some _ _ _ h3
            have hx0 : 0 ∉ x := fun h =>
              zero_not_mem_cstr line (hr1sub (List.mem_cons_of_mem _
                (hr3sub (List.mem_cons_of_mem _ (hxsub h)))))
            exact ⟨Or.inr ⟨u, hu0, rfl⟩, Or.inr ⟨p, hp0, rfl⟩, Or.inr ⟨x, hx0, rfl⟩⟩
        · exact ⟨Or.inr ⟨u, hu0, rfl⟩, Or.inr ⟨p, hp0, rfl⟩, Or.inl rfl⟩
    · exact ⟨Or.inr ⟨u, hu0, rfl⟩, Or.inl rfl, Or.inl rfl⟩

/-- C13 (the code at the failing input): the file `"alice;pw1;\n;x\n"`, whose
second line has an empty username.  `read_database` loads the first line,
frees `line` and hands the freed buffer to `getline` for the second line: the
behaviour is undefined, where code 2 with the record of `alice` and a cleared
path is expected; the same happens on the file `"alice;pw1;\nbob;x;\n"`, in
which no line fails.  When the failing line is the first one, the code is 2,
the database is unchanged and the path is cleared, so that `save_database`
writes nothing and returns 1; a file of one valid line is loaded with code 0
and the path kept. -/
theorem read_database_second_line_undefined :
    getlines [97, 108, 105, 99, 101, 59, 112, 119, 49, 59, 10, 59, 120, 10] =
      [[97, 108, 105, 99, 101, 59, 112, 119, 49, 59, 10], [59, 120, 10]] ∧
    ¬ line_empty [97, 108, 105, 99, 101, 59, 112, 119, 49, 59, 10] ∧
    line_empty [59, 120, 10] ∧
    read_database (some "db")
      [97, 108, 105, 99, 101, 59, 112, 119, 49, 59, 10, 59, 120, 10] [] = none ∧
    read_database (some "db")
      [97, 108, 105, 99, 101, 59, 112, 119, 49, 59, 10, 98, 111, 98, 59, 120, 59, 10] [] = none ∧
    read_database (some "db")
        [59, 120, 10, 97, 108, 105, 99, 101, 59, 112, 119, 49, 59, 10]
        [mk_entry [98, 111, 98] [120] []] =
      some (2, none, [mk_entry [98, 111, 98] [120] []]) ∧
    (∀ fopen_ok d, save_database none fopen_ok d = (1, none)) ∧
    read_database (some "db") [97, 108, 105, 99, 101, 59, 112, 119, 49, 59, 10] [] =
      some (0, some "db", [mk_entry alice pw1 []]) := by
  refine ⟨by decide, by decide, by decide, by decide, by decide, by decide, ?_, by decide⟩
  intro fopen_ok d
  rfl

/-! ## Saving the database file -/

theorem save_database_loop_eq (db : List entry_t) :
    save_database_loop db = (db.map entry_line).flatten := by
  induction db with
  | nil => rfl
  | cons e db ih =>
    rw [save_database_loop, ih]
    simp [entry_line, List.flatten]

theorem entry_line_mk_entry (u p x : List Nat) (hu : 0 ∉ u) (hp : 0 ∉ p) (hx : 0 ∉ x) :
    entry_line (mk_entry u p x) = u ++ [59] ++ p ++ [59] ++ x ++ [10] := by
  obtain ⟨c1, c2, c3⟩ := mk_entry_cstr u p x hu hp hx
  unfold entry_line
  rw [c1, c2, c3]

/-- C14: the text `save_database` writes is the concatenation, in list order,
of one line `username;password;secret\n` per record; a record appended by
`list_add` is written last; for a record holding the strings `u`, `p`, `x`
the line is `u;p;x\n`, and the single record (alice, pw1, empty secret) is
written as `"alice;pw1;\n"`. -/
theorem save_database_text (path : String) (db : List entry_t) :
    save_database (some path) true db = (0, some (db.map entry_line).flatten) ∧
    (∀ e, save_database (some path) true (list_add db e).2 =
      (0, some ((db.map entry_line).flatten ++ entry_line e))) ∧
    (∀ u p x : List Nat, 0 ∉ u → 0 ∉ p → 0 ∉ x →
      entry_line (mk_entry u p x) = u ++ [59] ++ p ++ [59] ++ x ++ [10]) ∧
    save_database (some path) true [mk_entry alice pw1 []] =
      (0, some [97, 108, 105, 99, 101, 59, 112, 119, 49, 59, 10]) := by
  refine ⟨?_, ?_, entry_line_mk_entry, ?_⟩
  · unfold save_database
    simp only [if_true, save_database_loop_eq]
  · intro e
    unfold save_database list_add
    simp only [if_true, save_database_loop_eq, List.map_append, List.flatten_append, List.map_cons,
      List.map_nil, List.flatten_cons, List.flatten_nil, List.append_nil]
  · unfold save_database
    simp only [if_true]
    decide

/-! ## Frame effects of the requests -/

/-- C15: each request type changes only its designated store.  For a request
answered by the server in state `s`, giving the state `s1`: LOGIN, LOGOUT and
SECRET_READ leave the database unchanged; REGISTRATION, SECRET_WRITE and
SECRET_READ leave the session table unchanged; REGISTRATION leaves the database
as it is or appends one record to it; and for every request the list of the
stored (username, password) pairs is a prefix of the list afterwards, so no
record is removed and no stored username or password is changed. -/
theorem request_frame_effects (s s1 : Server) (p r : Frame) (h : dispatch s p = some (s1, r)) :
    ((p.type = LOGIN ∨ p.type = LOGOUT ∨ p.type = SECRET_READ) → s1.database = s.database) ∧
    ((p.type = REGISTRATION ∨ p.type = SECRET_WRITE ∨ p.type = SECRET_READ) →
      s1.clients = s.clients) ∧
    (p.type = REGISTRATION → s1.database = s.database ∨ ∃ e, s1.database = s.database ++ [e]) ∧
    (s.database.map (fun e => (e.username, e.password))) <+:
      (s1.database.map (fun e => (e.username, e.password))) := by
  unfold dispatch at h
  split_ifs at h with t0 t1 t2 t3 t4
  · have hs : s1 = (process_registration s p).1 := by rw [Option.some.inj h]
    have hdb := user_register_database_cases s.database (p.slot1.set MAX_USERNAME_LEN 0)
      (p.slot2.set MAX_PASSWORD_LEN 0)
    rw [← process_registration_database] at hdb
    rw [← hs] at hdb
    refine ⟨?_, ?_, fun _ => hdb, ?_⟩
    · rintro (e | e | e) <;> rw [t0] at e <;> cases e
    · intro _; rw [hs, process_registration_clients]
    · rcases hdb with e | ⟨x, e⟩
      · rw [e]
      · rw [e, List.map_append]; exact List.prefix_append _ _
  · have hs : s1 = (process_login s p).1 := by rw [Option.some.inj h]
    have hdb : s1.database = s.database := by rw [hs, process_login_database]
    refine ⟨fun _ => hdb, ?_, ?_, ?_⟩
    · rintro (e | e | e) <;> rw [t1] at e <;> cases e
    · intro e; exact absurd e t0
    · rw [hdb]
  · have hs : s1 = (process_logout s p).1 := by rw [Option.some.inj h]
    have hdb : s1.database = s.database := by rw [hs, process_logout_database]
    refine ⟨fun _ => hdb, ?_, ?_, ?_⟩
    · rintro (e | e | e) <;> rw [t2] at e <;> cases e
    · intro e; exact absurd e t0
    · rw [hdb]
  · have hs : s1 = (process_secret_write s p).1 := by rw [Option.some.inj h]
    refine ⟨?_, ?_, ?_, ?_⟩
    · rintro (e | e | e) <;> rw [t3] at e <;> cases e
    · intro _; rw [hs, process_secret_write_clients]
    · intro e; exact absurd e t0
    · rcases process_secret_write_database s p with e | e
      · rw [hs, e]
      · rw [hs, e, user_secret_write_fields]
  · have hs : s1 = (process_secret_read s p).1 := by rw [Option.some.inj h]
    have hdb : s1.database = s.database := by rw [hs, process_secret_read_database]
    refine ⟨fun _ => hdb, ?_, ?_, ?_⟩
    · intro _; rw [hs, process_secret_read_clients]
    · intro e; exact absurd e t0
    · rw [hdb]

/-- Witness of `request_frame_effects`: `alice` logs in. -/
theorem request_frame_effects_witness :
    (process_login (server_with [mk_entry alice pw1 []] [])
        (client_frame LOGIN alice pw1 [])).1.database =
      (server_with [mk_entry alice pw1 []] []).database :=
  (request_frame_effects (server_with [mk_entry alice pw1 []] [])
    (process_login (server_with [mk_entry alice pw1 []] []) (client_frame LOGIN alice pw1 [])).1
    (client_frame LOGIN alice pw1 [])
    (process_login (server_with [mk_entry alice pw1 []] []) (client_frame LOGIN alice pw1 [])).2
    rfl).1 (Or.inl rfl)

/-! ## Field caps -/

theorem strlen_str_strip_le (b : List Nat) (n : Nat) (hn : n < 65536) (h : strlen b ≤ n) :
    strlen (str_strip b) ≤ n := by
  unfold strlen at *
  rw [cstr_str_strip b (by unfold strlen; omega)]
  exact le_trans (strip_length_le _) h

theorem strlen_strncpy_le (dst src : List Nat) (n : Nat) (h : strlen src ≤ n) :
    strlen (strncpy dst src (n + 1)) ≤ n := by
  unfold strlen
  rw [cstr_strncpy dst src (n + 1) (Nat.lt_succ_of_le h)]
  exact h

theorem strlen_zeros (n : Nat) : strlen (List.replicate n 0) = 0 := by
  unfold strlen
  rw [cstr_zeros]
  rfl

theorem user_register_entry_caps (db : List entry_t) (u p : List Nat)
    (hu : strlen u ≤ MAX_USERNAME_LEN) (hp : strlen p ≤ MAX_PASSWORD_LEN)
    (hdb : ∀ e ∈ db, entry_caps e) : ∀ e ∈ (user_register db u p).2.1, entry_caps e := by
  unfold user_register
  simp only [list_add]
  split_ifs
  · exact hdb
  · exact hdb
  · intro e he
    rcases List.mem_append.1 he with he | he
    · exact hdb e he
    · simp only [List.mem_singleton] at he
      rw [he]
      refine ⟨?_, ?_, ?_⟩
      · exact strlen_strncpy_le _ _ _ (strlen_str_strip_le u _ (by decide) hu)
      · exact strlen_strncpy_le _ _ _ (strlen_str_strip_le p _ (by decide) hp)
      · show strlen (List.replicate 129 0) ≤ MAX_SECRET_LEN
        rw [strlen_zeros]
        exact Nat.zero_le _

theorem user_secret_write_loop_entry_caps (u b : List Nat) (db : List entry_t)
    (hb : strlen b ≤ MAX_SECRET_LEN) (hdb : ∀ e ∈ db, entry_caps e) :
    ∀ e ∈ (user_secret_write_loop u b db).2, entry_caps e := by
  induction db with
  | nil => simp [user_secret_write_loop]
  | cons e db ih =>
    have hrest : ∀ e ∈ db, entry_caps e := fun x hx => hdb x (List.mem_cons_of_mem _ hx)
    have he := hdb e (List.mem_cons_self _ _)
    unfold user_secret_write_loop
    split_ifs
    · intro x hx
      rcases List.mem_cons.1 hx with hx | hx
      · rw [hx]
        exact ⟨he.1, he.2.1, strlen_strncpy_le _ _ _ hb⟩
      · exact hrest x hx
    · intro x hx
      rcases List.mem_cons.1 hx with hx | hx
      · rw [hx]; exact he
      · exact ih hrest x hx

theorem user_secret_write_entry_caps (db : List entry_t) (u b : List Nat)
    (hb : strlen b ≤ MAX_SECRET_LEN) (hdb : ∀ e ∈ db, entry_caps e) :
    ∀ e ∈ (user_secret_write db u b).2.1, entry_caps e := by
  unfold user_secret_write
  simp only
  split_ifs
  · exact hdb
  · exact user_secret_write_loop_entry_caps _ _ _ (strlen_str_strip_le b _ (by decide) hb) hdb

theorem dispatch_entry_caps (s s1 : Server) (p p1 : Frame) (h : dispatch s p = some (s1, p1))
    (hdb : ∀ e ∈ s.database, entry_caps e) : ∀ e ∈ s1.database, entry_caps e := by
  unfold dispatch at h
  split_ifs at h with t0 t1 t2 t3 t4
  · have hs : s1 = (process_registration s p).1 := by rw [Option.some.inj h]
    rw [hs, process_registration_database]
    exact user_register_entry_caps _ _ _ (strlen_set_zero_le _ _) (strlen_set_zero_le _ _) hdb
  · have hs : s1 = (process_login s p).1 := by rw [Option.some.inj h]
    rw [hs, process_login_database]; exact hdb
  · have hs : s1 = (process_logout s p).1 := by rw [Option.some.inj h]
    rw [hs, process_logout_database]; exact hdb
  · have hs : s1 = (process_secret_write s p).1 := by rw [Option.some.inj h]
    rcases process_secret_write_database s p with h1 | h1
    · rw [hs, h1]; exact hdb
    · rw [hs, h1]
      exact user_secret_write_entry_caps _ _ _ (strlen_set_zero_le _ _) hdb
  · have hs : s1 = (process_secret_read s p).1 := by rw [Option.some.inj h]
    rw [hs, process_secret_read_database]; exact hdb

theorem mk_client_caps (sid u : List Nat) (hs0 : 0 ∉ sid) (hu0 : 0 ∉ u)
    (hs : sid.length ≤ SESSION_ID_SIZE) (hu : u.length ≤ MAX_USERNAME_LEN) :
    client_caps (mk_client sid u) := by
  unfold client_caps mk_client strlen
  simp only [cstr_append_replicate hs0, cstr_append_replicate hu0]
  exact ⟨hs, hu⟩

theorem dispatch_client_caps (s s1 : Server) (p p1 : Frame) (h : dispatch s p = some (s1, p1))
    (hcl : ∀ c ∈ s.clients, client_caps c) : ∀ c ∈ s1.clients, client_caps c := by
  unfold dispatch at h
  split_ifs at h with t0 t1 t2 t3 t4
  · have hs : s1 = (process_registration s p).1 := by rw [Option.some.inj h]
    rw [hs, process_registration_clients]; exact hcl
  · have hs : s1 = (process_login s p).1 := by rw [Option.some.inj h]
    rw [hs, process_login_clients]
    split_ifs
    · rw [user_login_eq _ _ _ (strlen_set_zero_le _ _) (strlen_set_zero_le _ _)]
      intro c hc
      rcases List.mem_append.1 hc with hc | hc
      · exact hcl c hc
      · simp only [List.mem_singleton] at hc
        rw [hc]
        exact mk_client_caps _ _ (zero_not_mem_cstr _) (zero_not_mem_cstr _)
          (strlen_set_zero_le _ _) (strlen_set_zero_le _ _)
    · exact hcl
  · have hs : s1 = (process_logout s p).1 := by rw [Option.some.inj h]
    rw [hs, process_logout_clients]
    split_ifs
    · exact fun c hc => hcl c ((user_logout_sublist _ _ _).subset hc)
    · exact hcl
  · have hs : s1 = (process_secret_write s p).1 := by rw [Option.some.inj h]
    rw [hs, process_secret_write_clients]; exact hcl
  · have hs : s1 = (process_secret_read s p).1 := by rw [Option.some.inj h]
    rw [hs, process_secret_read_clients]; exact hcl

theorem handle_packet_dispatch (s s1 : Server) (p f : Frame) (client : Frame → Frame)
    (wait : WaitResult) (h : handle_packet s p client wait = some (s1, f)) :
    ∃ r, dispatch s p = some (s1, r) := by
  unfold handle_packet at h
  cases hd : dispatch s p with
  | none => simp [hd] at h
  | some x =>
    obtain ⟨s0, reply⟩ := x
    cases wait with
    | ok =>
      simp only [hd, Option.some.injEq, Prod.mk.injEq] at h
      exact ⟨reply, by rw [h.1]⟩
    | eintr => simp [hd] at h
    | failed => simp [hd] at h

theorem running_client_caps (s : Server) (h : Running s) : ∀ c ∈ s.clients, client_caps c := by
  induction h with
  | start s h0 => intro c hc; rw [h0] at hc; cases hc
  | step s s1 p p1 _ hd ih => exact dispatch_client_caps s s1 p p1 hd ih

/-- C16: field caps are an invariant under requests.  When `handle_packet`
processes a packet `p` in state `s` and leaves the state `s1`: if every record
of the database holds a username and a password of at most 32 bytes and a
secret of at most 128 bytes, so does every record afterwards; if every session
record holds a session id and a username of at most 32 bytes, so does every
session record afterwards, and that is the case of every state the server
reaches from its start (empty session table).  Nothing is assumed of the
packet: the strings the server reads from its fields, with the terminator it
writes at index 32 (128 for the secret), have at most 32 (128) bytes. -/
theorem field_caps_invariant (s s1 : Server) (p f : Frame) (client : Frame → Frame)
    (wait : WaitResult) (h : handle_packet s p client wait = some (s1, f)) :
    ((∀ e ∈ s.database, entry_caps e) → ∀ e ∈ s1.database, entry_caps e) ∧
    ((∀ c ∈ s.clients, client_caps c) → ∀ c ∈ s1.clients, client_caps c) ∧
    (Running s → ∀ c ∈ s1.clients, client_caps c) ∧
    (field_str p.slot1 MAX_USERNAME_LEN).length ≤ MAX_USERNAME_LEN ∧
    (field_str p.slot2 MAX_PASSWORD_LEN).length ≤ MAX_PASSWORD_LEN ∧
    (field_str p.slot3 MAX_SECRET_LEN).length ≤ MAX_SECRET_LEN ∧
    (field_str p.slot3 SESSION_ID_SIZE).length ≤ SESSION_ID_SIZE := by
  obtain ⟨r, hd⟩ := handle_packet_dispatch s s1 p f client wait h
  exact ⟨dispatch_entry_caps s s1 p r hd, dispatch_client_caps s s1 p r hd,
    fun hs => dispatch_client_caps s s1 p r hd (running_client_caps s hs),
    field_str_length_le _ _, field_str_length_le _ _, field_str_length_le _ _,
    field_str_length_le _ _⟩

/-- Witness of `field_caps_invariant`: a hostile LOGIN packet whose username
and password fields hold 33 times the character `a` and whose third field
holds 129 times `a`, none with a terminator, sent to a server whose database
holds the user of 32 times `a` with that password. -/
theorem field_caps_invariant_witness :
    Running (server_with [mk_entry sid_a sid_a []] []) ∧
    ∀ c ∈ (process_login (server_with [mk_entry sid_a sid_a []] [])
        ⟨ONLINE, SUCCESS, LOGIN, List.replicate 33 97, List.replicate 33 97,
          List.replicate 129 97, List.replicate 27 0⟩).1.clients, client_caps c :=
  ⟨Running.start _ rfl,
   (field_caps_invariant (server_with [mk_entry sid_a sid_a []] [])
    (process_login (server_with [mk_entry sid_a sid_a []] [])
      ⟨ONLINE, SUCCESS, LOGIN, List.replicate 33 97, List.replicate 33 97,
        List.replicate 129 97, List.replicate 27 0⟩).1
    ⟨ONLINE, SUCCESS, LOGIN, List.replicate 33 97, List.replicate 33 97,
      List.replicate 129 97, List.replicate 27 0⟩
    _ (fun f => f) WaitResult.ok rfl).2.2.1 (Running.start _ rfl)⟩

/-! ## Session ids -/

theorem randd_range (RAND_MAX r : Nat) (h : r ≤ RAND_MAX) :
    0 ≤ randd RAND_MAX r ∧ randd RAND_MAX r < 1 := by
  unfold randd
  have hpos : (0 : ℚ) < (RAND_MAX : ℚ) + 1 := by positivity
  constructor
  · positivity
  · rw [div_lt_one hpos]
    have : (r : ℚ) ≤ (RAND_MAX : ℚ) := by exact_mod_cast h
    linarith

theorem randd_index_eq_floor (RAND_MAX r : Nat) :
    randd_index RAND_MAX r = ⌊randd RAND_MAX r * 62⌋₊ := by
  unfold randd_index randd
  have h : (r : ℚ) / ((RAND_MAX : ℚ) + 1) * 62 = ((r * 62 : ℕ) : ℚ) / ((RAND_MAX + 1 : ℕ) : ℚ) := by
    push_cast
    ring
  rw [h, Nat.floor_div_eq_div]

theorem alphanum_is_alnum : ∀ c ∈ alphanum, is_alnum c := by decide

/-- C17: for every sequence of values of `rand()` in `[0, RAND_MAX]`,
`randd()` lies in `[0, 1)`, the index `randd_index` the code computes is the
integer part of `randd() * 62` and lies in `[0, 61]`, inside the table
`alphanum`, and `generate_session_id` fills the 32 positions of the session id
with characters of `[A-Za-z0-9]`, none of them the zero byte. -/
theorem generate_session_id_alnum (RAND_MAX : Nat) (rand : Nat → Nat) (calls : Nat)
    (buffer : List Nat) (hr : ∀ i, rand i ≤ RAND_MAX) :
    (∀ i, 0 ≤ randd RAND_MAX (rand i) ∧ randd RAND_MAX (rand i) < 1) ∧
    (∀ i, randd_index RAND_MAX (rand i) = ⌊randd RAND_MAX (rand i) * 62⌋₊ ∧
      randd_index RAND_MAX (rand i) ≤ 61 ∧
      randd_index RAND_MAX (rand i) < alphanum.length) ∧
    ((generate_session_id RAND_MAX rand calls buffer).1.take SESSION_ID_SIZE).length =
      SESSION_ID_SIZE ∧
    (∀ c ∈ (generate_session_id RAND_MAX rand calls buffer).1.take SESSION_ID_SIZE,
      is_alnum c ∧ c ≠ 0) := by
  have hlen : alphanum.length = 62 := by decide
  obtain ⟨id, hid, hmem, hg⟩ := generate_session_id_eq RAND_MAX rand calls buffer hr
  have htake : (generate_session_id RAND_MAX rand calls buffer).1.take SESSION_ID_SIZE = id := by
    rw [hg, List.take_append_of_le_length (le_of_eq hid.symm), ← hid, List.take_length]
  refine ⟨fun i => randd_range _ _ (hr i), ?_, ?_, ?_⟩
  · intro i
    have := randd_index_lt RAND_MAX (rand i) (hr i)
    exact ⟨randd_index_eq_floor _ _, by omega, by rw [hlen]; exact this⟩
  · rw [htake, hid]
  · intro c hc
    rw [htake] at hc
    refine ⟨alphanum_is_alnum c (hmem c hc), ?_⟩
    intro h0
    rw [h0] at hc
    exact zero_not_mem_alphanum (hmem 0 hc)

/-- Witness of `generate_session_id_alnum`: `rand()` always returns 0 and
`RAND_MAX` is `2^31 - 1`. -/
theorem generate_session_id_alnum_witness :
    (∀ i : Nat, (fun _ : Nat => 0) i ≤ 2147483647) ∧
    ∀ c ∈ (generate_session_id 2147483647 (fun _ => 0) 0 (List.replicate 33 0)).1.take
        SESSION_ID_SIZE, is_alnum c ∧ c ≠ 0 :=
  ⟨fun _ => Nat.zero_le _,
   (generate_session_id_alnum 2147483647 (fun _ => 0) 0 (List.replicate 33 0)
    (fun _ => Nat.zero_le _)).2.2.2⟩

/-! ## The client and its waits -/

theorem chain_snoc (t : List Event) (e : Event) (h : List.Chain' follows_checked t)
    (hl : ∀ x ∈ t.getLast?, follows_checked x e) : List.Chain' follows_checked (t ++ [e]) := by
  rw [List.chain'_append]
  refine ⟨h, List.chain'_singleton _, ?_⟩
  intro x hx y hy
  simp only [List.head?_cons, Option.mem_def, Option.some.injEq] at hy
  rw [← hy]
  exact hl x hx

theorem head_snoc_not_wait (t : List Event) (e : Event)
    (h : ∀ sem result, t.head? ≠ some (Event.wait sem result))
    (he : ∀ sem result, e ≠ Event.wait sem result) :
    ∀ sem result, (t ++ [e]).head? ≠ some (Event.wait sem result) := by
  intro sem result
  cases t with
  | nil => simpa using he sem result
  | cons x t => simpa using h sem result

theorem client_checked_start (frame : Frame) : client_checked (client_start frame) := by
  refine ⟨List.chain'_nil, ?_, ?_, ?_⟩
  · intro sem result; simp [client_start]
  · intro _ x hx; simp [client_start] at hx
  · intro code h; simp [client_start] at h

theorem client_checked_write (c : Client) (g : Frame → Frame) (h : client_checked c) :
    client_checked (c.write g) := by
  unfold Client.write
  split_ifs
  · exact h
  · exact h

/-- Appending an event that is neither a wait, nor an exit, nor a read of
OFFLINE to the trace of a process that has not exited. -/
theorem client_checked_snoc (c : Client) (e : Event) (h : client_checked c)
    (hex : c.exited = none)
    (he1 : ∀ sem result, e ≠ Event.wait sem result)
    (he2 : e ≠ Event.read_status OFFLINE) (he3 : ∀ code message, e ≠ Event.exit code message)
    (c1 : Client) (ht : c1.trace = c.trace ++ [e]) (hx : c1.exited = none) :
    client_checked c1 := by
  obtain ⟨h1, h2, h3, _⟩ := h
  refine ⟨?_, ?_, ?_, ?_⟩
  · rw [ht]
    apply chain_snoc _ _ h1
    intro x hx
    obtain ⟨q1, q2⟩ := h3 hex x hx
    exact ⟨fun sem result hy => absurd hy (he1 sem result), fun hq => absurd hq q1, q2⟩
  · rw [ht]; exact head_snoc_not_wait _ _ h2 he1
  · intro _ x hx
    rw [ht, List.getLast?_append, List.getLast?_singleton] at hx
    have hx1 : e = x := by simpa using hx
    rw [← hx1]
    exact ⟨he2, he3⟩
  · intro code hc
    rw [hx] at hc
    cases hc

theorem client_checked_sem_post (sem : Sem) (c : Client) (h : client_checked c) :
    client_checked (sem_post sem c) := by
  unfold sem_post
  split_ifs with hex
  · exact h
  · have hn : c.exited = none := by
      cases hc : c.exited with
      | none => rfl
      | some x => simp [hc] at hex
    exact client_checked_snoc c (Event.post sem) h hn (by simp) (by simp) (by simp) _ rfl hn

theorem exited_none_of_not_isSome (c : Client) (h : ¬ c.exited.isSome = true) : c.exited = none := by
  cases hc : c.exited with
  | none => rfl
  | some x => simp [hc] at h

/-- The process that reads OFFLINE and exits. -/
theorem client_checked_offline (c : Client) (h : client_checked c) (hex : c.exited = none)
    (c1 : Client)
    (ht : c1.trace = c.trace ++ [Event.read_status OFFLINE] ++
      [Event.exit EXIT_FAILURE "server is not available"])
    (hx : c1.exited = some EXIT_FAILURE) : client_checked c1 := by
  obtain ⟨h1, h2, h3, _⟩ := h
  refine ⟨?_, ?_, ?_, ?_⟩
  · rw [ht]
    apply chain_snoc
    · apply chain_snoc _ _ h1
      intro x hx
      obtain ⟨q1, q2⟩ := h3 hex x hx
      exact ⟨fun sem result hy => (by cases hy), fun hq => absurd hq q1, q2⟩
    · intro x hx
      rw [List.getLast?_append, List.getLast?_singleton] at hx
      have hx1 : Event.read_status OFFLINE = x := by simpa using hx
      rw [← hx1]
      exact ⟨fun sem result hy => (by cases hy), fun _ => rfl, fun code message hq => (by cases hq)⟩
  · rw [ht]
    apply head_snoc_not_wait
    · apply head_snoc_not_wait _ _ h2
      intro sem result hq; cases hq
    · intro sem result hq; cases hq
  · intro hn; rw [hx] at hn; cases hn
  · intro code hc
    rw [hx] at hc
    refine ⟨(Option.some.inj hc).symm, ?_⟩
    rw [ht, List.getLast?_append, List.getLast?_singleton]
    rfl

/-- The process that reads ONLINE and calls `sem_wait`. -/
theorem client_checked_online_wait (c : Client) (h : client_checked c) (hex : c.exited = none)
    (sem : Sem) (result : WaitResult) (c1 : Client)
    (ht : c1.trace = c.trace ++ [Event.read_status ONLINE] ++ [Event.wait sem result])
    (hx : c1.exited = none) : client_checked c1 := by
  obtain ⟨h1, h2, h3, _⟩ := h
  refine ⟨?_, ?_, ?_, ?_⟩
  · rw [ht]
    apply chain_snoc
    · apply chain_snoc _ _ h1
      intro x hx
      obtain ⟨q1, q2⟩ := h3 hex x hx
      exact ⟨fun sem result hy => (by cases hy), fun hq => absurd hq q1, q2⟩
    · intro x hx
      rw [List.getLast?_append, List.getLast?_singleton] at hx
      have hx1 : Event.read_status ONLINE = x := by simpa using hx
      rw [← hx1]
      exact ⟨fun _ _ _ => rfl, fun hq => (by cases hq), fun code message hq => (by cases hq)⟩
  · rw [ht]
    intro s r
    have hh := head_snoc_not_wait c.trace (Event.read_status ONLINE) h2
      (fun sem result hq => (by cases hq)) s r
    cases hc : c.trace with
    | nil => simp
    | cons y t => rw [hc] at hh; simpa using hh
  · intro _ x hx
    rw [ht, List.getLast?_append, List.getLast?_singleton] at hx
    have hx1 : Event.wait sem result = x := by simpa using hx
    rw [← hx1]
    exact ⟨fun hq => (by cases hq), fun code message hq => (by cases hq)⟩
  · intro code hc
    rw [hx] at hc
    cases hc

theorem client_checked_sem_wait_checked (env : Env) (sem : Sem) (c : Client)
    (h : client_checked c) : client_checked (sem_wait_checked env sem c) := by
  unfold sem_wait_checked
  by_cases hex : c.exited.isSome = true
  · rw [if_pos hex]; exact h
  · rw [if_neg hex]
    have hn := exited_none_of_not_isSome c hex
    dsimp only
    by_cases h1 : env.status c.reads = OFFLINE
    · rw [if_pos h1]
      refine client_checked_offline c h hn _ ?_ rfl
      simp only [h1]
    · rw [if_neg h1]
      by_cases h2 : env.status c.reads = ONLINE
      · rw [if_pos h2]
        refine client_checked_online_wait c h hn sem (env.wait c.waits) _ ?_ hn
        simp only [h2]
      · rw [if_neg h2]
        refine client_checked_snoc c (Event.read_status (env.status c.reads)) h hn ?_ ?_ ?_ _ rfl hn
        · intro s r hq; cases hq
        · intro hq; exact h1 (Event.read_status.inj hq)
        · intro code m hq; cases hq

theorem client_checked_sem_post_checked (env : Env) (sem : Sem) (c : Client)
    (h : client_checked c) : client_checked (sem_post_checked env sem c) := by
  unfold sem_post_checked
  by_cases hex : c.exited.isSome = true
  · rw [if_pos hex]; exact h
  · rw [if_neg hex]
    have hn := exited_none_of_not_isSome c hex
    dsimp only
    have ha : env.status c.reads ≠ OFFLINE → client_checked
        { c with trace := c.trace ++ [Event.read_status (env.status c.reads)],
                 reads := c.reads + 1 } := by
      intro h1
      refine client_checked_snoc c (Event.read_status (env.status c.reads)) h hn ?_ ?_ ?_ _ rfl hn
      · intro s r hq; cases hq
      · intro hq; exact h1 (Event.read_status.inj hq)
      · intro code m hq; cases hq
    by_cases h1 : env.status c.reads = OFFLINE
    · rw [if_pos h1]
      refine client_checked_offline c h hn _ ?_ rfl
      simp only [h1]
    · rw [if_neg h1]
      by_cases h2 : env.status c.reads = ONLINE
      · rw [if_pos h2]
        exact client_checked_snoc _ (Event.post sem) (ha h1) hn (by simp) (by simp) (by simp) _ rfl hn
      · rw [if_neg h2]
        exact ha h1

theorem client_checked_send_packet (env : Env) (c : Client) (h : client_checked c) :
    client_checked (send_packet env c) :=
  client_checked_sem_wait_checked env _ _ (client_checked_sem_post _ _ h)

theorem trace_checked_of_client_checked (c : Client) (h : client_checked c) :
    trace_checked c.trace := by
  obtain ⟨h1, h2, h3, h4⟩ := h
  refine ⟨h1, h2, ?_⟩
  intro hl
  cases hc : c.exited with
  | none => exact (h3 hc _ hl).1 rfl
  | some code =>
    have := (h4 code hc).2
    rw [hl] at this
    cases this

theorem client_checked_register_user (env : Env) (username password : List Nat) (c : Client)
    (h : client_checked c) : client_checked (register_user env username password c).1 := by
  unfold register_user
  dsimp only
  apply client_checked_sem_post_checked
  apply client_checked_sem_post
  apply client_checked_send_packet
  apply client_checked_write
  apply client_checked_sem_wait_checked
  apply client_checked_sem_wait_checked
  exact h

theorem client_checked_login_user (env : Env) (username password : List Nat) (c : Client)
    (h : client_checked c) : client_checked (login_user env username password c).1 := by
  unfold login_user
  dsimp only
  apply client_checked_sem_post_checked
  apply client_checked_sem_post
  apply client_checked_write
  apply client_checked_send_packet
  apply client_checked_write
  apply client_checked_sem_wait_checked
  apply client_checked_sem_wait_checked
  exact h

theorem client_checked_logout_user (env : Env) (username session_id : List Nat) (c : Client)
    (h : client_checked c) : client_checked (logout_user env username session_id c).1 := by
  unfold logout_user
  dsimp only
  apply client_checked_sem_post_checked
  apply client_checked_sem_post
  apply client_checked_send_packet
  apply client_checked_write
  apply client_checked_sem_wait_checked
  apply client_checked_sem_wait_checked
  exact h

theorem client_checked_write_secret (env : Env) (username session_id secret : List Nat)
    (c : Client) (h : client_checked c) :
    client_checked (write_secret env username session_id secret c).1 := by
  unfold write_secret
  dsimp only
  apply client_checked_sem_post_checked
  apply client_checked_sem_post
  apply client_checked_send_packet
  apply client_checked_write
  apply client_checked_sem_wait_checked
  apply client_checked_sem_wait_checked
  exact h

theorem client_checked_read_secret (env : Env) (username session_id : List Nat) (c : Client)
    (h : client_checked c) : client_checked (read_secret env username session_id c).1 := by
  unfold read_secret
  dsimp only
  apply client_checked_sem_post_checked
  apply client_checked_sem_post
  apply client_checked_write
  apply client_checked_send_packet
  apply client_checked_write
  apply client_checked_sem_wait_checked
  apply client_checked_sem_wait_checked
  exact h

/-- C18 (the code at the failing input): a client whose first wait, the one on
S3 in `register_user`, fails with EINTR does not exit; it goes on to wait on
S2, writes its request into the frame, posts S1 and returns as after a normal
wait. -/
theorem client_wait_eintr_continues :
    (sem_wait_checked env_eintr Sem.sem3 (client_start (client_frame 0 [] [] []))).exited = none ∧
    (sem_wait_checked env_eintr Sem.sem3 (client_start (client_frame 0 [] [] []))).trace =
      [Event.read_status ONLINE, Event.wait Sem.sem3 WaitResult.eintr] ∧
    (register_user env_eintr alice pw1 (client_start (client_frame 0 [] [] []))).1.exited = none ∧
    (register_user env_eintr alice pw1 (client_start (client_frame 0 [] [] []))).1.trace =
      [Event.read_status ONLINE, Event.wait Sem.sem3 WaitResult.eintr,
       Event.read_status ONLINE, Event.wait Sem.sem2 WaitResult.ok,
       Event.post Sem.sem1,
       Event.read_status ONLINE, Event.wait Sem.sem2 WaitResult.ok,
       Event.post Sem.sem1,
       Event.read_status ONLINE, Event.post Sem.sem3] ∧
    (register_user env_eintr alice pw1 (client_start (client_frame 0 [] [] []))).1.frame =
      client_frame REGISTRATION alice pw1 [] := by
  refine ⟨?_, ?_, ?_, ?_, ?_⟩
  · simp [sem_wait_checked, env_eintr, client_start]
  · simp [sem_wait_checked, env_eintr, client_start]
  · simp [register_user, send_packet, sem_wait_checked, sem_post_checked, sem_post, Client.write,
      env_eintr, client_start]
  · simp [register_user, send_packet, sem_wait_checked, sem_post_checked, sem_post, Client.write,
      env_eintr, client_start]
  · simp [register_user, send_packet, sem_wait_checked, sem_post_checked, sem_post, Client.write,
      env_eintr, client_start, client_frame]
    exact ⟨by decide, by decide⟩

theorem control_sem_wait_checked (env : Env) (sem : Sem) (c1 c2 : Client)
    (h : c1.control = c2.control) :
    (sem_wait_checked env sem c1).control = (sem_wait_checked env sem c2).control := by
  obtain ⟨f1, t1, r1, w1, e1⟩ := c1
  obtain ⟨f2, t2, r2, w2, e2⟩ := c2
  simp only [Client.control, Prod.mk.injEq] at h
  obtain ⟨rfl, rfl, rfl, rfl⟩ := h
  unfold sem_wait_checked
  dsimp only
  split_ifs <;> rfl

theorem control_sem_post_checked (env : Env) (sem : Sem) (c1 c2 : Client)
    (h : c1.control = c2.control) :
    (sem_post_checked env sem c1).control = (sem_post_checked env sem c2).control := by
  obtain ⟨f1, t1, r1, w1, e1⟩ := c1
  obtain ⟨f2, t2, r2, w2, e2⟩ := c2
  simp only [Client.control, Prod.mk.injEq] at h
  obtain ⟨rfl, rfl, rfl, rfl⟩ := h
  unfold sem_post_checked
  dsimp only
  split_ifs <;> rfl

theorem control_sem_post (sem : Sem) (c1 c2 : Client) (h : c1.control = c2.control) :
    (sem_post sem c1).control = (sem_post sem c2).control := by
  obtain ⟨f1, t1, r1, w1, e1⟩ := c1
  obtain ⟨f2, t2, r2, w2, e2⟩ := c2
  simp only [Client.control, Prod.mk.injEq] at h
  obtain ⟨rfl, rfl, rfl, rfl⟩ := h
  unfold sem_post
  dsimp only
  split_ifs <;> rfl

theorem control_write (c : Client) (g : Frame → Frame) : (c.write g).control = c.control := by
  unfold Client.write
  split_ifs <;> rfl

/-- The five request functions run the statements of `request_body`. -/
theorem request_body_control (env : Env) (c : Client) (a b x : List Nat) :
    (register_user env a b c).1.control =
      (request_body.foldl (fun c s => s.run env c) c).control ∧
    (login_user env a b c).1.control =
      (request_body.foldl (fun c s => s.run env c) c).control ∧
    (logout_user env a b c).1.control =
      (request_body.foldl (fun c s => s.run env c) c).control ∧
    (write_secret env a b x c).1.control =
      (request_body.foldl (fun c s => s.run env c) c).control ∧
    (read_secret env a b c).1.control =
      (request_body.foldl (fun c s => s.run env c) c).control := by
  have key1 : ∀ g1 : Frame → Frame,
      (sem_post_checked env Sem.sem3 (sem_post Sem.sem1
        (send_packet env ((sem_wait_checked env Sem.sem2
          (sem_wait_checked env Sem.sem3 c)).write g1)))).control =
      (request_body.foldl (fun c s => s.run env c) c).control := by
    intro g1
    simp only [request_body, List.foldl, Stmt.run, send_packet]
    apply control_sem_post_checked
    apply control_sem_post
    apply control_sem_wait_checked
    apply control_sem_post
    rw [control_write]
  have key2 : ∀ g1 g2 : Frame → Frame,
      (sem_post_checked env Sem.sem3 (sem_post Sem.sem1
        ((send_packet env ((sem_wait_checked env Sem.sem2
          (sem_wait_checked env Sem.sem3 c)).write g1)).write g2))).control =
      (request_body.foldl (fun c s => s.run env c) c).control := by
    intro g1 g2
    simp only [request_body, List.foldl, Stmt.run, send_packet]
    apply control_sem_post_checked
    apply control_sem_post
    rw [control_write]
    apply control_sem_wait_checked
    apply control_sem_post
    rw [control_write]
  refine ⟨?_, ?_, ?_, ?_, ?_⟩
  · unfold register_user
    dsimp only
    exact key1 _
  · unfold login_user
    dsimp only
    exact key2 _ _
  · unfold logout_user
    dsimp only
    exact key1 _
  · unfold write_secret
    dsimp only
    exact key1 _
  · unfold read_secret
    dsimp only
    exact key2 _ _

/-- C19: every wait of a client goes through `sem_wait_checked`.  In the
trace of each of the five request functions, whatever the client observes,
every `sem_wait` comes right after a read of `p->status` that gave ONLINE, a
read that gave OFFLINE is followed by the exit with `EXIT_FAILURE` and the
message "server is not available" and by nothing else, and no wait comes
first.  `sem_wait_checked` itself, when it reads OFFLINE, exits so without
waiting, and when it reads ONLINE performs the wait.  While the server stays
ONLINE each of the five functions reads the status and waits on S3, reads
the status and waits on S2, posts S1, reads the status and waits on S2 for
the reply, posts S1, reads the status and posts S3, and does nothing else on
the semaphores; when the first read gives OFFLINE each of them exits at once
without a wait.  Whatever the client observes, what each function does on the
semaphores is what the statements of `request_body` do, whose waits are the
three calls of `sem_wait_checked`. -/
theorem client_waits_checked (env : Env) (frame : Frame)
    (username password session_id secret : List Nat) :
    trace_checked (register_user env username password (client_start frame)).1.trace ∧
    trace_checked (login_user env username password (client_start frame)).1.trace ∧
    trace_checked (logout_user env username session_id (client_start frame)).1.trace ∧
    trace_checked (write_secret env username session_id secret (client_start frame)).1.trace ∧
    trace_checked (read_secret env username session_id (client_start frame)).1.trace ∧
    (∀ sem c, c.exited = none → env.status c.reads = OFFLINE →
      (sem_wait_checked env sem c).trace = c.trace ++
        [Event.read_status OFFLINE, Event.exit EXIT_FAILURE "server is not available"] ∧
      (sem_wait_checked env sem c).exited = some EXIT_FAILURE) ∧
    (∀ sem c, c.exited = none → env.status c.reads = ONLINE →
      (sem_wait_checked env sem c).trace = c.trace ++
        [Event.read_status ONLINE, Event.wait sem (env.wait c.waits)] ∧
      (sem_wait_checked env sem c).exited = none) ∧
    ((∀ n, env.status n = ONLINE) →
      (register_user env username password (client_start frame)).1.trace =
        [Event.read_status ONLINE, Event.wait Sem.sem3 (env.wait 0),
         Event.read_status ONLINE, Event.wait Sem.sem2 (env.wait 1),
         Event.post Sem.sem1,
         Event.read_status ONLINE, Event.wait Sem.sem2 (env.wait 2),
         Event.post Sem.sem1,
         Event.read_status ONLINE, Event.post Sem.sem3] ∧
      (register_user env username password (client_start frame)).1.exited = none) ∧
    ((∀ n, env.status n = ONLINE) →
      (login_user env username password (client_start frame)).1.trace =
        [Event.read_status ONLINE, Event.wait Sem.sem3 (env.wait 0),
         Event.read_status ONLINE, Event.wait Sem.sem2 (env.wait 1),
         Event.post Sem.sem1,
         Event.read_status ONLINE, Event.wait Sem.sem2 (env.wait 2),
         Event.post Sem.sem1,
         Event.read_status ONLINE, Event.post Sem.sem3] ∧
      (login_user env username password (client_start frame)).1.exited = none) ∧
    ((∀ n, env.status n = ONLINE) →
      (logout_user env username session_id (client_start frame)).1.trace =
        [Event.read_status ONLINE, Event.wait Sem.sem3 (env.wait 0),
         Event.read_status ONLINE, Event.wait Sem.sem2 (env.wait 1),
         Event.post Sem.sem1,
         Event.read_status ONLINE, Event.wait Sem.sem2 (env.wait 2),
         Event.post Sem.sem1,
         Event.read_status ONLINE, Event.post Sem.sem3] ∧
      (logout_user env username session_id (client_start frame)).1.exited = none) ∧
    ((∀ n, env.status n = ONLINE) →
      (write_secret env username session_id secret (client_start frame)).1.trace =
        [Event.read_status ONLINE, Event.wait Sem.sem3 (env.wait 0),
         Event.read_status ONLINE, Event.wait Sem.sem2 (env.wait 1),
         Event.post Sem.sem1,
         Event.read_status ONLINE, Event.wait Sem.sem2 (env.wait 2),
         Event.post Sem.sem1,
         Event.read_status ONLINE, Event.post Sem.sem3] ∧
      (write_secret env username session_id secret (client_start frame)).1.exited = none) ∧
    ((∀ n, env.status n = ONLINE) →
      (read_secret env username session_id (client_start frame)).1.trace =
        [Event.read_status ONLINE, Event.wait Sem.sem3 (env.wait 0),
         Event.read_status ONLINE, Event.wait Sem.sem2 (env.wait 1),
         Event.post Sem.sem1,
         Event.read_status ONLINE, Event.wait Sem.sem2 (env.wait 2),
         Event.post Sem.sem1,
         Event.read_status ONLINE, Event.post Sem.sem3] ∧
      (read_secret env username session_id (client_start frame)).1.exited = none) ∧
    (env.status 0 = OFFLINE →
      (register_user env username password (client_start frame)).1.trace =
        [Event.read_status OFFLINE, Event.exit EXIT_FAILURE "server is not available"] ∧
      (register_user env username password (client_start frame)).1.exited = some EXIT_FAILURE) ∧
    (env.status 0 = OFFLINE →
      (login_user env username password (client_start frame)).1.trace =
        [Event.read_status OFFLINE, Event.exit EXIT_FAILURE "server is not available"] ∧
      (login_user env username password (client_start frame)).1.exited = some EXIT_FAILURE) ∧
    (env.status 0 = OFFLINE →
      (logout_user env username session_id (client_start frame)).1.trace =
        [Event.read_status OFFLINE, Event.exit EXIT_FAILURE "server is not available"] ∧
      (logout_user env username session_id (client_start frame)).1.exited = some EXIT_FAILURE) ∧
    (env.status 0 = OFFLINE →
      (write_secret env username session_id secret (client_start frame)).1.trace =
        [Event.read_status OFFLINE, Event.exit EXIT_FAILURE "server is not available"] ∧
      (write_secret env username session_id secret (client_start frame)).1.exited = some EXIT_FAILURE) ∧
    (env.status 0 = OFFLINE →
      (read_secret env username session_id (client_start frame)).1.trace =
        [Event.read_status OFFLINE, Event.exit EXIT_FAILURE "server is not available"] ∧
      (read_secret env username session_id (client_start frame)).1.exited = some EXIT_FAILURE) ∧
    (register_user env username password (client_start frame)).1.control =
      (request_body.foldl (fun c s => s.run env c) (client_start frame)).control ∧
    (login_user env username password (client_start frame)).1.control =
      (request_body.foldl (fun c s => s.run env c) (client_start frame)).control ∧
    (logout_user env username session_id (client_start frame)).1.control =
      (request_body.foldl (fun c s => s.run env c) (client_start frame)).control ∧
    (write_secret env username session_id secret (client_start frame)).1.control =
      (request_body.foldl (fun c s => s.run env c) (client_start frame)).control ∧
    (read_secret env username session_id (client_start frame)).1.control =
      (request_body.foldl (fun c s => s.run env c) (client_start frame)).control ∧
    request_body =
      [Stmt.wait_checked Sem.sem3, Stmt.wait_checked Sem.sem2, Stmt.frame, Stmt.post Sem.sem1,
       Stmt.wait_checked Sem.sem2, Stmt.frame, Stmt.post Sem.sem1, Stmt.post_checked Sem.sem3] ∧
    (∀ sem c, (Stmt.wait_checked sem).run env c = sem_wait_checked env sem c) ∧
    (∀ sem c, (Stmt.post sem).run env c = sem_post sem c) ∧
    (∀ sem c, (Stmt.post_checked sem).run env c = sem_post_checked env sem c) ∧
    (∀ c, Stmt.frame.run env c = c) := by
  obtain ⟨k1, k2, _, _, _⟩ := request_body_control env (client_start frame) username password []
  obtain ⟨_, _, k3, k4, k5⟩ :=
    request_body_control env (client_start frame) username session_id secret
  refine ⟨?_, ?_, ?_, ?_, ?_, ?_, ?_, ?_, ?_, ?_, ?_, ?_, ?_, ?_, ?_, ?_, ?_,
    k1, k2, k3, k4, k5, rfl, fun _ _ => rfl, fun _ _ => rfl, fun _ _ => rfl, fun _ => rfl⟩
  · exact trace_checked_of_client_checked _
      (client_checked_register_user env _ _ _ (client_checked_start frame))
  · exact trace_checked_of_client_checked _
      (client_checked_login_user env _ _ _ (client_checked_start frame))
  · exact trace_checked_of_client_checked _
      (client_checked_logout_user env _ _ _ (client_checked_start frame))
  · exact trace_checked_of_client_checked _
      (client_checked_write_secret env _ _ _ _ (client_checked_start frame))
  · exact trace_checked_of_client_checked _
      (client_checked_read_secret env _ _ _ (client_checked_start frame))
  · intro sem c hc hs
    simp [sem_wait_checked, hc, hs]
  · intro sem c hc hs
    simp [sem_wait_checked, hc, hs]
  · intro hs
    simp [register_user, send_packet, sem_wait_checked, sem_post_checked, sem_post, Client.write,
      client_start, hs]
  · intro hs
    simp [login_user, send_packet, sem_wait_checked, sem_post_checked, sem_post, Client.write,
      client_start, hs]
  · intro hs
    simp [logout_user, send_packet, sem_wait_checked, sem_post_checked, sem_post, Client.write,
      client_start, hs]
  · intro hs
    simp [write_secret, send_packet, sem_wait_checked, sem_post_checked, sem_post, Client.write,
      client_start, hs]
  · intro hs
    simp [read_secret, send_packet, sem_wait_checked, sem_post_checked, sem_post, Client.write,
      client_start, hs]
  · intro hs
    simp [register_user, send_packet, sem_wait_checked, sem_post_checked, sem_post, Client.write,
      client_start, hs]
  · intro hs
    simp [login_user, send_packet, sem_wait_checked, sem_post_checked, sem_post, Client.write,
      client_start, hs]
  · intro hs
    simp [logout_user, send_packet, sem_wait_checked, sem_post_checked, sem_post, Client.write,
      client_start, hs]
  · intro hs
    simp [write_secret, send_packet, sem_wait_checked, sem_post_checked, sem_post, Client.write,
      client_start, hs]
  · intro hs
    simp [read_secret, send_packet, sem_wait_checked, sem_post_checked, sem_post, Client.write,
      client_start, hs]

/-! ## `str_strip` and `is_valid_field` -/

theorem rdropWhile_append_rtakeWhile (p : Nat → Bool) (l : List Nat) :
    l.rdropWhile p ++ l.rtakeWhile p = l := by
  unfold List.rdropWhile List.rtakeWhile
  rw [← List.reverse_append, List.takeWhile_append_dropWhile, List.reverse_reverse]

theorem mem_rtakeWhile_imp (p : Nat → Bool) (l : List Nat) (c : Nat) (h : c ∈ l.rtakeWhile p) :
    p c = true := by
  unfold List.rtakeWhile at h
  exact List.mem_takeWhile_imp (List.mem_reverse.1 h)

/-- The stripped string sits in the string between a run of whitespace and a
run of whitespace, and neither starts nor ends with whitespace. -/
theorem strip_decomp (t : List Nat) :
    ∃ pre suf, t = pre ++ strip t ++ suf ∧
      (∀ c ∈ pre, isspace c = true) ∧ (∀ c ∈ suf, isspace c = true) ∧
      (∀ c ∈ (strip t).head?, isspace c = false) ∧
      (∀ c ∈ (strip t).getLast?, isspace c = false) := by
  refine ⟨t.takeWhile isspace, (t.dropWhile isspace).rtakeWhile isspace, ?_, ?_, ?_, ?_, ?_⟩
  · unfold strip
    rw [List.append_assoc, rdropWhile_append_rtakeWhile, List.takeWhile_append_dropWhile]
  · intro c hc; exact List.mem_takeWhile_imp hc
  · intro c hc; exact mem_rtakeWhile_imp _ _ _ hc
  · intro c hc
    unfold strip at hc
    obtain ⟨r, hr⟩ := List.rdropWhile_prefix (p := isspace) (l := t.dropWhile isspace)
    cases hs : List.rdropWhile isspace (t.dropWhile isspace) with
    | nil => rw [hs] at hc; cases hc
    | cons x xs =>
      rw [hs] at hc hr
      simp only [List.head?_cons, Option.mem_def, Option.some.injEq] at hc
      have hh := List.head?_dropWhile_not isspace t
      rw [← hr] at hh
      simp only [List.cons_append, List.head?_cons] at hh
      rw [← hc]
      simpa using hh
  · intro c hc
    unfold strip at hc
    by_cases hne : List.rdropWhile isspace (t.dropWhile isspace) = []
    · rw [hne] at hc; cases hc
    · have := List.rdropWhile_last_not (p := isspace) (l := t.dropWhile isspace) hne
      rw [List.getLast?_eq_getLast _ hne] at hc
      simp only [Option.mem_def, Option.some.injEq] at hc
      rw [← hc]
      simpa using this

theorem strip_idem (t : List Nat) : strip (strip t) = strip t := by
  obtain ⟨pre, suf, _, _, _, hh, hl⟩ := strip_decomp t
  generalize strip t = k at hh hl
  unfold strip
  have h1 : k.dropWhile isspace = k := by
    cases k with
    | nil => rfl
    | cons x xs =>
      have := hh x (by simp)
      simp [List.dropWhile_cons, this]
  rw [h1, List.rdropWhile_eq_self_iff]
  intro hne
  have := hl (k.getLast hne) (by rw [List.getLast?_eq_getLast _ hne]; rfl)
  simp [this]

theorem strip_eq_nil_of_all (t : List Nat) (h : ∀ c ∈ t, isspace c = true) : strip t = [] := by
  unfold strip
  rw [List.rdropWhile_eq_nil_iff]
  intro x hx
  exact h x ((List.dropWhile_sublist _).subset hx)

theorem isspace_iff (c : Nat) :
    isspace c = true ↔ c = 32 ∨ c = 9 ∨ c = 10 ∨ c = 11 ∨ c = 12 ∨ c = 13 := by
  unfold isspace
  simp only [Bool.or_eq_true, beq_iff_eq, Bool.and_eq_true, decide_eq_true_eq]
  omega

/-- C22: for every string `s` shorter than 65536 bytes, `str_strip` leaves in
the buffer the string `s` without a run of whitespace at its start and a run
of whitespace at its end, and these runs are maximal (what is left neither
starts nor ends with whitespace), so the characters in between are kept in
their order; whitespace is space, `\t`, `\n`, `\v`, `\f`, `\r`; a string of
whitespace only becomes the empty string; and a second `str_strip` leaves the
same string as the first. -/
theorem str_strip_spec (s : List Nat) (h : strlen s < 65536) :
    (∃ pre suf, cstr s = pre ++ cstr (str_strip s) ++ suf ∧
      (∀ c ∈ pre, isspace c = true) ∧ (∀ c ∈ suf, isspace c = true) ∧
      (∀ c ∈ (cstr (str_strip s)).head?, isspace c = false) ∧
      (∀ c ∈ (cstr (str_strip s)).getLast?, isspace c = false)) ∧
    (∀ c, isspace c = true ↔ c = 32 ∨ c = 9 ∨ c = 10 ∨ c = 11 ∨ c = 12 ∨ c = 13) ∧
    ((∀ c ∈ cstr s, isspace c = true) → cstr (str_strip s) = []) ∧
    cstr (str_strip (str_strip s)) = cstr (str_strip s) := by
  have h1 := cstr_str_strip s h
  have h2 : strlen (str_strip s) < 65536 := by
    unfold strlen at h ⊢
    rw [h1]
    exact lt_of_le_of_lt (strip_length_le _) h
  refine ⟨?_, isspace_iff, ?_, ?_⟩
  · rw [h1]; exact strip_decomp _
  · intro hall; rw [h1]; exact strip_eq_nil_of_all _ hall
  · rw [cstr_str_strip _ h2, h1, strip_idem]

/-- Witness of `str_strip_spec`: the buffer holding `" \talice pw1\n "`, a
terminator and one more byte. -/
theorem str_strip_spec_witness :
    strlen ([32, 9] ++ alice ++ [32] ++ pw1 ++ [10, 32, 0, 7]) < 65536 ∧
    cstr (str_strip (str_strip ([32, 9] ++ alice ++ [32] ++ pw1 ++ [10, 32, 0, 7]))) =
      cstr (str_strip ([32, 9] ++ alice ++ [32] ++ pw1 ++ [10, 32, 0, 7])) :=
  ⟨by decide, (str_strip_spec ([32, 9] ++ alice ++ [32] ++ pw1 ++ [10, 32, 0, 7]) (by decide)).2.2.2⟩

/-- C23: `is_valid_field(s, allow_empty)` returns `allow_empty` when the
string `s` is empty, and otherwise returns true exactly when `s` contains
neither `\n` nor `;`. -/
theorem is_valid_field_spec (s : List Nat) (allow_empty : Bool) :
    (strlen s = 0 → is_valid_field s allow_empty = allow_empty) ∧
    (strlen s ≠ 0 → (is_valid_field s allow_empty = true ↔ 10 ∉ cstr s ∧ 59 ∉ cstr s)) ∧
    (strlen s = 0 ↔ cstr s = []) := by
  have hl : strlen s = 0 ↔ cstr s = [] := by
    unfold strlen; exact List.length_eq_zero
  refine ⟨?_, ?_, hl⟩
  · intro h0
    unfold is_valid_field
    rw [if_pos h0]
  · intro hne
    rw [is_valid_field_iff, if_neg (fun hc => hne (hl.2 hc))]

/-! ## `user_secret_write` and `process_secret_read` -/

theorem user_secret_write_loop_none (u b : List Nat) (db : List entry_t)
    (h : ∀ e ∈ db, ¬ user_matches e u) : user_secret_write_loop u b db = (false, db) := by
  induction db with
  | nil => rfl
  | cons e db ih =>
    unfold user_secret_write_loop
    have hm : ¬ strncmp e.username u MAX_USERNAME_LEN = 0 := by
      rw [strncmp_eq_zero_iff]; exact h e (by simp)
    simp only [beq_iff_eq, hm, if_false]
    rw [ih (fun x hx => h x (List.mem_cons_of_mem _ hx))]

theorem user_secret_write_loop_first (u b : List Nat) (db : List entry_t)
    (h : ∃ e ∈ db, user_matches e u) :
    ∃ l1 e l2, db = l1 ++ e :: l2 ∧ (∀ y ∈ l1, ¬ user_matches y u) ∧ user_matches e u ∧
      user_secret_write_loop u b db =
        (true, l1 ++ { e with secret := strncpy e.secret b (MAX_SECRET_LEN + 1) } :: l2) := by
  induction db with
  | nil => obtain ⟨e, he, _⟩ := h; cases he
  | cons e db ih =>
    by_cases hm : user_matches e u
    · refine ⟨[], e, db, rfl, by simp, hm, ?_⟩
      have hs : strncmp e.username u MAX_USERNAME_LEN = 0 := (strncmp_eq_zero_iff _ _ _).2 hm
      unfold user_secret_write_loop
      simp [hs]
    · have hs : ¬ strncmp e.username u MAX_USERNAME_LEN = 0 :=
        fun h0 => hm ((strncmp_eq_zero_iff _ _ _).1 h0)
      have h1 : ∃ e ∈ db, user_matches e u := by
        obtain ⟨e1, he1, hm1⟩ := h
        rcases List.mem_cons.1 he1 with q | q
        · rw [q] at hm1; exact absurd hm1 hm
        · exact ⟨e1, q, hm1⟩
      obtain ⟨l1, e1, l2, hdb, hl1, he1, hout⟩ := ih h1
      refine ⟨e :: l1, e1, l2, by rw [hdb]; rfl, ?_, he1, ?_⟩
      · intro y hy
        rcases List.mem_cons.1 hy with q | q
        · rw [q]; exact hm
        · exact hl1 y q
      · unfold user_secret_write_loop
        simp only [beq_iff_eq, hs, if_false]
        rw [hout]
        rfl

/-- C24: for every database, username `u` and secret `x` (of at most 128
bytes, as `process_secret_write` hands it over), `user_secret_write` returns
true exactly when the stripped `x` contains neither `;` nor `\n` and some
record is that of `u`; when it returns true the database is the old one in
which the first record of `u` has a new secret array holding the stripped `x`,
its username and password and all other records being as before; when it
returns false the database is unchanged. -/
theorem user_secret_write_spec (db : List entry_t) (u x : List Nat)
    (hx : strlen x ≤ MAX_SECRET_LEN) :
    ((user_secret_write db u x).1 = true ↔
      (59 ∉ strip (cstr x) ∧ 10 ∉ strip (cstr x)) ∧ ∃ e ∈ db, user_matches e u) ∧
    ((user_secret_write db u x).1 = true →
      ∃ l1 e l2 secret, db = l1 ++ e :: l2 ∧ (∀ y ∈ l1, ¬ user_matches y u) ∧
        user_matches e u ∧
        (user_secret_write db u x).2.1 = l1 ++ ⟨e.username, e.password, secret⟩ :: l2 ∧
        cstr secret = strip (cstr x)) ∧
    ((user_secret_write db u x).1 = false → (user_secret_write db u x).2.1 = db) := by
  have hs : cstr (str_strip x) = strip (cstr x) := cstr_str_strip x (by
    have : strlen x ≤ 128 := hx
    omega)
  have hlen : strlen (str_strip x) ≤ MAX_SECRET_LEN := by
    unfold strlen at hx ⊢
    rw [hs]; exact le_trans (strip_length_le _) hx
  have hv : is_valid_field (str_strip x) true = true ↔
      59 ∉ strip (cstr x) ∧ 10 ∉ strip (cstr x) := by
    rw [is_valid_field_iff, hs]
    by_cases he : strip (cstr x) = []
    · simp [he]
    · simp only [he, if_false]; exact And.comm
  by_cases hval : is_valid_field (str_strip x) true = true
  · have hfree := hv.1 hval
    have hout : user_secret_write db u x =
        ((user_secret_write_loop u (str_strip x) db).1,
         (user_secret_write_loop u (str_strip x) db).2, str_strip x) := by
      unfold user_secret_write
      simp [hval]
    by_cases hex : ∃ e ∈ db, user_matches e u
    · obtain ⟨l1, e, l2, hdb, hl1, he, hloop⟩ :=
        user_secret_write_loop_first u (str_strip x) db hex
      rw [hout, hloop]
      refine ⟨?_, ?_, ?_⟩
      · simp only [true_iff]; exact ⟨hfree, hex⟩
      · intro _
        exact ⟨l1, e, l2, _, hdb, hl1, he, rfl,
          by rw [cstr_strncpy _ _ _ (Nat.lt_succ_of_le hlen), hs]⟩
      · intro hf; cases hf
    · have hnone : ∀ e ∈ db, ¬ user_matches e u := fun e he hm => hex ⟨e, he, hm⟩
      rw [hout, user_secret_write_loop_none u _ db hnone]
      refine ⟨?_, ?_, ?_⟩
      · constructor
        · intro hf; cases hf
        · intro h; exact absurd h.2 hex
      · intro hf; cases hf
      · intro _; rfl
  · have hout : user_secret_write db u x = (false, db, str_strip x) := by
      unfold user_secret_write
      simp [hval]
    rw [hout]
    refine ⟨?_, ?_, ?_⟩
    · constructor
      · intro hf; cases hf
      · intro h; exact absurd (hv.2 h.1) hval
    · intro hf; cases hf
    · intro _; rfl

/-- Witness of `user_secret_write_spec`: the secret `" hi\n"` written for
`alice` in a database with a record of `bob` and two records of `alice`. -/
theorem user_secret_write_spec_witness :
    strlen [32, 104, 105, 10] ≤ MAX_SECRET_LEN ∧
    ((user_secret_write [mk_entry [98, 111, 98] [120] [], mk_entry alice pw1 [],
        mk_entry alice pw2 []] alice [32, 104, 105, 10]).1 = true ↔
      (59 ∉ strip (cstr [32, 104, 105, 10]) ∧ 10 ∉ strip (cstr [32, 104, 105, 10])) ∧
      ∃ e ∈ [mk_entry [98, 111, 98] [120] [], mk_entry alice pw1 [], mk_entry alice pw2 []],
        user_matches e alice) :=
  ⟨by decide, (user_secret_write_spec [mk_entry [98, 111, 98] [120] [], mk_entry alice pw1 [],
    mk_entry alice pw2 []] alice [32, 104, 105, 10] (by decide)).1⟩

/-- C25: `process_secret_read` never writes `rstatus`.  For every server
state and SECRET_READ packet the reply carries the `rstatus` (and the `status`
and `type`) of the incoming frame, the database and the session table are
unchanged, and when the session is not valid the first 128 bytes of the secret
field of the reply are zero. -/
theorem process_secret_read_rstatus (s : Server) (p : Frame) (hp : p.type = SECRET_READ) :
    ∃ s1 r, dispatch s p = some (s1, r) ∧
      r.rstatus = p.rstatus ∧
      r.status = p.status ∧ r.type = p.type ∧
      s1.database = s.database ∧ s1.clients = s.clients ∧
      (is_valid_session s.clients (p.slot1.set SESSION_ID_SIZE 0)
          (p.slot2.set MAX_USERNAME_LEN 0) = false →
        r.slot3.take MAX_SECRET_LEN = List.replicate MAX_SECRET_LEN 0) := by
  have hd : dispatch s p = some (process_secret_read s p) := by
    unfold dispatch
    rw [hp]
    rfl
  refine ⟨(process_secret_read s p).1, (process_secret_read s p).2, hd, ?_, ?_, ?_,
    process_secret_read_database s p, process_secret_read_clients s p, ?_⟩
  · unfold process_secret_read
    dsimp only
    split_ifs
    · split <;> rfl
    · rfl
  · unfold process_secret_read
    dsimp only
    split_ifs
    · split <;> rfl
    · rfl
  · unfold process_secret_read
    dsimp only
    split_ifs
    · split <;> rfl
    · rfl
  · intro hv
    unfold process_secret_read
    dsimp only
    rw [if_neg (by rw [hv]; simp)]
    simp [memset]

/-- Witness of `process_secret_read_rstatus`: a SECRET_READ frame that came in
with `rstatus = 7`, sent without a session. -/
theorem process_secret_read_rstatus_witness :
    ∃ s1 r, dispatch (server_with [mk_entry alice pw1 [104, 105]] [])
        { client_frame SECRET_READ sid_a alice [120] with rstatus := 7 } = some (s1, r) ∧
      r.rstatus = 7 ∧ r.slot3.take MAX_SECRET_LEN = List.replicate MAX_SECRET_LEN 0 := by
  obtain ⟨s1, r, h1, h2, _, _, _, _, h3⟩ :=
    process_secret_read_rstatus (server_with [mk_entry alice pw1 [104, 105]] [])
      { client_frame SECRET_READ sid_a alice [120] with rstatus := 7 } rfl
  exact ⟨s1, r, h1, h2, h3 (by decide)⟩

/-! ## Sessions and the records of their users -/

theorem user_secret_read_eq (db : List entry_t) (u : List Nat) :
    user_secret_read db u = (first_record db u).map (fun e => e.secret) := by
  unfold user_secret_read first_record
  congr 2
  funext e
  rw [Bool.eq_iff_iff]
  simp only [beq_iff_eq, decide_eq_true_eq, strncmp_eq_zero_iff]
  rfl

theorem first_record_isSome (db : List entry_t) (u : List Nat)
    (h : ∃ e ∈ db, user_matches e u) : ∃ e ∈ db, first_record db u = some e ∧ user_matches e u := by
  unfold first_record
  cases hf : db.find? (fun e => decide (user_matches e u)) with
  | none =>
    obtain ⟨e, he, hm⟩ := h
    have := List.find?_eq_none.1 hf e he
    simp [hm] at this
  | some e =>
    refine ⟨e, List.mem_of_find?_eq_some hf, rfl, ?_⟩
    have := List.find?_some hf
    simpa using this

theorem user_matches_trans (e : entry_t) (c u : List Nat) (h1 : user_matches e c)
    (h2 : (cstr c).take MAX_USERNAME_LEN = (cstr u).take MAX_USERNAME_LEN) : user_matches e u := by
  unfold user_matches at *
  rw [h1, h2]

theorem process_secret_read_fst (s : Server) (p : Frame) : (process_secret_read s p).1 = s := by
  unfold process_secret_read
  dsimp only
  split_ifs
  · split <;> rfl
  · rfl

theorem process_secret_read_valid (s : Server) (p : Frame) (e : entry_t)
    (hv : is_valid_session s.clients (p.slot1.set SESSION_ID_SIZE 0)
      (p.slot2.set MAX_USERNAME_LEN 0) = true)
    (he : first_record s.database (p.slot2.set MAX_USERNAME_LEN 0) = some e) :
    (process_secret_read s p).2 =
      { p with slot1 := p.slot1.set SESSION_ID_SIZE 0, slot2 := p.slot2.set MAX_USERNAME_LEN 0,
               slot3 := strncpy p.slot3 e.secret MAX_SECRET_LEN } := by
  unfold process_secret_read
  dsimp only
  rw [if_pos hv, user_secret_read_eq, he]
  rfl

/-- C27: in every state the server reaches from its start (any database, empty
session table) through requests, every session record names a user of the
database; hence for a valid session `user_secret_read` returns the secret of
the first record of the user (never `NULL`), the loop of `user_secret_write`
finds the record, and the reply of `process_secret_read` carries the secret of
a record of the database. -/
theorem sessions_in_database (s : Server) (h : Running s) :
    (∀ c ∈ s.clients, ∃ e ∈ s.database, user_matches e c.username) ∧
    (∀ sid u, is_valid_session s.clients sid u = true →
      (∃ e ∈ s.database, first_record s.database u = some e ∧ user_matches e u ∧
        user_secret_read s.database u = some e.secret) ∧
      (∀ b, (user_secret_write_loop u b s.database).1 = true)) ∧
    (∀ p, is_valid_session s.clients (p.slot1.set SESSION_ID_SIZE 0)
        (p.slot2.set MAX_USERNAME_LEN 0) = true →
      ∃ e ∈ s.database, (process_secret_read s p).2.slot3 =
        strncpy p.slot3 e.secret MAX_SECRET_LEN) := by
  have hk : ∀ c ∈ s.clients, ∃ e ∈ s.database, user_matches e c.username :=
    running_sessions_known s h
  have hfind : ∀ sid u, is_valid_session s.clients sid u = true →
      ∃ e ∈ s.database, user_matches e u := by
    intro sid u hv
    obtain ⟨c, hc, hm⟩ := (is_valid_session_iff _ _ _).1 hv
    obtain ⟨e, he, hme⟩ := hk c hc
    exact ⟨e, he, user_matches_trans e _ _ hme hm.2⟩
  refine ⟨hk, ?_, ?_⟩
  · intro sid u hv
    obtain ⟨e, he, hf, hm⟩ := first_record_isSome _ _ (hfind sid u hv)
    refine ⟨⟨e, he, hf, hm, by rw [user_secret_read_eq, hf]; rfl⟩, ?_⟩
    intro b
    apply user_secret_write_loop_found
    obtain ⟨e1, he1, hm1⟩ := hfind sid u hv
    exact ⟨e1, he1, (strncmp_eq_zero_iff _ _ _).2 hm1⟩
  · intro p hv
    obtain ⟨e, he, hf, _⟩ := first_record_isSome _ _ (hfind _ _ hv)
    refine ⟨e, he, ?_⟩
    rw [process_secret_read_valid s p e hv hf]

/-- Witness of `sessions_in_database`: the state after `alice` has logged in. -/
theorem sessions_in_database_witness :
    Running (process_login (server_with [mk_entry alice pw1 [104, 105]] [])
      (client_frame LOGIN alice pw1 [])).1 ∧
    ∀ c ∈ (process_login (server_with [mk_entry alice pw1 [104, 105]] [])
        (client_frame LOGIN alice pw1 [])).1.clients,
      ∃ e ∈ (process_login (server_with [mk_entry alice pw1 [104, 105]] [])
        (client_frame LOGIN alice pw1 [])).1.database, user_matches e c.username :=
  ⟨Running.step (server_with [mk_entry alice pw1 [104, 105]] []) _
      (client_frame LOGIN alice pw1 [])
      (process_login (server_with [mk_entry alice pw1 [104, 105]] [])
        (client_frame LOGIN alice pw1 [])).2 (Running.start _ rfl) rfl,
   (sessions_in_database _
    (Running.step (server_with [mk_entry alice pw1 [104, 105]] []) _
      (client_frame LOGIN alice pw1 [])
      (process_login (server_with [mk_entry alice pw1 [104, 105]] [])
        (client_frame LOGIN alice pw1 [])).2 (Running.start _ rfl) rfl)).1⟩

theorem first_record_other (l1 l2 : List entry_t) (e : entry_t) (x u : List Nat)
    (h : ¬ user_matches e u) :
    first_record (l1 ++ { e with secret := x } :: l2) u = first_record (l1 ++ e :: l2) u := by
  have hb : decide (user_matches e u) = false := by simpa using h
  have hb2 : decide (user_matches { e with secret := x } u) = false := by
    simpa [user_matches] using h
  unfold first_record
  rw [List.find?_append, List.find?_append, List.find?_cons, List.find?_cons, hb, hb2]

/-- C28: secret isolation.  For a SECRET_READ packet with username `u` and two
server states with the same session table whose databases have the same first
record of `u`, the reply is the same; for a valid session the secret field of
the reply is filled from the secret of the first record of `u`; and giving a
record of another user a new secret does not change the reply. -/
theorem secret_read_isolation (s1 s2 : Server) (p : Frame) (hp : p.type = SECRET_READ)
    (hc : s1.clients = s2.clients)
    (hdb : first_record s1.database (p.slot2.set MAX_USERNAME_LEN 0) =
      first_record s2.database (p.slot2.set MAX_USERNAME_LEN 0)) :
    (∃ r, dispatch s1 p = some (s1, r) ∧ dispatch s2 p = some (s2, r)) ∧
    (is_valid_session s1.clients (p.slot1.set SESSION_ID_SIZE 0)
        (p.slot2.set MAX_USERNAME_LEN 0) = true →
      ∀ e, first_record s1.database (p.slot2.set MAX_USERNAME_LEN 0) = some e →
        (process_secret_read s1 p).2.slot3 = strncpy p.slot3 e.secret MAX_SECRET_LEN ∧
        (process_secret_read s2 p).2.slot3 = strncpy p.slot3 e.secret MAX_SECRET_LEN) ∧
    (∀ l1 l2 e x, s1.database = l1 ++ e :: l2 →
      ¬ user_matches e (p.slot2.set MAX_USERNAME_LEN 0) →
      (process_secret_read { s1 with database := l1 ++ { e with secret := x } :: l2 } p).2 =
        (process_secret_read s1 p).2) := by
  have heq : ∀ a b : Server, a.clients = b.clients →
      first_record a.database (p.slot2.set MAX_USERNAME_LEN 0) =
        first_record b.database (p.slot2.set MAX_USERNAME_LEN 0) →
      (process_secret_read a p).2 = (process_secret_read b p).2 := by
    intro a b hab hfr
    unfold process_secret_read
    dsimp only
    rw [hab, user_secret_read_eq, user_secret_read_eq, hfr]
    split_ifs
    · split <;> rfl
    · rfl
  have hd : ∀ s : Server, dispatch s p = some (s, (process_secret_read s p).2) := by
    intro s
    unfold dispatch
    rw [hp]
    have hpair : process_secret_read s p = (s, (process_secret_read s p).2) :=
      Prod.ext (process_secret_read_fst s p) rfl
    show some (process_secret_read s p) = _
    rw [← hpair]
  refine ⟨⟨(process_secret_read s1 p).2, hd s1, ?_⟩, ?_, ?_⟩
  · rw [heq s1 s2 hc hdb]; exact hd s2
  · intro hv e he
    refine ⟨by rw [process_secret_read_valid s1 p e hv he], ?_⟩
    rw [process_secret_read_valid s2 p e (by rw [← hc]; exact hv) (by rw [← hdb]; exact he)]
  · intro l1 l2 e x hl hm
    apply heq
    · rfl
    · show first_record (l1 ++ { e with secret := x } :: l2) _ = _
      rw [first_record_other l1 l2 e x _ hm, hl]

/-- Witness of `secret_read_isolation`: `alice` reads her secret from two
databases that differ in the secret of `bob`. -/
theorem secret_read_isolation_witness :
    ∃ r, dispatch (server_with [mk_entry alice pw1 [104, 105], mk_entry [98, 111, 98] [120] [49]]
          [mk_client sid_a alice]) (client_frame SECRET_READ sid_a alice []) =
        some (server_with [mk_entry alice pw1 [104, 105], mk_entry [98, 111, 98] [120] [49]]
          [mk_client sid_a alice], r) ∧
      dispatch (server_with [mk_entry alice pw1 [104, 105], mk_entry [98, 111, 98] [120] [50]]
          [mk_client sid_a alice]) (client_frame SECRET_READ sid_a alice []) =
        some (server_with [mk_entry alice pw1 [104, 105], mk_entry [98, 111, 98] [120] [50]]
          [mk_client sid_a alice], r) :=
  (secret_read_isolation
    (server_with [mk_entry alice pw1 [104, 105], mk_entry [98, 111, 98] [120] [49]]
      [mk_client sid_a alice])
    (server_with [mk_entry alice pw1 [104, 105], mk_entry [98, 111, 98] [120] [50]]
      [mk_client sid_a alice])
    (client_frame SECRET_READ sid_a alice []) rfl rfl (by decide)).1

/-! ## The client served by the server -/

theorem cstr_append_of_no_zero (a b : List Nat) (h : 0 ∉ a) : cstr (a ++ b) = a ++ cstr b := by
  induction a with
  | nil => rfl
  | cons x a ih =>
    have hx : x ≠ 0 := fun e => h (by simp [e])
    have ha : 0 ∉ a := fun e => h (List.mem_cons_of_mem _ e)
    rw [List.cons_append, cstr_cons, if_neg hx, ih ha, List.cons_append]

/-- The string the server reads from a field the client filled with `strncpy`
agrees with the client's string on the first `n` bytes. -/
theorem field_strncpy_take (dst src : List Nat) (n : Nat) :
    (cstr ((strncpy dst src (n + 1)).set n 0)).take n = (cstr src).take n := by
  rw [cstr_set_zero_eq_take, List.take_take, min_self]
  by_cases h : strlen src < n + 1
  · rw [cstr_strncpy _ _ _ h]
  · unfold strncpy
    have h1 : n + 1 - strlen src = 0 := by omega
    rw [h1, List.replicate_zero, List.append_nil]
    have h0 : 0 ∉ (cstr src).take (n + 1) :=
      fun e => zero_not_mem_cstr src ((List.take_sublist _ _).subset e)
    rw [cstr_append_of_no_zero _ _ h0]
    have hl : ((cstr src).take (n + 1)).length = n + 1 := by
      rw [List.length_take]; unfold strlen at h; omega
    rw [List.take_append_of_le_length (by omega), List.take_take]
    congr 1
    omega

theorem user_verify_credentials_congr (db : List entry_t) (u u2 p p2 : List Nat)
    (hu : (cstr u2).take MAX_USERNAME_LEN = (cstr u).take MAX_USERNAME_LEN)
    (hp : (cstr p2).take MAX_PASSWORD_LEN = (cstr p).take MAX_PASSWORD_LEN) :
    user_verify_credentials db u2 p2 = user_verify_credentials db u p := by
  unfold user_verify_credentials
  congr 1
  funext e
  rw [Bool.eq_iff_iff]
  simp only [Bool.and_eq_true, beq_iff_eq, strncmp_eq_zero_iff, hu, hp]

theorem strlen_session_id_success (id rest : List Nat) (hl : id.length = SESSION_ID_SIZE)
    (h0 : 0 ∉ id) :
    strlen (((id ++ rest).set SESSION_ID_SIZE 0).set SESSION_ID_SIZE 0) = SESSION_ID_SIZE ∧
    cstr (((id ++ rest).set SESSION_ID_SIZE 0).set SESSION_ID_SIZE 0) = id := by
  have h1 : ((id ++ rest).set SESSION_ID_SIZE 0).set SESSION_ID_SIZE 0 =
      id ++ (rest.set 0 0) := by
    rw [List.set_set, ← hl, set_append_length]
  have h2 : cstr (id ++ rest.set 0 0) = id := by
    rw [cstr_append_of_no_zero _ _ h0]
    cases rest with
    | nil => simp [cstr_nil]
    | cons x r => simp [cstr_cons]
  rw [h1]
  exact ⟨by unfold strlen; rw [h2, hl], h2⟩

/-- The frame the client of `login_user` posts. -/
theorem login_user_server (s : Server) (frame : Frame) (username password : List Nat) :
    (login_user (env_server s) username password (client_start frame)).2.1 =
      (if strlen ((process_login s
          { frame with type := LOGIN,
                       slot1 := strncpy frame.slot1 username (MAX_USERNAME_LEN + 1),
                       slot2 := strncpy frame.slot2 password (MAX_PASSWORD_LEN + 1) }).2.slot3.set
            SESSION_ID_SIZE 0) = SESSION_ID_SIZE then 0 else 1) ∧
    (login_user (env_server s) username password (client_start frame)).2.2 =
      strncpy (List.replicate 33 0) ((process_login s
          { frame with type := LOGIN,
                       slot1 := strncpy frame.slot1 username (MAX_USERNAME_LEN + 1),
                       slot2 := strncpy frame.slot2 password (MAX_PASSWORD_LEN + 1) }).2.slot3.set
            SESSION_ID_SIZE 0) (SESSION_ID_SIZE + 1) ∧
    (login_user (env_server s) username password (client_start frame)).1.exited = none := by
  simp [login_user, send_packet, sem_wait_checked, sem_post_checked, sem_post, Client.write,
    env_server, client_start, dispatch, -List.reduceReplicate]

theorem process_login_slot3 (s : Server) (p : Frame) :
    (process_login s p).2.slot3 =
      if user_verify_credentials s.database (p.slot1.set MAX_USERNAME_LEN 0)
          (p.slot2.set MAX_PASSWORD_LEN 0) then
        (generate_session_id s.RAND_MAX s.rand s.rand_calls p.slot3).1.set SESSION_ID_SIZE 0
      else memset p.slot3 0 (SESSION_ID_SIZE + 1) := by
  unfold process_login
  dsimp only
  split_ifs <;> rfl

/-- C29: the verdict of `login_user` is that of the server.  For every server
state, frame and pair of strings, when the client is served by the server,
`login_user` returns 0 exactly when `user_verify_credentials` holds for the
username and the password on the database of the server; for the reply holds
a session id of length 32 when the credentials are right and of length 0
when they are not.  The check the server makes on the fields of the frame
is the check on the strings of the client, and the client does not exit. -/
theorem login_verdict (s : Server) (frame : Frame) (username password : List Nat)
    (hr : ∀ i, s.rand i ≤ s.RAND_MAX) :
    ((login_user (env_server s) username password (client_start frame)).2.1 = 0 ↔
      user_verify_credentials s.database username password = true) ∧
    (∀ reply, reply = (process_login s
        { frame with type := LOGIN,
                     slot1 := strncpy frame.slot1 username (MAX_USERNAME_LEN + 1),
                     slot2 := strncpy frame.slot2 password (MAX_PASSWORD_LEN + 1) }).2 →
      (user_verify_credentials s.database username password = true →
        strlen (reply.slot3.set SESSION_ID_SIZE 0) = SESSION_ID_SIZE) ∧
      (user_verify_credentials s.database username password = false →
        strlen (reply.slot3.set SESSION_ID_SIZE 0) = 0)) ∧
    user_verify_credentials s.database
        ((strncpy frame.slot1 username (MAX_USERNAME_LEN + 1)).set MAX_USERNAME_LEN 0)
        ((strncpy frame.slot2 password (MAX_PASSWORD_LEN + 1)).set MAX_PASSWORD_LEN 0) =
      user_verify_credentials s.database username password ∧
    (login_user (env_server s) username password (client_start frame)).1.exited = none := by
  obtain ⟨hval, _, hex⟩ := login_user_server s frame username password
  have hcred : user_verify_credentials s.database
      ((strncpy frame.slot1 username (MAX_USERNAME_LEN + 1)).set MAX_USERNAME_LEN 0)
      ((strncpy frame.slot2 password (MAX_PASSWORD_LEN + 1)).set MAX_PASSWORD_LEN 0) =
      user_verify_credentials s.database username password :=
    user_verify_credentials_congr _ _ _ _ _ (field_strncpy_take _ _ _) (field_strncpy_take _ _ _)
  have hlen : (user_verify_credentials s.database username password = true →
        strlen ((process_login s
          { frame with type := LOGIN,
                       slot1 := strncpy frame.slot1 username (MAX_USERNAME_LEN + 1),
                       slot2 := strncpy frame.slot2 password (MAX_PASSWORD_LEN + 1) }).2.slot3.set
            SESSION_ID_SIZE 0) = SESSION_ID_SIZE) ∧
      (user_verify_credentials s.database username password = false →
        strlen ((process_login s
          { frame with type := LOGIN,
                       slot1 := strncpy frame.slot1 username (MAX_USERNAME_LEN + 1),
                       slot2 := strncpy frame.slot2 password (MAX_PASSWORD_LEN + 1) }).2.slot3.set
            SESSION_ID_SIZE 0) = 0) := by
    rw [process_login_slot3]
    dsimp only
    rw [hcred]
    constructor
    · intro hv
      rw [if_pos hv]
      obtain ⟨id, hid, hmem, hg⟩ :=
        generate_session_id_eq s.RAND_MAX s.rand s.rand_calls frame.slot3 hr
      rw [hg]
      exact (strlen_session_id_success id _ hid
        (fun h0 => zero_not_mem_alphanum (hmem 0 h0))).1
    · intro hv
      rw [if_neg (by rw [hv]; simp)]
      unfold strlen memset
      rw [show SESSION_ID_SIZE + 1 = 32 + 1 from rfl, List.replicate_succ]
      simp [cstr_cons]
  refine ⟨?_, ?_, hcred, hex⟩
  · rw [hval]
    cases hv : user_verify_credentials s.database username password with
    | true => simp [hlen.1 hv]
    | false => simp [hlen.2 hv]
  · intro reply hreply
    rw [hreply]
    exact hlen

/-- Witness of `login_verdict`: `alice` logs in with her password. -/
theorem login_verdict_witness :
    (∀ i, (server_with [mk_entry alice pw1 []] []).rand i ≤
      (server_with [mk_entry alice pw1 []] []).RAND_MAX) ∧
    ((login_user (env_server (server_with [mk_entry alice pw1 []] [])) alice pw1
        (client_start (client_frame 0 [] [] []))).2.1 = 0 ↔
      user_verify_credentials (server_with [mk_entry alice pw1 []] []).database alice pw1 =
        true) :=
  ⟨fun _ => Nat.zero_le _,
   (login_verdict (server_with [mk_entry alice pw1 []] []) (client_frame 0 [] [] []) alice pw1
    (fun _ => Nat.zero_le _)).1⟩

theorem write_secret_trace_online (env : Env) (h : ∀ n, env.status n = ONLINE)
    (username session_id secret : List Nat) (frame : Frame) :
    (write_secret env username session_id secret (client_start frame)).1.trace =
      [Event.read_status ONLINE, Event.wait Sem.sem3 (env.wait 0),
       Event.read_status ONLINE, Event.wait Sem.sem2 (env.wait 1),
       Event.post Sem.sem1,
       Event.read_status ONLINE, Event.wait Sem.sem2 (env.wait 2),
       Event.post Sem.sem1,
       Event.read_status ONLINE, Event.post Sem.sem3] := by
  simp [write_secret, send_packet, sem_wait_checked, sem_post_checked, sem_post, Client.write,
    client_start, h]

/-- C30: `handle_secret_write` calls `write_secret` exactly when the line
read, counted with its `\n`, has at most 128 bytes; a longer line is refused
with the message "Your secret is too long." and nothing is sent.  With the
server ONLINE the request is posted (`sem_post(sem1)`) exactly in the first
case.  A secret of 128 characters followed by `\n` is refused, although
`write_secret` stores a secret of 128 characters in the frame. -/
theorem handle_secret_write_length (env : Env) (username session_id line : List Nat)
    (c : Client) (frame : Frame) :
    (line.length ≤ MAX_SECRET_LEN →
      (handle_secret_write env username session_id (some line) c).1 =
        (write_secret env username session_id (line.set MAX_SECRET_LEN 0) c).1) ∧
    (MAX_SECRET_LEN < line.length →
      handle_secret_write env username session_id (some line) c =
        (c, ["Your secret is too long.\n"])) ∧
    ((∀ n, env.status n = ONLINE) →
      (Event.post Sem.sem1 ∈
          (handle_secret_write env username session_id (some line) (client_start frame)).1.trace ↔
        line.length ≤ MAX_SECRET_LEN)) ∧
    handle_secret_write env username session_id (some (List.replicate 128 97 ++ [10])) c =
      (c, ["Your secret is too long.\n"]) ∧
    field_str (write_secret env_online username session_id (List.replicate 128 97)
      (client_start (client_frame 0 [] [] []))).1.frame.slot3 MAX_SECRET_LEN =
        List.replicate 128 97 := by
  refine ⟨?_, ?_, ?_, ?_, ?_⟩
  · intro h
    unfold handle_secret_write
    dsimp only
    rw [if_neg (by omega)]
    split_ifs <;> rfl
  · intro h
    unfold handle_secret_write
    dsimp only
    rw [if_pos h]
  · intro hs
    by_cases h : line.length ≤ MAX_SECRET_LEN
    · simp only [h, iff_true]
      have h1 : (handle_secret_write env username session_id (some line) (client_start frame)).1 =
          (write_secret env username session_id (line.set MAX_SECRET_LEN 0)
            (client_start frame)).1 := by
        unfold handle_secret_write
        dsimp only
        rw [if_neg (by omega)]
        split_ifs <;> rfl
      rw [h1, write_secret_trace_online env hs]
      simp
    · simp only [h, iff_false]
      unfold handle_secret_write
      dsimp only
      rw [if_pos (by omega)]
      simp [client_start]
  · unfold handle_secret_write
    dsimp only
    rw [if_pos (by simp)]
  · simp [write_secret, send_packet, sem_wait_checked, sem_post_checked, sem_post, Client.write,
      client_start, env_online, client_frame, -List.reduceReplicate]
    decide

/-! ## The processes on the semaphores -/

theorem client_step_lt (body : List Stmt) (st st1 : Sys) (i : Nat)
    (h : client_step body st i = some st1) : i < st.clients.length := by
  by_contra hn
  have : st.clients[i]? = none := List.getElem?_eq_none (by omega)
  unfold client_step at h
  rw [this] at h
  cases h

theorem step_mem_succs (body : List Stmt) (st st1 : Sys) (l : Label) (hl : l ≠ Label.signal)
    (h : step body st l = some st1) : st1 ∈ succs body st := by
  unfold succs
  rw [List.mem_filterMap]
  refine ⟨l, ?_, h⟩
  cases l with
  | server => simp
  | signal => exact absurd rfl hl
  | client i =>
    have := client_step_lt body st st1 i h
    simp [this]

theorem level_nil (body : List Stmt) (n : Nat) : level body n [] = [] := by
  induction n with
  | zero => rfl
  | succ n ih => simpa [level] using ih

theorem level_add (body : List Stmt) (a b : Nat) (X : List Sys) :
    level body (a + b) X = level body b (level body a X) := by
  induction a generalizing X with
  | zero => simp [level]
  | succ a ih =>
    rw [Nat.add_right_comm]
    show level body (a + b) _ = _
    rw [ih]
    rfl

theorem run_mem_level (body : List Stmt) (sched : List Label) (X : List Sys) (st st1 : Sys)
    (hq : Label.signal ∉ sched) (hs : st ∈ X) (h : run body sched st = some st1) :
    st1 ∈ level body sched.length X := by
  induction sched generalizing X st with
  | nil =>
    simp only [run, Option.some.injEq] at h
    rw [← h]; exact hs
  | cons l ls ih =>
    unfold run at h
    cases hstep : step body st l with
    | none => rw [hstep] at h; cases h
    | some st2 =>
      rw [hstep] at h
      have hl : l ≠ Label.signal := fun e => hq (by simp [e])
      have hls : Label.signal ∉ ls := fun e => hq (List.mem_cons_of_mem _ e)
      have h2 : st2 ∈ (X.flatMap (succs body)).dedup := by
        rw [List.mem_dedup, List.mem_flatMap]
        exact ⟨st, hs, step_mem_succs body st st2 l hl hstep⟩
      exact ih _ st2 hls h2 h

theorem level_request_empty : level request_body 22 [sys_init 1] = [] := by decide

theorem level_request_accounted :
    ∀ k ∈ List.range 22, ∀ st ∈ level request_body k [sys_init 1], accounted request_body st := by
  decide

/-- C21 (the code at the failing input): a shutdown that leaves a client
blocked.  Two clients call a request function.  Along `shutdown_schedule` the
signal reaches the server while client 1 is blocked in `sem_wait(sem2)`, having
read ONLINE from `p->status`; the server then leaves its loop at
`if (!running) break;` without posting `sem2`, and `cleanup` sets the status
OFFLINE and posts `sem3` only.  At the end the server has ended, `sem2` is 0,
client 1 is still in `sem_wait(sem2)`, it has not exited, and no process
can take a step. -/
theorem shutdown_leaves_client_blocked :
    run request_body (shutdown_schedule.take 20) (sys_init 2) =
      some ⟨0, 0, 0, ONLINE, true, ServerPc.scrub, [⟨8, false, false⟩, ⟨1, true, false⟩]⟩ ∧
    shutdown_schedule.drop 20 =
      [Label.signal, Label.server, Label.server, Label.server, Label.server] ∧
    request_body[1]? = some (Stmt.wait_checked Sem.sem2) ∧
    run request_body shutdown_schedule (sys_init 2) =
      some ⟨0, 0, 1, OFFLINE, false, ServerPc.done, [⟨8, false, false⟩, ⟨1, true, false⟩]⟩ ∧
    (∀ l, step request_body
      ⟨0, 0, 1, OFFLINE, false, ServerPc.done, [⟨8, false, false⟩, ⟨1, true, false⟩]⟩ l =
        none) := by
  refine ⟨by decide, by decide, by decide, by decide, ?_⟩
  intro l
  cases l with
  | server => rfl
  | signal => rfl
  | client i =>
    match i with
    | 0 => rfl
    | 1 => rfl
    | i + 2 => rfl

/-! ## Mutual exclusion of the clients -/

/-- The reachable states of the abstraction are closed under its steps. -/
theorem abs_closed_true : abs_closed = true := by decide!

theorem proc_same_eq (p q : Proc) (h : p.same q = true) : p = q := by
  cases p; cases q
  simp only [Proc.same, Bool.and_eq_true, beq_iff_eq] at h
  obtain ⟨⟨h1, h2⟩, h3⟩ := h
  have := Nat.eq_of_beq_eq_true h1
  simp_all

theorem procs_same_eq : ∀ (ps qs : List Proc), procs_same ps qs = true → ps = qs
  | [], [], _ => rfl
  | [], _ :: _, h => by simp [procs_same] at h
  | _ :: _, [], h => by simp [procs_same] at h
  | p :: ps, q :: qs, h => by
    simp only [procs_same, Bool.and_eq_true] at h
    rw [proc_same_eq p q h.1, procs_same_eq ps qs h.2]

theorem nats_same_eq : ∀ (ps qs : List Nat), nats_same ps qs = true → ps = qs
  | [], [], _ => rfl
  | [], _ :: _, h => by simp [nats_same] at h
  | _ :: _, [], h => by simp [nats_same] at h
  | p :: ps, q :: qs, h => by
    simp only [nats_same, Bool.and_eq_true] at h
    rw [Nat.eq_of_beq_eq_true h.1, nats_same_eq ps qs h.2]

theorem server_idx_inj (s t : ServerPc) (h : s.idx = t.idx) : s = t := by
  cases s <;> cases t <;> first | rfl | (simp [ServerPc.idx] at h)

theorem request_type_inj (s t : Request) (h : s.type = t.type) : s = t := by
  cases s <;> cases t <;> first | rfl | (simp [Request.type] at h)

theorem sys_same_eq (s t : Sys) (h : s.same t = true) : s = t := by
  cases s; cases t
  simp only [Sys.same, Bool.and_eq_true, beq_iff_eq] at h
  obtain ⟨⟨⟨⟨⟨⟨h1, h2⟩, h3⟩, h4⟩, h5⟩, h6⟩, h7⟩ := h
  have e1 := Nat.eq_of_beq_eq_true h1
  have e2 := Nat.eq_of_beq_eq_true h2
  have e3 := Nat.eq_of_beq_eq_true h3
  have e4 := Nat.eq_of_beq_eq_true h4
  have e6 := server_idx_inj _ _ (Nat.eq_of_beq_eq_true h6)
  have e7 := procs_same_eq _ _ h7
  simp only at e1 e2 e3 e4 e6 e7
  subst e1 e2 e3 e4 h5 e6 e7
  rfl

theorem abs_same_eq (a b : Abs) (h : a.same b = true) : a = b := by
  cases a; cases b
  simp only [Abs.same, Bool.and_eq_true, beq_iff_eq] at h
  obtain ⟨⟨⟨⟨h1, h2⟩, h3⟩, h4⟩, h5⟩ := h
  have e1 := sys_same_eq _ _ h1
  have e2 := request_type_inj _ _ (Nat.eq_of_beq_eq_true h2)
  have e3 := nats_same_eq _ _ h3
  simp only at e1 e2 e3
  subst e1 e2 e3 h4 h5
  rfl

/-- A step of the abstraction from a reachable state leads to a reachable state,
which is not `abs_bad`. -/
theorem abs_succs_decode (c : Nat) (hc : c ∈ abs_codes) (b : Abs)
    (hb : b ∈ abs_succs (abs_decode c)) : ∃ d ∈ abs_codes, b = abs_decode d := by
  have h := abs_closed_true
  unfold abs_closed at h
  rw [List.all_eq_true] at h
  have h1 := h c hc
  rw [List.all_eq_true] at h1
  have h2 := h1 b hb
  rw [List.any_eq_true] at h2
  obtain ⟨d, hd, hs⟩ := h2
  exact ⟨d, hd, abs_same_eq _ _ hs⟩

theorem abs_decode_status (c : Nat) : (abs_decode c).sys.status = ONLINE := rfl

/-- A step of the server does not depend on the client processes and leaves
them as they are. -/
theorem server_step_clients (st st1 : Sys) (cs : List Proc) (h : server_step st = some st1) :
    server_step { st with clients := cs } = some { st1 with clients := cs } ∧
      st1.clients = st.clients := by
  obtain ⟨s1, s2, s3, stt, run, sv, cl⟩ := st
  cases sv <;> simp only [server_step] at h ⊢ <;> (try split_ifs at h ⊢) <;>
    first
    | (cases h; exact ⟨rfl, rfl⟩)
    | cases h

theorem tag_eq_one (i : Nat) (c : Writer) (h : tag (some i) c = 1) : c = Writer.client i := by
  cases c with
  | zero => simp [tag] at h
  | server => simp [tag] at h
  | client j =>
    simp only [tag] at h
    split_ifs at h with hj
    · cases hj; rfl
    · cases h

theorem tag_eq_zero (act : Option Nat) (c : Writer) (h : tag act c = 0) : c = Writer.zero := by
  cases c with
  | zero => rfl
  | server => simp [tag] at h
  | client j =>
    simp only [tag] at h
    split_ifs at h

/-- Cells that look like a submission from client `i` are its submission. -/
theorem tag_submission (reqs : List Request) (i : Nat) (r : Request) (cells : List Writer)
    (hr : reqs[i]? = some r) (h : cells.map (tag (some i)) = abs_submission r) :
    cells = submission reqs i := by
  unfold submission
  rw [hr]
  match cells, h with
  | [c0, c1, c2, c3], h =>
    cases r <;>
      (simp only [abs_submission, request_writes, List.foldl, List.set, List.map, List.cons.injEq,
        and_true] at h
       obtain ⟨h0, h1, h2, h3⟩ := h
       have e0 := tag_eq_one i _ h0
       have e1 := tag_eq_one i _ h1
       have e2 := tag_eq_one i _ h2
       subst e0 e1 e2
       first
       | (have e3 := tag_eq_zero _ _ h3; subst e3; rfl)
       | (have e3 := tag_eq_one i _ h3; subst e3; rfl))
  | [], h => cases r <;> simp [abs_submission, request_writes] at h
  | [_], h => cases r <;> simp [abs_submission, request_writes] at h
  | [_, _], h => cases r <;> simp [abs_submission, request_writes] at h
  | [_, _, _], h => cases r <;> simp [abs_submission, request_writes] at h
  | _ :: _ :: _ :: _ :: _ :: _, h => cases r <;> simp [abs_submission, request_writes] at h

theorem frame_type_submission (reqs : List Request) (i : Nat) (r : Request)
    (hr : reqs[i]? = some r) : frame_type reqs (submission reqs i) = r.type := by
  unfold submission frame_type
  rw [hr]
  cases r <;> simp [request_writes, hr]

theorem map_tag_foldl (act : Option Nat) (ks : List Nat) (cells : List Writer) :
    (ks.foldl (fun c k => c.set k Writer.server) cells).map (tag act) =
      ks.foldl (fun c k => c.set k 3) (cells.map (tag act)) := by
  induction ks generalizing cells with
  | nil => rfl
  | cons k ks ih =>
    simp only [List.foldl]
    rw [ih, List.map_set]
    rfl

theorem submission_cells (reqs : List Request) (i : Nat) :
    ∀ c ∈ submission reqs i, c = Writer.zero ∨ c = Writer.client i := by
  unfold submission
  cases reqs[i]? with
  | none => simp
  | some r => cases r <;> simp [request_writes]

theorem abs_server_mem (a b : Abs) (h : abs_server a = some b) : b ∈ abs_succs a := by
  simp [abs_succs, h]

theorem abs_client_mem (a b : Abs) (h : abs_client a = some b) : b ∈ abs_succs a := by
  simp [abs_succs, h]

theorem abs_enter_mem (a b : Abs) (r : Request) (h : abs_enter a r = some b) :
    b ∈ abs_succs a := by
  cases r <;> simp [abs_succs, h]

theorem abs_bad_not_decode (d : Nat) : abs_bad ≠ abs_decode d := by
  intro h
  have := congrArg Abs.bad h
  simp [abs_bad, abs_decode] at this

theorem mem_foldl_set (ks : List Nat) (cells : List Writer) (x : Writer)
    (hx : x ≠ Writer.server) (h : x ∈ ks.foldl (fun c k => c.set k Writer.server) cells) :
    x ∈ cells := by
  induction ks generalizing cells with
  | nil => exact h
  | cons k ks ih =>
    rcases List.mem_or_eq_of_mem_set (ih _ h) with h1 | h1
    · exact h1
    · exact absurd h1 hx

/-- A step of the server keeps the processes within the abstraction. -/
theorem good_server (reqs : List Request) (w w1 : World) (c : Nat) (act : Option Nat)
    (hc : c ∈ abs_codes) (hg : Good reqs w (abs_decode c) act)
    (hs : world_step reqs w Label.server = some w1) :
    ∃ d ∈ abs_codes, Good reqs w1 (abs_decode d) act := by
  have hcl := abs_succs_decode c hc
  generalize abs_decode c = a at hg hcl
  cases hss : server_step w.sys with
  | none => simp only [world_step, hss] at hs; cases hs
  | some sys1 =>
    obtain ⟨hcong, hcs⟩ := server_step_clients w.sys sys1 a.sys.clients hss
    rw [← hg.sys] at hcong
    have hsv : a.sys.server = w.sys.server := by rw [hg.sys]
    cases hpc : w.sys.server with
    | process =>
      simp only [world_step, hss, hpc, Option.some.injEq] at hs
      rw [hpc] at hsv
      have hab : abs_server a =
          if a.pending = true ∧ a.sys.clients ≠ [] ∧ a.cells = abs_submission a.req then
            some ⟨{ sys1 with clients := a.sys.clients }, a.req,
              (handler_writes a.req.type).foldl (fun c k => c.set k 3) a.cells, false, false⟩
          else some abs_bad := by
        simp only [abs_server, hcong, hsv]
      by_cases hcond : a.pending = true ∧ a.sys.clients ≠ [] ∧ a.cells = abs_submission a.req
      · rw [if_pos hcond] at hab
        obtain ⟨d, hd, hbd⟩ := hcl _ (abs_server_mem _ _ hab)
        refine ⟨d, hd, ?_⟩
        rw [← hbd]
        obtain ⟨hpen, -, hcells⟩ := hcond
        have hp := hg.pend
        rw [if_pos hpen] at hp
        obtain ⟨hlen, hlast⟩ := hp
        cases act with
        | none =>
          have : w.observed.length < w.submitted.length := by omega
          rw [List.getElem?_eq_getElem this] at hlast
          cases hlast
        | some i =>
          obtain ⟨p, r, hp1, hr, hin, hcl1, hreq⟩ := hg.active
          have hw : w.cells = submission reqs i := by
            apply tag_submission reqs i r w.cells hr
            rw [hg.cells, hcells, hreq]
          have hft : frame_type reqs w.cells = r.type := by
            rw [hw]
            exact frame_type_submission reqs i r hr
          subst hs
          refine ⟨rfl, by simpa only [hcs] using hg.others, ?_, ?_, ?_, ?_, hg.nodup,
            by simpa only [hcs] using hg.subm, ?_⟩
          · exact ⟨p, r, by simpa only [hcs] using hp1, hr, hin, hcl1, hreq⟩
          · show List.map _ (List.foldl _ w.cells _) = List.foldl _ a.cells _
            rw [map_tag_foldl, hg.cells, hft, hreq]
          · show w.observed ++ [w.cells] = _
            rw [List.length_append, List.length_singleton, List.take_succ, hlast,
              List.map_append, ← hg.obs, hw]
            rfl
          · show w.submitted.length = (w.observed ++ [w.cells]).length
            rw [List.length_append, List.length_singleton, hlen]
          · intro j hj
            have hj1 : Writer.client j ∈ w.cells :=
              mem_foldl_set _ _ _ (by simp) hj
            simpa only [hcs] using hg.wrote j hj1
      · rw [if_neg hcond] at hab
        obtain ⟨d, hd, hbd⟩ := hcl _ (abs_server_mem _ _ hab)
        exact absurd hbd (abs_bad_not_decode d)
    | scrub =>
      simp only [world_step, hss, hpc, Option.some.injEq] at hs
      rw [hpc] at hsv
      have hab : abs_server a =
          some ⟨{ sys1 with clients := a.sys.clients }, a.req, [0, 0, 0, 0], a.pending, a.bad⟩ := by
        simp only [abs_server, hcong, hsv]
      obtain ⟨d, hd, hbd⟩ := hcl _ (abs_server_mem _ _ hab)
      refine ⟨d, hd, ?_⟩
      rw [← hbd]
      subst hs
      refine ⟨rfl, by simpa only [hcs] using hg.others, by simpa only [hcs] using hg.active,
        ?_, hg.obs, hg.pend, hg.nodup, by simpa only [hcs] using hg.subm, ?_⟩
      · simp [tag]
      · intro j hj
        simp at hj
    | _ =>
      simp only [world_step, hss, hpc, Option.some.injEq] at hs
      rw [hpc] at hsv
      have hab : abs_server a =
          some ⟨{ sys1 with clients := a.sys.clients }, a.req, a.cells, a.pending, a.bad⟩ := by
        simp only [abs_server, hcong, hsv]
      obtain ⟨d, hd, hbd⟩ := hcl _ (abs_server_mem _ _ hab)
      refine ⟨d, hd, ?_⟩
      rw [← hbd]
      subst hs
      exact ⟨rfl, by simpa only [hcs] using hg.others, by simpa only [hcs] using hg.active,
        hg.cells, hg.obs, hg.pend, hg.nodup, by simpa only [hcs] using hg.subm,
        by simpa only [hcs] using hg.wrote⟩

/-- A statement of a client does not depend on the other client processes; it
leaves the statement counter or advances it by one. -/
theorem stmt_step_clients (st st1 : Sys) (p p1 : Proc) (s : Stmt) (cs : List Proc)
    (h : stmt_step st p s = some (st1, p1)) :
    stmt_step { st with clients := cs } p s = some ({ st1 with clients := cs }, p1) ∧
      st1.clients = st.clients ∧ (p1.pc = p.pc ∨ p1.pc = p.pc + 1) := by
  obtain ⟨s1, s2, s3, stt, run, sv, cl⟩ := st
  cases s with
  | wait_checked sem =>
    cases sem <;> simp only [stmt_step, Sys.sem, Sys.set_sem] at h ⊢ <;> split_ifs at h ⊢ <;>
      (cases h; exact ⟨rfl, rfl, by simp⟩)
  | post sem =>
    cases sem <;> simp only [stmt_step, Sys.sem, Sys.set_sem] at h ⊢ <;>
      (cases h; exact ⟨rfl, rfl, by simp⟩)
  | post_checked sem =>
    cases sem <;> simp only [stmt_step, Sys.sem, Sys.set_sem] at h ⊢ <;> split_ifs at h ⊢ <;>
      (cases h; exact ⟨rfl, rfl, by simp⟩)
  | frame =>
    simp only [stmt_step] at h ⊢
    cases h
    exact ⟨rfl, rfl, by simp⟩

/-- What a step of client `i` consists of. -/
theorem client_step_spec (body : List Stmt) (st st1 : Sys) (i : Nat)
    (h : client_step body st i = some st1) :
    ∃ p stmt st2 p1, st.clients[i]? = some p ∧ p.exited = false ∧ body[p.pc]? = some stmt ∧
      stmt_step st p stmt = some (st2, p1) ∧ st1 = { st2 with clients := st.clients.set i p1 } := by
  unfold client_step at h
  cases hp : st.clients[i]? with
  | none => rw [hp] at h; cases h
  | some p =>
    rw [hp] at h
    dsimp only at h
    cases he : p.exited with
    | true => rw [he] at h; simp at h
    | false =>
      rw [he] at h
      simp only [Bool.false_eq_true, if_false] at h
      cases hb : body[p.pc]? with
      | none => rw [hb] at h; cases h
      | some stmt =>
        rw [hb] at h
        dsimp only at h
        cases hst : stmt_step st p stmt with
        | none => rw [hst] at h; cases h
        | some r =>
          obtain ⟨st2, p1⟩ := r
          rw [hst] at h
          dsimp only at h
          have hc := (stmt_step_clients st st2 p p1 stmt st.clients hst).2.1
          cases h
          exact ⟨p, stmt, st2, p1, rfl, he, hb, hst, by rw [hc]⟩

/-- The step of a client, taken in the state that holds this client alone. -/
theorem client_step_single (body : List Stmt) (st st2 : Sys) (p p1 : Proc) (stmt : Stmt)
    (he : p.exited = false) (hb : body[p.pc]? = some stmt)
    (hst : stmt_step st p stmt = some (st2, p1)) :
    client_step body { st with clients := [p] } 0 = some { st2 with clients := [p1] } := by
  have h := (stmt_step_clients st st2 p p1 stmt [p] hst).1
  unfold client_step
  simp only [List.getElem?_cons_zero, he, Bool.false_eq_true, if_false, hb, h, List.set_cons_zero]

theorem request_stmts_zero (r : Request) :
    (request_stmts r)[0]? = some (Stmt.wait_checked Sem.sem3) := by
  cases r <;> rfl

theorem request_stmts_submit (r : Request) :
    (request_stmts r)[submit_pc r]? = some (Stmt.post Sem.sem1) := by
  cases r <;> rfl

theorem request_cells_zero (r : Request) : (request_cells r)[0]? = some none := by
  cases r <;> rfl

theorem submit_pc_pos (r : Request) : 0 < submit_pc r := by
  cases r <;> decide

theorem request_stmts_length (r : Request) : submit_pc r + 1 < (request_stmts r).length := by
  cases r <;> decide

theorem request_cells_last (r : Request) (pc : Nat) (h : pc + 1 = (request_stmts r).length) :
    (request_cells r)[pc]? = some none := by
  cases r <;> simp [request_stmts, request_writes, reply_accesses] at h <;> subst h <;> rfl

/-- Bookkeeping of the submitted clients over a step of client `i`. -/
theorem subm_step (reqs : List Request) (clients : List Proc) (submitted : List Nat) (i : Nat)
    (p p1 : Proc) (r : Request) (hp : clients[i]? = some p) (hr : reqs[i]? = some r)
    (hpc : p1.pc = p.pc ∨ p1.pc = p.pc + 1) (hsp : p.pc = submit_pc r → p1.pc = p.pc + 1)
    (hsub : ∀ j, j ∈ submitted ↔
      ∃ q s, clients[j]? = some q ∧ reqs[j]? = some s ∧ submit_pc s < q.pc) :
    ∀ j, j ∈ (if p.pc = submit_pc r then submitted ++ [i] else submitted) ↔
      ∃ q s, (clients.set i p1)[j]? = some q ∧ reqs[j]? = some s ∧ submit_pc s < q.pc := by
  have hi : i < clients.length := by
    by_contra hn
    rw [List.getElem?_eq_none (by omega)] at hp
    cases hp
  intro j
  by_cases hj : j = i
  · subst hj
    have h1 : (clients.set j p1)[j]? = some p1 := by
      rw [List.getElem?_set_self hi]
    have h2 := hsub j
    constructor
    · intro hm
      refine ⟨p1, r, h1, hr, ?_⟩
      by_cases hs : p.pc = submit_pc r
      · have := hsp hs
        omega
      · rw [if_neg hs] at hm
        obtain ⟨q, s, hq, hs1, hlt⟩ := h2.1 hm
        rw [hp] at hq
        rw [hr] at hs1
        have e1 : p = q := Option.some.inj hq
        have e2 : r = s := Option.some.inj hs1
        rw [← e1, ← e2] at hlt
        omega
    · rintro ⟨q, s, hq, hs1, hlt⟩
      rw [h1] at hq
      rw [hr] at hs1
      have e1 : p1 = q := Option.some.inj hq
      have e2 : r = s := Option.some.inj hs1
      rw [← e1, ← e2] at hlt
      by_cases hs : p.pc = submit_pc r
      · rw [if_pos hs]
        simp
      · rw [if_neg hs]
        exact h2.2 ⟨p, r, hp, hr, by omega⟩
  · have h1 : (clients.set i p1)[j]? = clients[j]? := by
      rw [List.getElem?_set_ne (Ne.symm hj)]
    rw [h1, ← hsub j]
    split_ifs
    · simp [hj]
    · rfl

theorem nodup_step (reqs : List Request) (clients : List Proc) (submitted : List Nat) (i : Nat)
    (p : Proc) (r : Request) (hp : clients[i]? = some p) (hr : reqs[i]? = some r)
    (hsub : ∀ j, j ∈ submitted ↔
      ∃ q s, clients[j]? = some q ∧ reqs[j]? = some s ∧ submit_pc s < q.pc)
    (hn : submitted.Nodup) :
    (if p.pc = submit_pc r then submitted ++ [i] else submitted).Nodup := by
  split_ifs with hs
  · rw [List.nodup_append]
    refine ⟨hn, List.nodup_singleton i, ?_⟩
    intro a ha hb
    simp only [List.mem_singleton] at hb
    subst hb
    obtain ⟨q, s, hq, hs1, hlt⟩ := (hsub a).1 ha
    rw [hp] at hq
    rw [hr] at hs1
    have e1 : p = q := Option.some.inj hq
    have e2 : r = s := Option.some.inj hs1
    rw [← e1, ← e2] at hlt
    omega
  · exact hn

theorem tag_client_self (i : Nat) : tag (some i) (Writer.client i) = 1 := by
  simp [tag]

theorem abs_client_eq (a : Abs) (st2 : Sys) (p p1 : Proc) (r : Request)
    (hac : a.sys.clients = [p]) (hreq : a.req = r)
    (habs : client_step (request_stmts r) a.sys 0 = some { st2 with clients := [p1] }) :
    abs_client a =
      if p.pc = submit_pc r ∧ a.pending = true then some abs_bad
      else if p1.exited = true then some abs_bad
      else if p1.pc < (request_stmts r).length then
        some ⟨{ st2 with clients := [p1] }, r,
          match (request_cells r)[p.pc]? with
          | some (some k) => a.cells.set k 1
          | _ => a.cells,
          if p.pc = submit_pc r then true else a.pending, false⟩
      else if a.pending = true then some abs_bad
      else some ⟨{ st2 with clients := [] }, Request.register_user,
        a.cells.map (fun c => if c = 1 then 2 else c), false, false⟩ := by
  unfold abs_client
  rw [hac]
  dsimp only
  rw [hreq, habs]

theorem getElem_some_lt {α : Type} (l : List α) (i : Nat) (x : α) (h : l[i]? = some x) :
    i < l.length := by
  by_contra hn
  rw [List.getElem?_eq_none (by omega)] at h
  cases h

theorem tag_none_of_some (i : Nat) (c : Writer) :
    tag none c = (fun t => if t = 1 then 2 else t) (tag (some i) c) := by
  cases c with
  | zero => rfl
  | server => rfl
  | client j =>
    simp only [tag]
    split_ifs <;> simp_all

/-- A step of the client in the region keeps the processes within the
abstraction. -/
theorem good_client_active (reqs : List Request) (w : World) (a : Abs) (i : Nat) (p p1 : Proc)
    (r : Request) (stmt : Stmt) (st2 : Sys)
    (hcl : ∀ b ∈ abs_succs a, ∃ d ∈ abs_codes, b = abs_decode d)
    (hg : Good reqs w a (some i))
    (hp : w.sys.clients[i]? = some p) (hr : reqs[i]? = some r)
    (he : p.exited = false) (hb : (request_stmts r)[p.pc]? = some stmt)
    (hstm : stmt_step w.sys p stmt = some (st2, p1)) :
    ∃ d ∈ abs_codes, ∃ act1, Good reqs
      ⟨{ st2 with clients := w.sys.clients.set i p1 },
        match (request_cells r)[p.pc]? with
        | some (some k) => w.cells.set k (Writer.client i)
        | _ => w.cells,
        w.observed,
        if p.pc = submit_pc r then w.submitted ++ [i] else w.submitted⟩ (abs_decode d) act1 := by
  have hact := hg.active
  simp only [active_ok] at hact
  obtain ⟨p0, r0, hp0, hr0, hin, hac, hreq⟩ := hact
  rw [hp] at hp0
  rw [hr] at hr0
  have e1 : p = p0 := Option.some.inj hp0
  have e2 : r = r0 := Option.some.inj hr0
  rw [← e1] at hin hac
  rw [← e2] at hin hreq
  clear hp0 hr0 e1 e2 p0 r0
  have hi := getElem_some_lt _ _ _ hp
  have ha : a.sys = { w.sys with clients := [p] } := by
    have := hg.sys
    rw [hac] at this
    exact this
  have habs : client_step (request_stmts r) a.sys 0 = some { st2 with clients := [p1] } := by
    rw [ha]
    exact client_step_single _ _ _ _ _ _ he hb hstm
  have hab := abs_client_eq a st2 p p1 r hac hreq habs
  obtain ⟨-, hcl2, hpc⟩ := stmt_step_clients w.sys st2 p p1 stmt [] hstm
  have hsp : p.pc = submit_pc r → p1.pc = p.pc + 1 := by
    intro hs
    rw [hs, request_stmts_submit] at hb
    cases hb
    simp only [stmt_step, Option.some.injEq, Prod.mk.injEq] at hstm
    rw [← hstm.2]
  have hset : (w.sys.clients.set i p1)[i]? = some p1 := List.getElem?_set_self hi
  have hsubm := subm_step reqs w.sys.clients w.submitted i p p1 r hp hr hpc hsp hg.subm
  have hnodup := nodup_step reqs w.sys.clients w.submitted i p r hp hr hg.subm hg.nodup
  by_cases h1 : p.pc = submit_pc r ∧ a.pending = true
  · rw [if_pos h1] at hab
    obtain ⟨d, hd, hbd⟩ := hcl _ (abs_client_mem _ _ hab)
    exact absurd hbd (abs_bad_not_decode d)
  rw [if_neg h1] at hab
  by_cases h2 : p1.exited = true
  · rw [if_pos h2] at hab
    obtain ⟨d, hd, hbd⟩ := hcl _ (abs_client_mem _ _ hab)
    exact absurd hbd (abs_bad_not_decode d)
  rw [if_neg h2] at hab
  by_cases h3 : p1.pc < (request_stmts r).length
  · rw [if_pos h3] at hab
    obtain ⟨d, hd, hbd⟩ := hcl _ (abs_client_mem _ _ hab)
    refine ⟨d, hd, some i, ?_⟩
    rw [← hbd]
    refine ⟨rfl, ?_, ?_, ?_, ?_, ?_, hnodup, hsubm, ?_⟩
    · intro j q s hq hs hj
      have hji : i ≠ j := fun h => hj (by rw [h])
      rw [show ({ st2 with clients := w.sys.clients.set i p1 } : Sys).clients =
        w.sys.clients.set i p1 from rfl, List.getElem?_set_ne hji] at hq
      exact hg.others j q s hq hs hj
    · exact ⟨p1, r, hset, hr, ⟨by have := hin.1; omega, h3⟩, rfl, rfl⟩
    · show List.map (tag (some i)) (match (request_cells r)[p.pc]? with
          | some (some k) => w.cells.set k (Writer.client i)
          | _ => w.cells) =
        match (request_cells r)[p.pc]? with
        | some (some k) => a.cells.set k 1
        | _ => a.cells
      rcases hrc : (request_cells r)[p.pc]? with _ | (_ | k)
      · exact hg.cells
      · exact hg.cells
      · show List.map (tag (some i)) (w.cells.set k (Writer.client i)) = a.cells.set k 1
        rw [List.map_set, hg.cells, tag_client_self]
    · show w.observed = List.map (submission reqs)
        (List.take w.observed.length (if p.pc = submit_pc r then w.submitted ++ [i] else w.submitted))
      by_cases hs : p.pc = submit_pc r
      · have hpf : ¬ a.pending = true := fun h => h1 ⟨hs, h⟩
        have hpe := hg.pend
        rw [if_neg hpf] at hpe
        rw [if_pos hs, List.take_append_of_le_length (by omega)]
        exact hg.obs
      · rw [if_neg hs]
        exact hg.obs
    · show (if (if p.pc = submit_pc r then true else a.pending) = true then
          (if p.pc = submit_pc r then w.submitted ++ [i] else w.submitted).length =
            w.observed.length + 1 ∧
          (if p.pc = submit_pc r then w.submitted ++ [i] else w.submitted)[w.observed.length]? =
            some i
        else (if p.pc = submit_pc r then w.submitted ++ [i] else w.submitted).length =
          w.observed.length)
      by_cases hs : p.pc = submit_pc r
      · have hpf : ¬ a.pending = true := fun h => h1 ⟨hs, h⟩
        have hpe := hg.pend
        rw [if_neg hpf] at hpe
        simp only [if_pos hs, if_true, List.length_append, List.length_singleton]
        refine ⟨by omega, ?_⟩
        rw [← hpe]
        simp
      · simp only [if_neg hs]
        exact hg.pend
    · intro j hj
      by_cases hji : j = i
      · subst hji
        exact ⟨p1, hset, by have := hin.1; omega⟩
      · have hj1 : Writer.client j ∈ w.cells := by
          revert hj
          show Writer.client j ∈ (match (request_cells r)[p.pc]? with
            | some (some k) => w.cells.set k (Writer.client i)
            | _ => w.cells) → _
          rcases hrc : (request_cells r)[p.pc]? with _ | (_ | k)
          · exact id
          · exact id
          · intro hj
            rcases List.mem_or_eq_of_mem_set hj with h | h
            · exact h
            · cases h
              exact absurd rfl hji
        obtain ⟨q, hq, hq0⟩ := hg.wrote j hj1
        refine ⟨q, ?_, hq0⟩
        show (w.sys.clients.set i p1)[j]? = some q
        rw [List.getElem?_set_ne (Ne.symm hji)]
        exact hq
  · rw [if_neg h3] at hab
    by_cases h4 : a.pending = true
    · rw [if_pos h4] at hab
      obtain ⟨d, hd, hbd⟩ := hcl _ (abs_client_mem _ _ hab)
      exact absurd hbd (abs_bad_not_decode d)
    rw [if_neg h4] at hab
    obtain ⟨d, hd, hbd⟩ := hcl _ (abs_client_mem _ _ hab)
    refine ⟨d, hd, none, ?_⟩
    rw [← hbd]
    have hlt : p.pc < (request_stmts r).length := hin.2
    have hlast : p.pc + 1 = (request_stmts r).length := by omega
    have hrc := request_cells_last r p.pc hlast
    have hns : p.pc ≠ submit_pc r := by
      have := request_stmts_length r
      omega
    have hpe := hg.pend
    rw [if_neg h4] at hpe
    refine ⟨rfl, ?_, rfl, ?_, ?_, ?_, hnodup, hsubm, ?_⟩
    · intro j q s hq hs _
      by_cases hji : j = i
      · subst hji
        rw [show ({ st2 with clients := w.sys.clients.set j p1 } : Sys).clients =
          w.sys.clients.set j p1 from rfl, hset] at hq
        rw [hr] at hs
        have e1 : p1 = q := Option.some.inj hq
        have e2 : r = s := Option.some.inj hs
        rw [← e1, ← e2]
        exact fun h => h3 h.2
      · rw [show ({ st2 with clients := w.sys.clients.set i p1 } : Sys).clients =
          w.sys.clients.set i p1 from rfl, List.getElem?_set_ne (Ne.symm hji)] at hq
        exact hg.others j q s hq hs (fun h => hji (Option.some.inj h).symm)
    · show List.map (tag none) (match (request_cells r)[p.pc]? with
          | some (some k) => w.cells.set k (Writer.client i)
          | _ => w.cells) = a.cells.map (fun c => if c = 1 then 2 else c)
      rw [hrc, ← hg.cells, List.map_map]
      apply List.map_congr_left
      intro c _
      exact tag_none_of_some i c
    · show w.observed = List.map (submission reqs)
        (List.take w.observed.length (if p.pc = submit_pc r then w.submitted ++ [i] else w.submitted))
      rw [if_neg hns]
      exact hg.obs
    · show (if false = true then _ else
        (if p.pc = submit_pc r then w.submitted ++ [i] else w.submitted).length =
          w.observed.length)
      rw [if_neg hns, if_neg (by simp)]
      exact hpe
    · intro j hj
      have hj1 : Writer.client j ∈ w.cells := by
        revert hj
        show Writer.client j ∈ (match (request_cells r)[p.pc]? with
          | some (some k) => w.cells.set k (Writer.client i)
          | _ => w.cells) → _
        rw [hrc]
        exact id
      obtain ⟨q, hq, hq0⟩ := hg.wrote j hj1
      by_cases hji : j = i
      · subst hji
        exact ⟨p1, hset, by have := hin.1; omega⟩
      · refine ⟨q, ?_, hq0⟩
        show (w.sys.clients.set i p1)[j]? = some q
        rw [List.getElem?_set_ne (Ne.symm hji)]
        exact hq

/-- A step of a client outside the region keeps the processes within the
abstraction: it reads the status or passes its wait on `sem3`, which it can
only when no client is in the region. -/
theorem good_client_outside (reqs : List Request) (w : World) (c : Nat) (act : Option Nat)
    (i : Nat) (p p1 : Proc) (r : Request) (stmt : Stmt) (st2 : Sys)
    (hc : c ∈ abs_codes) (hg : Good reqs w (abs_decode c) act) (hact : act ≠ some i)
    (hp : w.sys.clients[i]? = some p) (hr : reqs[i]? = some r)
    (he : p.exited = false) (hb : (request_stmts r)[p.pc]? = some stmt)
    (hstm : stmt_step w.sys p stmt = some (st2, p1)) :
    ∃ d ∈ abs_codes, ∃ act1, Good reqs
      ⟨{ st2 with clients := w.sys.clients.set i p1 },
        match (request_cells r)[p.pc]? with
        | some (some k) => w.cells.set k (Writer.client i)
        | _ => w.cells,
        w.observed,
        if p.pc = submit_pc r then w.submitted ++ [i] else w.submitted⟩ (abs_decode d) act1 := by
  have hi := getElem_some_lt _ _ _ hp
  have hpl := getElem_some_lt _ _ _ hb
  have hni := hg.others i p r hp hr hact
  have hp0 : p.pc = 0 := by
    unfold in_region at hni
    omega
  have hns : p.pc ≠ submit_pc r := by
    have := submit_pc_pos r
    omega
  have hstat : w.sys.status = ONLINE := by
    have h1 : (abs_decode c).sys.status = w.sys.status := by rw [hg.sys]
    exact h1.symm.trans (abs_decode_status c)
  have hset : (w.sys.clients.set i p1)[i]? = some p1 := List.getElem?_set_self hi
  obtain ⟨-, hcl2, hpc⟩ := stmt_step_clients w.sys st2 p p1 stmt [] hstm
  have hsubm := subm_step reqs w.sys.clients w.submitted i p p1 r hp hr hpc
    (fun h => absurd h hns) hg.subm
  rw [if_neg hns] at hsubm
  have hwrote : ∀ j, Writer.client j ∈ w.cells →
      ∃ q, (w.sys.clients.set i p1)[j]? = some q ∧ q.pc ≠ 0 := by
    intro j hj
    obtain ⟨q, hq, hq0⟩ := hg.wrote j hj
    have hji : j ≠ i := by
      intro h
      rw [h, hp] at hq
      exact hq0 ((Option.some.inj hq) ▸ hp0)
    exact ⟨q, by rw [List.getElem?_set_ne (Ne.symm hji)]; exact hq, hq0⟩
  rw [hp0, request_stmts_zero] at hb
  have hstmt : Stmt.wait_checked Sem.sem3 = stmt := Option.some.inj hb
  rw [← hstmt] at hstm
  rw [if_neg hns, hp0, request_cells_zero]
  show ∃ d ∈ abs_codes, ∃ act1, Good reqs
    ⟨{ st2 with clients := w.sys.clients.set i p1 }, w.cells, w.observed, w.submitted⟩
    (abs_decode d) act1
  simp only [stmt_step, hstat] at hstm
  cases hck : p.checked with
  | false =>
    rw [hck] at hstm
    simp only [Bool.false_eq_true, if_false, if_true, Option.some.injEq, Prod.mk.injEq] at hstm
    rw [if_neg (by decide)] at hstm
    simp only [Option.some.injEq, Prod.mk.injEq] at hstm
    obtain ⟨hst2, hp1⟩ := hstm
    subst hst2
    have hp1pc : p1.pc = 0 := by rw [← hp1]; exact hp0
    refine ⟨c, hc, act, hg.sys, ?_, ?_, hg.cells, hg.obs, hg.pend, hg.nodup, hsubm, hwrote⟩
    · intro j q s hq hs hj
      by_cases hji : j = i
      · subst hji
        rw [show ({ w.sys with clients := w.sys.clients.set j p1 } : Sys).clients =
          w.sys.clients.set j p1 from rfl, hset] at hq
        have e1 : p1 = q := Option.some.inj hq
        rw [← e1]
        unfold in_region
        omega
      · rw [show ({ w.sys with clients := w.sys.clients.set i p1 } : Sys).clients =
          w.sys.clients.set i p1 from rfl, List.getElem?_set_ne (Ne.symm hji)] at hq
        exact hg.others j q s hq hs hj
    · have hact1 := hg.active
      cases act with
      | none => exact hact1
      | some k =>
        have hki : i ≠ k := fun h => hact (by rw [h])
        simp only [active_ok] at hact1 ⊢
        obtain ⟨pk, rk, hpk, hrk, hin, hac, hreq⟩ := hact1
        exact ⟨pk, rk, by rw [List.getElem?_set_ne hki]; exact hpk, hrk, hin, hac, hreq⟩
  | true =>
    rw [hck] at hstm
    simp only [if_true] at hstm
    by_cases h0 : 0 < w.sys.sem Sem.sem3
    · rw [if_pos h0] at hstm
      simp only [Option.some.injEq, Prod.mk.injEq] at hstm
      obtain ⟨hst2, hp1⟩ := hstm
      rw [hp0, he] at hp1
      subst hst2 hp1
      have hs := hg.sys
      have hcl := abs_succs_decode c hc
      generalize abs_decode c = a at hg hcl hs
      have hs3 : a.sys.sem3 = w.sys.sem3 := by rw [hs]
      have h03 : 0 < a.sys.sem3 := by rw [hs3]; exact h0
      have hact1 := hg.active
      cases act with
      | some k =>
        simp only [active_ok] at hact1
        obtain ⟨pk, rk, hpk, hrk, hin, hac, hreq⟩ := hact1
        have hab : abs_enter a r = some abs_bad := by
          unfold abs_enter
          rw [if_pos h03, hac]
        obtain ⟨d, hd, hbd⟩ := hcl _ (abs_enter_mem _ _ _ hab)
        exact absurd hbd (abs_bad_not_decode d)
      | none =>
        simp only [active_ok] at hact1
        have hab : abs_enter a r =
            some ⟨{ a.sys with sem3 := a.sys.sem3 - 1, clients := [⟨1, false, false⟩] }, r,
              a.cells, a.pending, a.bad⟩ := by
          unfold abs_enter
          rw [if_pos h03, hact1]
        obtain ⟨d, hd, hbd⟩ := hcl _ (abs_enter_mem _ _ _ hab)
        refine ⟨d, hd, some i, ?_⟩
        rw [← hbd]
        have hpe := hg.pend
        have hpf : ¬ a.pending = true := by
          intro hpt
          rw [if_pos hpt] at hpe
          have : w.observed.length < w.submitted.length := by omega
          rw [List.getElem?_eq_getElem this] at hpe
          exact absurd hpe.2 (by simp)
        rw [if_neg hpf] at hpe
        refine ⟨?_, ?_, ?_, ?_, hg.obs, ?_, hg.nodup, hsubm, hwrote⟩
        · show ({ a.sys with sem3 := a.sys.sem3 - 1, clients := [⟨1, false, false⟩] } : Sys) =
            { w.sys with sem3 := w.sys.sem3 - 1, clients := [⟨1, false, false⟩] }
          rw [hs]
        · intro j q s hq hs1 hj
          have hji : i ≠ j := fun h => hj (by rw [h])
          rw [show ({ w.sys.set_sem Sem.sem3 (w.sys.sem Sem.sem3 - 1) with
              clients := w.sys.clients.set i ⟨0 + 1, false, false⟩ } : Sys).clients =
            w.sys.clients.set i ⟨0 + 1, false, false⟩ from rfl, List.getElem?_set_ne hji] at hq
          exact hg.others j q s hq hs1 (by simp)
        · refine ⟨⟨0 + 1, false, false⟩, r, hset, hr, ⟨by simp, ?_⟩, rfl, rfl⟩
          have := request_stmts_length r
          show 0 + 1 < _
          omega
        · show List.map (tag (some i)) w.cells = a.cells
          rw [← hg.cells]
          apply List.map_congr_left
          intro x hx
          cases x with
          | zero => rfl
          | server => rfl
          | client j =>
            have hji : j ≠ i := by
              intro h
              obtain ⟨q, hq, hq0⟩ := hg.wrote j hx
              rw [h, hp] at hq
              exact hq0 ((Option.some.inj hq) ▸ hp0)
            simp [tag, Ne.symm hji]
        · show (if a.pending = true then _ else _)
          rw [if_neg hpf]
          exact hpe
    · rw [if_neg h0] at hstm
      cases hstm

/-- Every step but a signal keeps the processes within the abstraction. -/
theorem good_step (reqs : List Request) (w w1 : World) (c : Nat) (act : Option Nat) (l : Label)
    (hc : c ∈ abs_codes) (hg : Good reqs w (abs_decode c) act) (hl : l ≠ Label.signal)
    (hs : world_step reqs w l = some w1) :
    ∃ d ∈ abs_codes, ∃ act1, Good reqs w1 (abs_decode d) act1 := by
  cases l with
  | server =>
    obtain ⟨d, hd, h⟩ := good_server reqs w w1 c act hc hg hs
    exact ⟨d, hd, act, h⟩
  | signal => exact absurd rfl hl
  | client i =>
    simp only [world_step] at hs
    cases hr : reqs[i]? with
    | none => rw [hr] at hs; cases hs
    | some r =>
      cases hp : w.sys.clients[i]? with
      | none => rw [hr, hp] at hs; cases hs
      | some p =>
        rw [hr, hp] at hs
        dsimp only at hs
        cases hcs : client_step (request_stmts r) w.sys i with
        | none => rw [hcs] at hs; cases hs
        | some sys1 =>
          rw [hcs] at hs
          dsimp only at hs
          obtain ⟨p0, stmt, st2, p1, hp0, he, hb, hstm, hsys1⟩ := client_step_spec _ _ _ _ hcs
          rw [hp] at hp0
          have e1 : p = p0 := Option.some.inj hp0
          rw [← e1] at he hb hstm
          have hw1 := Option.some.inj hs
          rw [hsys1] at hw1
          rw [← hw1]
          by_cases hact : act = some i
          · rw [hact] at hg
            exact good_client_active reqs w _ i p p1 r stmt st2 (abs_succs_decode c hc) hg hp hr
              he hb hstm
          · exact good_client_outside reqs w c act i p p1 r stmt st2 hc hg hact hp hr he hb hstm

/-- Every schedule without a signal keeps the processes within the
abstraction. -/
theorem good_run (reqs : List Request) (sched : List Label) :
    ∀ (w w1 : World) (c : Nat) (act : Option Nat), c ∈ abs_codes →
      Good reqs w (abs_decode c) act → Label.signal ∉ sched →
      world_run reqs sched w = some w1 →
      ∃ d ∈ abs_codes, ∃ act1, Good reqs w1 (abs_decode d) act1 := by
  induction sched with
  | nil =>
    intro w w1 c act hc hg _ hr
    simp only [world_run, Option.some.injEq] at hr
    rw [← hr]
    exact ⟨c, hc, act, hg⟩
  | cons l ls ih =>
    intro w w1 c act hc hg hsig hr
    simp only [List.mem_cons, not_or] at hsig
    simp only [world_run] at hr
    cases hs : world_step reqs w l with
    | none => rw [hs] at hr; cases hr
    | some w2 =>
      rw [hs] at hr
      obtain ⟨d, hd, act1, hg1⟩ := good_step reqs w w2 c act l hc hg (Ne.symm hsig.1) hs
      exact ih w2 w1 d act1 hd hg1 hsig.2 hr

/-- The state at the start is within the abstraction. -/
theorem good_init (reqs : List Request) (n : Nat) :
    Good reqs (world_init n) (abs_decode 272) none := by
  refine ⟨rfl, ?_, rfl, rfl, rfl, rfl, List.nodup_nil, ?_, ?_⟩
  · intro j q r hq _ _
    have hq1 : q ∈ List.replicate n (⟨0, false, false⟩ : Proc) := List.getElem?_mem hq
    rw [List.eq_of_mem_replicate hq1]
    unfold in_region
    simp
  · intro j
    constructor
    · intro h
      cases h
    · rintro ⟨q, r, hq, -, hlt⟩
      have hq1 : q ∈ List.replicate n (⟨0, false, false⟩ : Proc) := List.getElem?_mem hq
      rw [List.eq_of_mem_replicate hq1] at hlt
      simp at hlt
  · intro j hj
    simp [world_init] at hj

/-- What holds of a state within the abstraction. -/
theorem good_facts (reqs : List Request) (w : World) (a : Abs) (act : Option Nat)
    (hg : Good reqs w a act) : exclusive reqs w ∧ linearised reqs w ∧ unmixed w := by
  refine ⟨?_, ⟨hg.obs, hg.nodup, hg.subm, ?_, ?_⟩, ?_⟩
  · intro i j p q r s hp hq hr hs hin1 hin2
    have h1 : act = some i := by
      by_contra h
      exact hg.others i p r hp hr h hin1
    have h2 : act = some j := by
      by_contra h
      exact hg.others j q s hq hs h hin2
    rw [h1] at h2
    exact Option.some.inj h2
  · have := hg.pend
    split_ifs at this <;> omega
  · have := hg.pend
    split_ifs at this <;> omega
  · intro s hs
    rw [hg.obs, List.mem_map] at hs
    obtain ⟨i, -, hi⟩ := hs
    rw [← hi]
    exact ⟨i, submission_cells reqs i⟩

/-- In every reachable state of the abstraction the client in the region stands
at no access to the frame while the server runs a handler or `memset`. -/
theorem abs_quiet_codes : ∀ c ∈ abs_codes, abs_quiet (abs_decode c) := by decide!

/-- The same of the processes, for a state within the abstraction. -/
theorem good_undisturbed (reqs : List Request) (w : World) (a : Abs) (act : Option Nat)
    (hg : Good reqs w a act) (hq : abs_quiet a) : undisturbed reqs w := by
  intro hsv i p r hp hr
  by_cases hin : in_region r p
  · have h1 : act = some i := by
      by_contra h
      exact hg.others i p r hp hr h hin
    have hact := hg.active
    rw [h1] at hact
    simp only [active_ok] at hact
    obtain ⟨p0, r0, hp0, hr0, -, hac, hreq⟩ := hact
    rw [hp] at hp0
    rw [hr] at hr0
    have e1 : p = p0 := Option.some.inj hp0
    have e2 : r = r0 := Option.some.inj hr0
    have hsa : a.sys.server = ServerPc.process ∨ a.sys.server = ServerPc.scrub := by
      rw [hg.sys]
      exact hsv
    have := hq hsa p (by rw [hac, e1]; simp)
    rw [hreq, ← e2] at this
    exact this
  · unfold in_region at hin
    unfold at_frame
    by_cases h0 : p.pc = 0
    · rw [h0, request_stmts_zero]
      simp
    · rw [List.getElem?_eq_none (by omega)]
      simp

end Authme
